import Mathlib

/-!
# Zombie Zone server core — shallow embedding

A shallow embedding of the authoritative game-simulation core of the
`zoombie-zone` repository (server side, TypeScript), together with proofs
about it.  Each definition is translated from the corresponding source
function; doc comments name the source file and symbol.

Modelling conventions, used consistently below:

* JavaScript `number` is modelled as `ℚ` (exact rational arithmetic).
  `Math.floor` is `Rat.floor`; `Math.round x` is `⌊x + 1/2⌋` (JS rounds
  half towards +∞).  Calls of `Math.sqrt` whose result feeds further
  arithmetic are modelled by an explicit oracle parameter `sq : ℚ → ℚ`
  threaded through the affected functions, so every theorem below holds
  for an arbitrary square-root implementation.
* `utils/math.distance(a,b) = Math.sqrt(dx*dx+dy*dy)` is `jsDistance sq`.
* JavaScript `Map` (insertion-ordered, `set` on an existing key updates
  in place, `values()` iterates in insertion order) is an association
  list `List (κ × α)`; `jsSet`/`jsGet`/`jsDelete`/`jsValues` mirror the
  `Map` operations.  A field assignment `obj.f = v` on an object that is
  held in a map is `jsAdjust` (update-if-present: mutating an object that
  was already deleted from its map has no effect on reachable state).
* `Math.random()`­-derived draws are routed through an injectable stream
  `Rand` (`seq : Nat → Nat` plus a cursor); `randBelow n` models
  `Math.floor(Math.random() * n)` as `seq idx % n`.
* `uuidv4()` identifiers are modelled by per-manager fresh counters.
* The unbounded `while` loops (A* main loop, waypoint-consuming movement,
  spawn-queue drain) are written with explicit fuel that dominates the
  loop's bound in the source (the A* loop closes one grid cell per
  iteration, so `40*40+1` fuel is enough; the movement loop consumes one
  waypoint per iteration, so `path.length + 1` is enough).
-/

namespace ZombieZone

/-- JS `Map.prototype.get`. -/
def jsGet {κ α : Type} [DecidableEq κ] (m : List (κ × α)) (k : κ) : Option α :=
  match m with
  | [] => none
  | (k', v) :: rest => if k' = k then some v else jsGet rest k

/-- JS `Map.prototype.set`: update in place if the key is present (keeping
its position in iteration order), otherwise append. -/
def jsSet {κ α : Type} [DecidableEq κ] (m : List (κ × α)) (k : κ) (v : α) : List (κ × α) :=
  match m with
  | [] => [(k, v)]
  | (k', v') :: rest => if k' = k then (k, v) :: rest else (k', v') :: jsSet rest k v

/-- JS `Map.prototype.delete`. -/
def jsDelete {κ α : Type} [DecidableEq κ] (m : List (κ × α)) (k : κ) : List (κ × α) :=
  match m with
  | [] => []
  | (k', v') :: rest => if k' = k then rest else (k', v') :: jsDelete rest k

/-- JS `Map.prototype.has`. -/
def jsHas {κ α : Type} [DecidableEq κ] (m : List (κ × α)) (k : κ) : Bool :=
  (jsGet m k).isSome

/-- A field assignment `m.get(k).f = v` in JS mutates the object if it is
still reachable from the map; if the object was deleted from the map the
write has no observable effect.  Modelled as update-if-present. -/
def jsAdjust {κ α : Type} [DecidableEq κ] (m : List (κ × α)) (k : κ) (f : α → α) :
    List (κ × α) :=
  match m with
  | [] => []
  | (k', v') :: rest => if k' = k then (k', f v') :: rest else (k', v') :: jsAdjust rest k f

/-- JS `Array.from(map.values())`. -/
def jsValues {κ α : Type} (m : List (κ × α)) : List α :=
  m.map Prod.snd

/-- JS `x || d` for an optional numeric field: `undefined` and `0` are falsy. -/
def jsOrElse (x : Option ℚ) (d : ℚ) : ℚ :=
  match x with
  | none => d
  | some v => if v = 0 then d else v

/-- JS truthiness of an optional numeric field (`if (!stats.damage) ...`). -/
def jsTruthyNum (x : Option ℚ) : Bool :=
  match x with
  | none => false
  | some v => v ≠ 0

/-- JS truthiness of an optional string (`if (ownerId) ...`): `undefined`
and the empty string are falsy. -/
def jsTruthyStr (x : Option String) : Bool :=
  match x with
  | none => false
  | some s => s ≠ ""

/-- `Math.round` (JS rounds half towards +∞). -/
def jsRound (x : ℚ) : ℤ :=
  ⌊x + 1/2⌋

/-- `utils/math.ts` `distance(a, b)` with the square root abstracted:
`Math.sqrt(dx*dx + dy*dy)` becomes `sq (dx*dx + dy*dy)`. -/
def jsDistance (sq : ℚ → ℚ) (ax ay bx by_ : ℚ) : ℚ :=
  sq ((ax - bx) * (ax - bx) + (ay - by_) * (ay - by_))

/-- Injectable random source (spec §9 requires randomness to be routed
through an injectable source); `seq` is the stream, `idx` the cursor. -/
structure Rand where
  seq : Nat → Nat
  idx : Nat

/-- `Math.floor(Math.random() * n)` for `n > 0`: one draw from the stream,
reduced mod `n`. -/
def randBelow (r : Rand) (n : Nat) : Nat × Rand :=
  (r.seq r.idx % n, ⟨r.seq, r.idx + 1⟩)

/-- `utils/math.ts` `randomInt(min, max) = Math.floor(Math.random()*(max-min+1))+min`. -/
def randomInt (r : Rand) (min max : ℤ) : ℤ × Rand :=
  let (d, r') := randBelow r (max - min + 1).toNat
  (min + d, r')

-- ════════════════════════════════════════════════════════════════════
-- config/gameConfig.ts
-- ════════════════════════════════════════════════════════════════════

/-- `config/gameConfig.ts` `EnemyType`. -/
inductive EnemyType
  | normalZombie | fastZombie | heavyZombie | zombieBoss
  | soldier | eliteSoldier | general
deriving DecidableEq, Repr

/-- `config/gameConfig.ts` `BuildingType`. -/
inductive BuildingType
  | woodenWall | stoneWall | brickWall | riverBarrier
  | arrowTower | cannon | ballista | explosiveMine | hotAirBalloon
deriving DecidableEq, Repr

/-- `config/gameConfig.ts` `CastleUpgradeType`. -/
inductive CastleUpgradeType
  | fortifyI | fortifyII | treasury | repair
deriving DecidableEq, Repr

/-- `config/gameConfig.ts` `ArmyUnitType`. -/
inductive ArmyUnitType
  | swordsman | archer | mage | knight | commander
deriving DecidableEq, Repr

/-- `config/gameConfig.ts` `EnemyStats`. -/
structure EnemyStats where
  hp : ℚ
  speed : ℚ
  damage : ℚ
  goldReward : ℚ
  special : Option String := none
deriving DecidableEq, Repr

/-- `config/gameConfig.ts` `ENEMY_STATS`. -/
def ENEMY_STATS : EnemyType → EnemyStats
  | .normalZombie => { hp := 50, speed := 1.0, damage := 5, goldReward := 5 }
  | .fastZombie => { hp := 30, speed := 2.0, damage := 4, goldReward := 8 }
  | .heavyZombie => { hp := 150, speed := 0.6, damage := 10, goldReward := 12,
                      special := some "wall_breaker" }
  | .zombieBoss => { hp := 1000, speed := 0.8, damage := 25, goldReward := 50,
                     special := some "aoe_slam" }
  | .soldier => { hp := 80, speed := 1.2, damage := 8, goldReward := 10,
                  special := some "shield" }
  | .eliteSoldier => { hp := 200, speed := 1.0, damage := 15, goldReward := 20,
                       special := some "rally" }
  | .general => { hp := 3000, speed := 0.7, damage := 40, goldReward := 200,
                  special := some "charge_warcry" }

/-- `config/gameConfig.ts` `BuildingStats`. -/
structure BuildingStats where
  gridWidth : Nat
  gridHeight : Nat
  hp : ℚ
  cost : ℚ
  damage : Option ℚ := none
  range : Option ℚ := none
  attackSpeed : Option ℚ := none
  isWall : Bool
  isOneTime : Bool := false
  aoeRadius : Option ℚ := none
  special : Option String := none
deriving DecidableEq, Repr

/-- `config/gameConfig.ts` `BUILDING_STATS`. -/
def BUILDING_STATS : BuildingType → BuildingStats
  | .woodenWall => { gridWidth := 1, gridHeight := 1, hp := 100, cost := 5, isWall := true }
  | .stoneWall => { gridWidth := 1, gridHeight := 1, hp := 250, cost := 12, isWall := true }
  | .brickWall => { gridWidth := 1, gridHeight := 1, hp := 500, cost := 25, isWall := true }
  | .riverBarrier => { gridWidth := 2, gridHeight := 1, hp := 150, cost := 20, isWall := true,
                       special := some "slow_50" }
  | .arrowTower => { gridWidth := 2, gridHeight := 1, hp := 200, cost := 25, damage := some 8,
                     range := some 5, attackSpeed := some 1.0, isWall := false }
  | .cannon => { gridWidth := 2, gridHeight := 2, hp := 250, cost := 50, damage := some 25,
                 range := some 6, attackSpeed := some 3.0, isWall := false, aoeRadius := some 2 }
  | .ballista => { gridWidth := 2, gridHeight := 1, hp := 180, cost := 35, damage := some 40,
                   range := some 8, attackSpeed := some 2.5, isWall := false,
                   special := some "pierce_2" }
  | .explosiveMine => { gridWidth := 1, gridHeight := 1, hp := 50, cost := 10, damage := some 80,
                        range := some 0, isWall := false, isOneTime := true,
                        aoeRadius := some 1.5 }
  | .hotAirBalloon => { gridWidth := 2, gridHeight := 2, hp := 150, cost := 80, damage := some 30,
                        range := some 4, attackSpeed := some 4.0, isWall := false,
                        aoeRadius := some 2, special := some "aerial" }

/-- `config/gameConfig.ts` `CASTLE_CONFIG.upgrades[...]` entry (fields that a
given upgrade does not define in the source are never read for it). -/
structure UpgradeCfg where
  cost : ℚ
  hpBonus : ℚ := 0
  goldBonusPerKill : ℚ := 0
  hpRestore : ℚ := 0
deriving DecidableEq, Repr

/-- `config/gameConfig.ts` `CASTLE_CONFIG.upgrades`. -/
def CASTLE_UPGRADES : CastleUpgradeType → UpgradeCfg
  | .fortifyI => { cost := 100, hpBonus := 300 }
  | .fortifyII => { cost := 200, hpBonus := 500 }
  | .treasury => { cost := 150, goldBonusPerKill := 2 }
  | .repair => { cost := 50, hpRestore := 200 }

/-- `config/gameConfig.ts` `CASTLE_CONFIG.baseHp`. -/
def CASTLE_BASE_HP : ℚ := 1000

/-- `config/gameConfig.ts` `ECONOMY_CONFIG`. -/
def startingGoldPerPlayer : ℚ := 500

/-- `config/gameConfig.ts` `ECONOMY_CONFIG.sellRefundPercent`. -/
def sellRefundPercent : ℚ := 0.5

/-- `config/gameConfig.ts` `ArmyUnitStats`. -/
structure ArmyUnitStats where
  hp : ℚ
  speed : ℚ
  damage : ℚ
  range : ℚ
  attackSpeed : ℚ
  cost : ℚ
  special : Option String := none
deriving DecidableEq, Repr

/-- `config/gameConfig.ts` `ARMY_UNIT_STATS`. -/
def ARMY_UNIT_STATS : ArmyUnitType → ArmyUnitStats
  | .swordsman => { hp := 60, speed := 1.2, damage := 8, range := 1.5, attackSpeed := 1.0,
                    cost := 30 }
  | .archer => { hp := 40, speed := 1.0, damage := 12, range := 6, attackSpeed := 1.5,
                 cost := 40 }
  | .mage => { hp := 35, speed := 0.8, damage := 20, range := 5, attackSpeed := 2.0,
               cost := 60, special := some "aoe_2" }
  | .knight => { hp := 120, speed := 1.5, damage := 15, range := 1.5, attackSpeed := 1.2,
                 cost := 80 }
  | .commander => { hp := 200, speed := 1.0, damage := 25, range := 2, attackSpeed := 1.5,
                    cost := 120, special := some "rally_nearby" }

/-- `config/gameConfig.ts` `CASTLE_POSITIONS` (up to 4 players). -/
def CASTLE_POSITIONS : List (ℤ × ℤ) := [(20, 20), (8, 8), (32, 8), (8, 32)]

/-- `config/gameConfig.ts` `MAP_CONFIG.gridWidth`. -/
def gridWidth : ℤ := 40

/-- `config/gameConfig.ts` `MAP_CONFIG.gridHeight`. -/
def gridHeight : ℤ := 40

/-- `config/gameConfig.ts` `MAP_CONFIG.castleCenterX`. -/
def castleCenterX : ℤ := 20

/-- `config/gameConfig.ts` `MAP_CONFIG.castleCenterY`. -/
def castleCenterY : ℤ := 20

/-- `config/gameConfig.ts` `WAVE_CONFIG`. -/
structure WaveConfig where
  preparationTime : ℚ
  waveBreakTime : ℚ
  totalZombieWaves : Nat
  totalInvaderWaves : Nat
  hpScalePerWave : ℚ
  speedScalePerWave : ℚ
  spawnCountScale : Nat
deriving Repr

/-- `config/gameConfig.ts` `WAVE_CONFIG` values. -/
def WAVE_CONFIG : WaveConfig :=
  { preparationTime := 150, waveBreakTime := 30, totalZombieWaves := 15,
    totalInvaderWaves := 5, hpScalePerWave := 0.15, speedScalePerWave := 0.05,
    spawnCountScale := 2 }

/-- `config/gameConfig.ts` `WaveComposition`. -/
structure WaveComposition where
  baseCount : Nat
  normalPercent : ℚ
  fastPercent : ℚ
  heavyPercent : ℚ
deriving Repr

/-- `config/gameConfig.ts` `ZOMBIE_WAVE_COMPOSITIONS` combined with
`WaveManager.getCompositionForWave`'s bracket lookup. -/
def getCompositionForWave (wave : Nat) : WaveComposition :=
  if 1 ≤ wave ∧ wave ≤ 3 then
    { baseCount := 8, normalPercent := 1.0, fastPercent := 0, heavyPercent := 0 }
  else if 4 ≤ wave ∧ wave ≤ 6 then
    { baseCount := 12, normalPercent := 0.7, fastPercent := 0.3, heavyPercent := 0 }
  else if 7 ≤ wave ∧ wave ≤ 9 then
    { baseCount := 16, normalPercent := 0.5, fastPercent := 0.3, heavyPercent := 0.2 }
  else if 10 ≤ wave ∧ wave ≤ 12 then
    { baseCount := 20, normalPercent := 0.4, fastPercent := 0.3, heavyPercent := 0.3 }
  else if 13 ≤ wave ∧ wave ≤ 14 then
    { baseCount := 25, normalPercent := 0.3, fastPercent := 0.35, heavyPercent := 0.35 }
  else
    { baseCount := 30, normalPercent := 0.3, fastPercent := 0.35, heavyPercent := 0.35 }

/-- `config/gameConfig.ts` `InvaderWaveConfig`. -/
structure InvaderWaveConfig where
  appearsAfterZombieWave : Nat
  soldiers : Nat
  elites : Nat
  hasGeneral : Bool
deriving Repr

/-- `config/gameConfig.ts` `INVADER_WAVES`. -/
def INVADER_WAVES : List InvaderWaveConfig :=
  [ { appearsAfterZombieWave := 3, soldiers := 6, elites := 0, hasGeneral := false },
    { appearsAfterZombieWave := 6, soldiers := 8, elites := 2, hasGeneral := false },
    { appearsAfterZombieWave := 9, soldiers := 10, elites := 4, hasGeneral := false },
    { appearsAfterZombieWave := 12, soldiers := 12, elites := 6, hasGeneral := false },
    { appearsAfterZombieWave := 15, soldiers := 15, elites := 8, hasGeneral := true } ]

/-- `config/gameConfig.ts` `BOSS_SLAM_CONFIG` (interval in ms). -/
def BOSS_SLAM_interval : ℚ := 10000

/-- `config/gameConfig.ts` `BOSS_SLAM_CONFIG.radius`. -/
def BOSS_SLAM_radius : ℚ := 3

/-- `config/gameConfig.ts` `BOSS_SLAM_CONFIG.damage`. -/
def BOSS_SLAM_damage : ℚ := 40

/-- `config/gameConfig.ts` `GENERAL_CONFIG.warCryInterval` (ms). -/
def GENERAL_warCryInterval : ℚ := 15000

/-- `config/gameConfig.ts` `GENERAL_CONFIG.warCryHealPercent`. -/
def GENERAL_warCryHealPercent : ℚ := 0.1

/-- `config/gameConfig.ts` `CASTLE_KING_CONFIG`. -/
def CASTLE_KING_damage : ℚ := 50

/-- `config/gameConfig.ts` `CASTLE_KING_CONFIG.range`. -/
def CASTLE_KING_range : ℚ := 6

/-- `config/gameConfig.ts` `CASTLE_KING_CONFIG.attackSpeed` (seconds). -/
def CASTLE_KING_attackSpeed : ℚ := 3.0

-- ════════════════════════════════════════════════════════════════════
-- pathfinding/Grid.ts
-- ════════════════════════════════════════════════════════════════════

/-- `pathfinding/Grid.ts` `Grid`.  The source stores a `40×40` boolean
walkability matrix (all cells initially walkable) and an integer
wall-height matrix (all `0`); here `blocked` lists the cells whose
walkability flag is `false` and `wallH` holds the nonzero-capable
wall-height entries (missing key = `0`, the constructor's fill value). -/
structure Grid where
  blocked : List (ℤ × ℤ)
  wallH : List ((ℤ × ℤ) × Nat)
  castlePositions : List (ℤ × ℤ)
deriving DecidableEq, Repr

/-- `new Grid()`: every cell walkable, every wall height `0`, no castles. -/
def Grid.new : Grid :=
  { blocked := [], wallH := [], castlePositions := [] }

/-- `Grid.isInBounds`. -/
def Grid.isInBounds (x y : ℤ) : Bool :=
  0 ≤ x ∧ x < gridWidth ∧ 0 ≤ y ∧ y < gridHeight

/-- `Grid.isWalkable`. -/
def Grid.isWalkable (g : Grid) (x y : ℤ) : Bool :=
  Grid.isInBounds x y ∧ (x, y) ∉ g.blocked

/-- The rectangle of cells `(x+dx, y+dy)`, `0 ≤ dx < w`, `0 ≤ dy < h`,
in the source's loop order (`dx` outer, `dy` inner). -/
def rectCells (x y : ℤ) (w h : Nat) : List (ℤ × ℤ) :=
  (List.range w).flatMap fun (dx : ℕ) =>
    (List.range h).map fun (dy : ℕ) => (x + (dx : ℤ), y + (dy : ℤ))

/-- `Grid.setBlocked(x, y, w, h)`: mark every in-bounds cell of the
rectangle non-walkable. -/
def Grid.setBlocked (g : Grid) (x y : ℤ) (w h : Nat) : Grid :=
  { g with blocked :=
      g.blocked ++ (rectCells x y w h).filter fun p => Grid.isInBounds p.1 p.2 }

/-- `Grid.setWalkable(x, y, w, h)`. -/
def Grid.setWalkable (g : Grid) (x y : ℤ) (w h : Nat) : Grid :=
  { g with blocked := g.blocked.filter (fun p =>
      ¬ (p ∈ (rectCells x y w h).filter fun q => Grid.isInBounds q.1 q.2)) }

/-- `Grid.setWallHeight(x, y, w, h, height)`. -/
def Grid.setWallHeight (g : Grid) (x y : ℤ) (w h : Nat) (height : Nat) : Grid :=
  let cells := (rectCells x y w h).filter (fun p => Grid.isInBounds p.1 p.2)
  { g with wallH := cells.foldl (fun m p => jsSet m p height) g.wallH }

/-- `Grid.getWallHeight`. -/
def Grid.getWallHeight (g : Grid) (x y : ℤ) : Nat :=
  if Grid.isInBounds x y then (jsGet g.wallH (x, y)).getD 0 else 0

/-- `Grid.initCastles(positions)`: block a 4×4 footprint centred 2 cells
up-left of each given centre. -/
def Grid.initCastles (g : Grid) (positions : List (ℤ × ℤ)) : Grid :=
  let g' := { g with castlePositions := positions }
  positions.foldl (fun acc pos => acc.setBlocked (pos.1 - 2) (pos.2 - 2) 4 4) g'

/-- `Grid.initCastle()`: the single-castle variant (4×4 block starting at
`castleCenterX - 2` in both coordinates). -/
def Grid.initCastle (g : Grid) : Grid :=
  let g' := (g.setBlocked (castleCenterX - 2) (castleCenterX - 2) 4 4)
  { g' with castlePositions := [(castleCenterX, castleCenterY)] }

/-- `Grid.getClimbableGrid()`: a fresh grid where only the castle
footprints are blocked, with wall heights copied over. -/
def Grid.getClimbableGrid (g : Grid) : Grid :=
  let climbable :=
    if g.castlePositions.length > 0 then Grid.new.initCastles g.castlePositions
    else Grid.new.initCastle
  { climbable with wallH := g.wallH }

/-- `Grid.getNeighbors(x, y)`: walkable cardinal neighbours in the
source's direction order `(+1,0), (-1,0), (0,+1), (0,-1)`. -/
def Grid.getNeighbors (g : Grid) (x y : ℤ) : List (ℤ × ℤ) :=
  [(x + 1, y), (x - 1, y), (x, y + 1), (x, y - 1)].filter fun p =>
    g.isWalkable p.1 p.2

/-- `Grid.clone()`: a deep copy; with immutable state this is the
identity. -/
def Grid.clone (g : Grid) : Grid := g

-- ════════════════════════════════════════════════════════════════════
-- pathfinding/AStar.ts
-- ════════════════════════════════════════════════════════════════════

/-- `AStar.ts` `manhattan(ax, ay, bx, by)`. -/
def manhattan (ax ay bx by_ : ℤ) : Nat :=
  (ax - bx).natAbs + (ay - by_).natAbs

/-- `AStar.ts` `AStarNode`.  The `parent` pointer chain is represented by
`pathRev`: the reversed path from the start to this node (this node's
position at the head); `f` is not stored because the source maintains
`f = g + h` at every write. -/
structure ANode where
  x : ℤ
  y : ℤ
  g : Nat
  h : Nat
  pathRev : List (ℤ × ℤ)
deriving DecidableEq, Repr

/-- `f = g + h` of a node (the source stores `f` but always writes
`f = g + h`). -/
def ANode.f (n : ANode) : Nat := n.g + n.h

/-- Key of a node in the `openMap` (`nodeKey`). -/
def ANode.key (n : ANode) : ℤ × ℤ := (n.x, n.y)

/-- The open-map scan `node.f < current.f || (node.f === current.f &&
node.h < current.h)`. -/
def aBetter (a b : ANode) : Bool :=
  a.f < b.f ∨ (a.f = b.f ∧ a.h < b.h)

/-- The `for (const node of openMap.values())` minimum scan (starting from
`current = null`, so the first node always wins the first comparison). -/
def selectMin (open_ : List ANode) : Option ANode :=
  open_.foldl
    (fun cur node =>
      match cur with
      | none => some node
      | some c => if aBetter node c then some node else cur)
    none

/-- `openMap.get(nodeKey(...))` on the open list. -/
def openFind (open_ : List ANode) (k : ℤ × ℤ) : Option ANode :=
  match open_ with
  | [] => none
  | n :: rest => if n.key = k then some n else openFind rest k

/-- `openMap.set` when the key is already present: the source mutates the
existing node's `g`, `f` and `parent` in place. -/
def openUpdate (open_ : List ANode) (k : ℤ × ℤ) (g : Nat) (path : List (ℤ × ℤ)) :
    List ANode :=
  match open_ with
  | [] => []
  | n :: rest =>
    if n.key = k then { n with g := g, pathRev := path } :: rest
    else n :: openUpdate rest k g path

/-- `openMap.delete(currentKey)`. -/
def openDelete (open_ : List ANode) (k : ℤ × ℤ) : List ANode :=
  match open_ with
  | [] => []
  | n :: rest => if n.key = k then rest else n :: openDelete rest k

/-- One neighbour-relaxation step of the A* main loop (the body of
`for (const neighbor of neighbors)`). -/
def relaxNeighbor (endX endY : ℤ) (cur : ANode) (closed : List (ℤ × ℤ))
    (open_ : List ANode) (nb : ℤ × ℤ) : List ANode :=
  if nb ∈ closed then open_
  else
    let tentativeG := cur.g + 1
    match openFind open_ nb with
    | some existing =>
      if tentativeG < existing.g then openUpdate open_ nb tentativeG (nb :: cur.pathRev)
      else open_
    | none =>
      let h := manhattan nb.1 nb.2 endX endY
      open_ ++ [{ x := nb.1, y := nb.2, g := tentativeG, h := h, pathRev := nb :: cur.pathRev }]

/-- The A* main loop (`while (openMap.size > 0)`); `fuel` dominates the
source loop's iteration count (each iteration moves one grid cell into
`closedSet`, and there are only `40*40` cells). -/
def astarLoop (grid : Grid) (endX endY : ℤ) :
    Nat → List ANode → List (ℤ × ℤ) → List (ℤ × ℤ)
  | 0, _, _ => []
  | fuel + 1, open_, closed =>
    match selectMin open_ with
    | none => []
    | some cur =>
      if cur.x = endX ∧ cur.y = endY then cur.pathRev.reverse
      else
        let open' := openDelete open_ cur.key
        let closed' := closed ++ [cur.key]
        let open'' := (grid.getNeighbors cur.x cur.y).foldl
          (relaxNeighbor endX endY cur closed') open'
        astarLoop grid endX endY fuel open'' closed'

/-- `AStar.ts`: the 8-neighbour candidate list around a blocked target, in
source order. -/
def blockedTargetNeighbors (endX endY : ℤ) : List (ℤ × ℤ) :=
  [ (endX - 1, endY), (endX + 1, endY), (endX, endY - 1), (endX, endY + 1),
    (endX - 1, endY - 1), (endX + 1, endY - 1), (endX - 1, endY + 1), (endX + 1, endY + 1) ]

/-- `AStar.ts`: first pass of the blocked-target redirection — the closest
(by Manhattan distance to the start) walkable 8-neighbour of the target. -/
def bestNeighbor8 (grid : Grid) (startX startY endX endY : ℤ) :
    Option (ℤ × ℤ) × Nat :=
  (blockedTargetNeighbors endX endY).foldl
    (fun (acc : Option (ℤ × ℤ) × Nat) n =>
      if grid.isWalkable n.1 n.2 then
        let d := manhattan n.1 n.2 startX startY
        if d < acc.2 then (some n, d) else acc
      else acc)
    (none, 10 ^ 10)

/-- `AStar.ts`: second pass — the 5×5 ring scan (`dx, dy ∈ [-2, 2]`, `dx`
outer), minimising Manhattan distance to the target and carrying over the
best distance from the first pass. -/
def bestNeighborRing (grid : Grid) (endX endY : ℤ) (acc0 : Option (ℤ × ℤ) × Nat) :
    Option (ℤ × ℤ) × Nat :=
  ((List.range 5).flatMap fun dx => (List.range 5).map fun dy =>
      (endX + dx - 2, endY + dy - 2)).foldl
    (fun (acc : Option (ℤ × ℤ) × Nat) n =>
      if grid.isWalkable n.1 n.2 then
        let d := manhattan n.1 n.2 endX endY
        if d < acc.2 then (some n, d) else acc
      else acc)
    acc0

/-- The fuel given to the A* loop: one more than the number of grid
cells. -/
def astarFuel : Nat := 1601

/-- `AStar.ts` `findPath(grid, startX, startY, endX, endY)`. -/
def findPath (grid : Grid) (startX startY endX endY : ℤ) : List (ℤ × ℤ) :=
  if ¬ (Grid.isInBounds startX startY ∧ Grid.isInBounds endX endY) then []
  else
    let targetIsBlocked := ¬ grid.isWalkable endX endY
    let resolved : Option (ℤ × ℤ) :=
      if targetIsBlocked then
        let first := bestNeighbor8 grid startX startY endX endY
        match first.1 with
        | some n => some n
        | none => (bestNeighborRing grid endX endY first).1
      else some (endX, endY)
    match resolved with
    | none => []
    | some (actualEndX, actualEndY) =>
      if ¬ grid.isWalkable startX startY then []
      else if startX = actualEndX ∧ startY = actualEndY then [(startX, startY)]
      else
        let startNode : ANode :=
          { x := startX, y := startY, g := 0,
            h := manhattan startX startY actualEndX actualEndY,
            pathRev := [(startX, startY)] }
        astarLoop grid actualEndX actualEndY astarFuel [startNode] []

-- ════════════════════════════════════════════════════════════════════
-- game/EconomyManager.ts
-- ════════════════════════════════════════════════════════════════════

/-- `game/EconomyManager.ts` `EconomyManager` state. -/
structure EconState where
  playerGold : List (String × ℚ)
  totalGoldEarned : ℚ
  goldBonusPerKill : ℚ
deriving DecidableEq, Repr

/-- `EconomyManager.init(playerIds)`. -/
def EconState.init (playerIds : List String) : EconState :=
  { playerGold := playerIds.foldl (fun m id => jsSet m id startingGoldPerPlayer) [],
    totalGoldEarned := startingGoldPerPlayer * playerIds.length,
    goldBonusPerKill := 0 }

/-- `EconomyManager.getGold(playerId)` (`?? 0`). -/
def EconState.getGold (s : EconState) (playerId : String) : ℚ :=
  (jsGet s.playerGold playerId).getD 0

/-- `EconomyManager.getTotalGold()`. -/
def EconState.getTotalGold (s : EconState) : ℚ :=
  (jsValues s.playerGold).foldl (· + ·) 0

/-- `EconomyManager.addGold(playerId, amount)`. -/
def EconState.addGold (s : EconState) (playerId : String) (amount : ℚ) : EconState :=
  { s with
    playerGold := jsSet s.playerGold playerId (s.getGold playerId + amount),
    totalGoldEarned := s.totalGoldEarned + amount }

/-- `EconomyManager.addGoldAll(amount)`: adds the amount to every
player's balance. -/
def EconState.addGoldAll (s : EconState) (amount : ℚ) : EconState :=
  { s with
    playerGold := s.playerGold.map (fun kv => (kv.1, kv.2 + amount)),
    totalGoldEarned := s.totalGoldEarned + amount * s.playerGold.length }

/-- `EconomyManager.spendGold(playerId, amount)`: fails (returning `false`
and leaving the ledger untouched) when the balance is insufficient. -/
def EconState.spendGold (s : EconState) (playerId : String) (amount : ℚ) :
    Bool × EconState :=
  let current := s.getGold playerId
  if current < amount then (false, s)
  else (true, { s with playerGold := jsSet s.playerGold playerId (current - amount) })

/-- `EconomyManager.setGoldBonusPerKill(bonus)`. -/
def EconState.setGoldBonusPerKill (s : EconState) (bonus : ℚ) : EconState :=
  { s with goldBonusPerKill := bonus }

-- ════════════════════════════════════════════════════════════════════
-- game/CastleManager.ts
-- ════════════════════════════════════════════════════════════════════

/-- `game/CastleManager.ts` `PlayerCastle`.  `purchasedUpgrades` is a JS
`Set` (insertion-ordered, no duplicates). -/
structure PlayerCastle where
  playerId : String
  hp : ℚ
  maxHp : ℚ
  centerX : ℚ
  centerY : ℚ
  purchasedUpgrades : List CastleUpgradeType
  goldBonusPerKill : ℚ
  lastKingAttackTime : ℚ
deriving DecidableEq, Repr

/-- `game/CastleManager.ts` `CastleManager` state (`castles` map). -/
structure CastleState where
  castles : List (String × PlayerCastle)
deriving DecidableEq, Repr

/-- `CastleManager.initMultiple(playerIds)`: one castle per player at
`CASTLE_POSITIONS[i] || CASTLE_POSITIONS[0]`. -/
def CastleState.initMultiple (playerIds : List String) : CastleState :=
  { castles :=
      (List.range playerIds.length).foldl
        (fun m i =>
          match playerIds.get? i with
          | none => m
          | some pid =>
            let pos := (CASTLE_POSITIONS.get? i).getD ((20 : ℤ), (20 : ℤ))
            jsSet m pid
              { playerId := pid, hp := CASTLE_BASE_HP, maxHp := CASTLE_BASE_HP,
                centerX := (pos.1 : ℚ), centerY := (pos.2 : ℚ),
                purchasedUpgrades := [], goldBonusPerKill := 0,
                lastKingAttackTime := 0 })
        [] }

/-- `CastleManager.getCastle(playerId)`. -/
def CastleState.getCastle (s : CastleState) (playerId : String) : Option PlayerCastle :=
  jsGet s.castles playerId

/-- `CastleManager.getAllCastles()`. -/
def CastleState.getAllCastles (s : CastleState) : List PlayerCastle :=
  jsValues s.castles

/-- `CastleManager.getHp(playerId)` for a given player (`?? 0`). -/
def CastleState.getHp (s : CastleState) (playerId : String) : ℚ :=
  match s.getCastle playerId with
  | some c => c.hp
  | none => 0

/-- `CastleManager.getGoldBonusPerKill(playerId?)`: a given player's bonus
(`?? 0`), or — with no argument — the maximum bonus across all castles. -/
def CastleState.getGoldBonusPerKill (s : CastleState) (playerId : Option String) : ℚ :=
  match playerId with
  | some pid => match s.getCastle pid with
    | some c => c.goldBonusPerKill
    | none => 0
  | none => s.getAllCastles.foldl (fun mx c => if c.goldBonusPerKill > mx then c.goldBonusPerKill else mx) 0

/-- `CastleManager.takeDamage(playerId, amount)`: clamps hp at 0. -/
def CastleState.takeDamage (s : CastleState) (playerId : String) (amount : ℚ) : CastleState :=
  { castles := jsAdjust s.castles playerId (fun c => { c with hp := max 0 (c.hp - amount) }) }

/-- `CastleManager.isAllDestroyed()`. -/
def CastleState.isAllDestroyed (s : CastleState) : Bool :=
  s.getAllCastles.all fun c => ¬ (c.hp > 0)

/-- `CastleManager.getNearestCastle(x, y)`: nearest castle with `hp > 0`
(Euclidean distance, square root abstracted as `sq`). -/
def CastleState.getNearestCastle (sq : ℚ → ℚ) (s : CastleState) (x y : ℚ) :
    Option PlayerCastle :=
  (s.getAllCastles.foldl
    (fun (acc : Option (PlayerCastle × ℚ)) c =>
      if c.hp ≤ 0 then acc
      else
        let d := sq ((c.centerX - x) * (c.centerX - x) + (c.centerY - y) * (c.centerY - y))
        match acc with
        | none => some (c, d)
        | some (_, nd) => if d < nd then some (c, d) else acc)
    none).map Prod.fst

/-- `CastleManager.repair(playerId)`: restore hp, clamped at `maxHp`;
repeatable, always succeeds for an existing castle. -/
def CastleState.repair (s : CastleState) (playerId : String) :
    (Bool × ℚ) × CastleState :=
  match s.getCastle playerId with
  | none => ((false, 0), s)
  | some _ =>
    let cfg := CASTLE_UPGRADES .repair
    ((true, cfg.cost),
     { castles := jsAdjust s.castles playerId
        (fun c => { c with hp := min c.maxHp (c.hp + cfg.hpRestore) }) })

/-- Result of `CastleManager.upgrade`. -/
structure UpgradeResult where
  success : Bool
  cost : ℚ
  reason : Option String := none
deriving DecidableEq, Repr

/-- `CastleManager.upgrade(playerId, type)`: repair delegates to `repair`;
one-time upgrades reject duplicates; `FortifyII` requires `FortifyI`. -/
def CastleState.upgrade (s : CastleState) (playerId : String) (type : CastleUpgradeType) :
    UpgradeResult × CastleState :=
  match s.getCastle playerId with
  | none => ({ success := false, cost := 0, reason := some "Castle not found" }, s)
  | some castle =>
    if type = .repair then
      let ((ok, cost), s') := s.repair playerId
      ({ success := ok, cost := cost }, s')
    else if type ∈ castle.purchasedUpgrades then
      ({ success := false, cost := 0, reason := some "Already purchased" }, s)
    else if type = .fortifyII ∧ .fortifyI ∉ castle.purchasedUpgrades then
      ({ success := false, cost := 0, reason := some "FortifyI required first" }, s)
    else
      let s' : CastleState :=
        { castles := jsAdjust s.castles playerId
            (fun c => { c with purchasedUpgrades := c.purchasedUpgrades ++ [type] }) }
      match type with
      | .fortifyI =>
        let cfg := CASTLE_UPGRADES .fortifyI
        ({ success := true, cost := cfg.cost },
         { castles := jsAdjust s'.castles playerId
            (fun c => { c with maxHp := c.maxHp + cfg.hpBonus, hp := c.hp + cfg.hpBonus }) })
      | .fortifyII =>
        let cfg := CASTLE_UPGRADES .fortifyII
        ({ success := true, cost := cfg.cost },
         { castles := jsAdjust s'.castles playerId
            (fun c => { c with maxHp := c.maxHp + cfg.hpBonus, hp := c.hp + cfg.hpBonus }) })
      | .treasury =>
        let cfg := CASTLE_UPGRADES .treasury
        ({ success := true, cost := cfg.cost },
         { castles := jsAdjust s'.castles playerId
            (fun c => { c with goldBonusPerKill := cfg.goldBonusPerKill }) })
      | .repair => ({ success := false, cost := 0, reason := some "Unknown upgrade type" }, s')

-- ════════════════════════════════════════════════════════════════════
-- game/EnemyManager.ts
-- ════════════════════════════════════════════════════════════════════

/-- `game/EnemyManager.ts` `SpawnEdge`. -/
inductive SpawnEdge
  | north | south | east | west
deriving DecidableEq, Repr

/-- `WaveManager.ts` `EDGES` (declaration order). -/
def EDGES : List SpawnEdge := [.north, .south, .east, .west]

/-- `game/EnemyManager.ts` `Enemy`.  Positions and waypoints are JS
numbers (`ℚ` here); ids are fresh counters standing in for `uuidv4()`. -/
structure Enemy where
  id : Nat
  type : EnemyType
  x : ℚ
  y : ℚ
  hp : ℚ
  maxHp : ℚ
  speed : ℚ
  damage : ℚ
  path : List (ℚ × ℚ)
  pathIndex : Nat
  goldReward : ℚ
  special : Option String
  lastSpecialTime : ℚ
  canClimbWalls : Bool
deriving DecidableEq, Repr

/-- `game/EnemyManager.ts` `EnemyManager` state. -/
structure EnemyState where
  enemies : List (Nat × Enemy)
  totalKills : Nat
  nextId : Nat
deriving DecidableEq, Repr

/-- `EnemyManager.init()`. -/
def EnemyState.empty : EnemyState :=
  { enemies := [], totalKills := 0, nextId := 0 }

/-- `EnemyManager.getCount()`. -/
def EnemyState.getCount (s : EnemyState) : Nat :=
  s.enemies.length

/-- `EnemyManager.getAllEnemies()`. -/
def EnemyState.getAllEnemies (s : EnemyState) : List Enemy :=
  jsValues s.enemies

/-- The spawn-edge position draw of `EnemyManager.spawnEnemy` (the
`switch (spawnEdge)` block). -/
def spawnEdgePos (edge : SpawnEdge) (r : Rand) : (ℤ × ℤ) × Rand :=
  match edge with
  | .north => let (x, r') := randomInt r 0 (gridWidth - 1); ((x, 0), r')
  | .south => let (x, r') := randomInt r 0 (gridWidth - 1); ((x, gridHeight - 1), r')
  | .west => let (y, r') := randomInt r 0 (gridHeight - 1); (((0 : ℤ), y), r')
  | .east => let (y, r') := randomInt r 0 (gridHeight - 1); ((gridWidth - 1, y), r')

/-- The slide-along-the-edge search of `EnemyManager.spawnEnemy`
(`for (let offset = 1; offset < 40; offset++)`, trying `+offset` then
`-offset`): the first walkable candidate in source order, if any. -/
def slideAlongEdge (grid : Grid) (edge : SpawnEdge) (x y : ℤ) : Option (ℤ × ℤ) :=
  let horizontal := edge = .north ∨ edge = .south
  let candidates := (List.range 39).flatMap fun o =>
    let off : ℤ := o + 1
    if horizontal then [(x + off, y), (x - off, y)] else [(x, y + off), (x, y - off)]
  candidates.find? fun p => grid.isWalkable p.1 p.2

/-- `EnemyManager.spawnEnemy(type, spawnEdge, grid, waveNumber)`: random
edge position (sliding if blocked), a path to the castle centre (using the
climbable grid from wave 5 on), and wave-scaled hp and speed (the source
rounds hp with `Math.round`). -/
def EnemyState.spawnEnemy (s : EnemyState) (type : EnemyType) (spawnEdge : SpawnEdge)
    (grid : Grid) (waveNumber : Nat) (r : Rand) :
    Option Enemy × EnemyState × Rand :=
  let baseStats := ENEMY_STATS type
  let ((x0, y0), r') := spawnEdgePos spawnEdge r
  let spawnPos : Option (ℤ × ℤ) :=
    if grid.isWalkable x0 y0 then some (x0, y0)
    else slideAlongEdge grid spawnEdge x0 y0
  match spawnPos with
  | none => (none, s, r')
  | some (spawnX, spawnY) =>
    let canClimb := waveNumber ≥ 5
    let pathGrid := if canClimb then grid.getClimbableGrid else grid
    let path := findPath pathGrid spawnX spawnY castleCenterX castleCenterY
    let hpMultiplier : ℚ := 1 + ((waveNumber : ℚ) - 1) * WAVE_CONFIG.hpScalePerWave
    let speedMultiplier : ℚ := 1 + ((waveNumber : ℚ) - 1) * WAVE_CONFIG.speedScalePerWave
    let scaledHp : ℚ := (jsRound (baseStats.hp * hpMultiplier) : ℚ)
    let scaledSpeed : ℚ := baseStats.speed * speedMultiplier
    let enemy : Enemy :=
      { id := s.nextId, type := type, x := (spawnX : ℚ), y := (spawnY : ℚ),
        hp := scaledHp, maxHp := scaledHp, speed := scaledSpeed,
        damage := baseStats.damage,
        path := path.map (fun p => ((p.1 : ℚ), (p.2 : ℚ))), pathIndex := 0,
        goldReward := baseStats.goldReward, special := baseStats.special,
        lastSpecialTime := 0, canClimbWalls := canClimb }
    (some enemy,
     { s with enemies := jsSet s.enemies enemy.id enemy, nextId := s.nextId + 1 },
     r')

/-- The waypoint-consuming movement loop shared textually by
`EnemyManager.updateEnemies` and `ArmyManager.updateUnits`
(`while (remaining > 0 && pathIndex < path.length)`): returns the updated
position and path index.  `fuel` dominates the loop bound (one waypoint is
consumed per continuing iteration). -/
def moveAlongPath (sq : ℚ → ℚ) :
    Nat → ℚ → ℚ → ℚ → List (ℚ × ℚ) → Nat → ℚ × ℚ × Nat
  | 0, _, x, y, _, idx => (x, y, idx)
  | fuel + 1, remaining, x, y, path, idx =>
    if remaining > 0 ∧ idx < path.length then
      match path.get? idx with
      | none => (x, y, idx)
      | some target =>
        let dx := target.1 - x
        let dy := target.2 - y
        let distToTarget := sq (dx * dx + dy * dy)
        if distToTarget ≤ remaining then
          moveAlongPath sq fuel (remaining - distToTarget) target.1 target.2 path (idx + 1)
        else
          let ratio := remaining / distToTarget
          (x + dx * ratio, y + dy * ratio, idx)
    else (x, y, idx)

/-- The per-enemy body of `EnemyManager.updateEnemies`: effective speed
(wall-climb penalty), movement, and the reached-castle check.  Returns the
updated enemy and whether it is reported as having reached the castle. -/
def enemyUpdateOne (sq : ℚ → ℚ) (deltaTime : ℚ) (grid : Grid) (castleX castleY : ℚ)
    (e : Enemy) : Enemy × Bool :=
  if e.path.length = 0 then
    (e, jsDistance sq e.x e.y castleX castleY ≤ 2)
  else
    let effectiveSpeed :=
      if e.canClimbWalls then
        let wallH := grid.getWallHeight ⌊e.x⌋ ⌊e.y⌋
        if wallH > 0 then e.speed / (1 + (wallH : ℚ)) else e.speed
      else e.speed
    let moveDistance := effectiveSpeed * deltaTime
    let (x', y', idx') :=
      moveAlongPath sq (e.path.length + 1) moveDistance e.x e.y e.path e.pathIndex
    let e' := { e with x := x', y := y', pathIndex := idx' }
    if e'.pathIndex ≥ e'.path.length then
      (e', jsDistance sq e'.x e'.y castleX castleY ≤ 3)
    else (e', false)

/-- `EnemyManager.updateEnemies(deltaTime, grid, castleX, castleY)`:
move every enemy along its path and return those that reached the
castle. -/
def EnemyState.updateEnemies (sq : ℚ → ℚ) (s : EnemyState) (deltaTime : ℚ) (grid : Grid)
    (castleX castleY : ℚ) : List Enemy × EnemyState :=
  let updated := s.enemies.map fun kv =>
    (kv.1, enemyUpdateOne sq deltaTime grid castleX castleY kv.2)
  let reached := (updated.filter fun kv => kv.2.2).map fun kv => kv.2.1
  (reached, { s with enemies := updated.map fun kv => (kv.1, kv.2.1) })

/-- `EnemyManager.takeDamage(id, amount)`: clamp hp at 0; on a kill,
increment the kill counter, delete the entity, and return its gold reward;
a missing id yields `(killed := false, goldReward := 0)`. -/
def EnemyState.takeDamage (s : EnemyState) (id : Nat) (amount : ℚ) :
    (Bool × ℚ) × EnemyState :=
  match jsGet s.enemies id with
  | none => ((false, 0), s)
  | some enemy =>
    let hp' := max 0 (enemy.hp - amount)
    if hp' ≤ 0 then
      ((true, enemy.goldReward),
       { s with enemies := jsDelete s.enemies id, totalKills := s.totalKills + 1 })
    else
      ((false, 0),
       { s with enemies := jsAdjust s.enemies id (fun e => { e with hp := hp' }) })

/-- `EnemyManager.removeEnemy(id)`. -/
def EnemyState.removeEnemy (s : EnemyState) (id : Nat) : EnemyState :=
  { s with enemies := jsDelete s.enemies id }

/-- `EnemyManager.getInRange(x, y, range)`. -/
def EnemyState.getInRange (sq : ℚ → ℚ) (s : EnemyState) (x y range : ℚ) : List Enemy :=
  s.getAllEnemies.filter fun e => jsDistance sq x y e.x e.y ≤ range

-- ════════════════════════════════════════════════════════════════════
-- game/BuildingManager.ts
-- ════════════════════════════════════════════════════════════════════

/-- `game/BuildingManager.ts` `Building`. -/
structure Building where
  id : Nat
  type : BuildingType
  gridX : ℤ
  gridY : ℤ
  hp : ℚ
  maxHp : ℚ
  ownerId : String
  lastAttackTime : ℚ
  stats : BuildingStats
  stackCount : Nat
deriving DecidableEq, Repr

/-- `game/BuildingManager.ts` `BuildingManager` state. -/
structure BuildingState where
  buildings : List (Nat × Building)
  totalBuildingsPlaced : Nat
  nextId : Nat
deriving DecidableEq, Repr

/-- `BuildingManager.init()`. -/
def BuildingState.empty : BuildingState :=
  { buildings := [], totalBuildingsPlaced := 0, nextId := 0 }

/-- `BuildingManager.getBuilding(id)`. -/
def BuildingState.getBuilding (s : BuildingState) (id : Nat) : Option Building :=
  jsGet s.buildings id

/-- `BuildingManager.getAllBuildings()`. -/
def BuildingState.getAllBuildings (s : BuildingState) : List Building :=
  jsValues s.buildings

/-- `BuildingManager.findWallAt(gridX, gridY, type)`: the first building in
iteration order at that exact position with the same type and the wall
flag. -/
def BuildingState.findWallAt (s : BuildingState) (gridX gridY : ℤ) (type : BuildingType) :
    Option Building :=
  s.getAllBuildings.find? fun b =>
    b.gridX = gridX ∧ b.gridY = gridY ∧ b.type = type ∧ b.stats.isWall

/-- The `edgeTests` list of `BuildingManager.placeBuilding` /
`moveBuilding`: the four map-edge probe points (north, south, west, east),
all aimed at the fixed `MAP_CONFIG` castle centre. -/
def edgeTests : List (ℤ × ℤ) :=
  [ (castleCenterX, 0), (castleCenterX, gridHeight - 1),
    (0, castleCenterY), (gridWidth - 1, castleCenterY) ]

/-- The reachability re-check shared by `placeBuilding` and
`moveBuilding`: on the hypothetical grid, every edge probe point that is
itself walkable must still reach the castle centre (probe points that are
not walkable are skipped by the source's `continue`). -/
def edgeTestsPass (testGrid : Grid) : Bool :=
  edgeTests.all fun start =>
    if ¬ testGrid.isWalkable start.1 start.2 then true
    else findPath testGrid start.1 start.2 castleCenterX castleCenterY ≠ []

/-- Result of `BuildingManager.placeBuilding`. -/
structure PlaceResult where
  building : Option Building
  reason : Option String := none
deriving DecidableEq, Repr

/-- `BuildingManager.placeBuilding(type, gridX, gridY, ownerId, grid,
currentGold)`: cost, bounds and overlap checks; wall stacking (max 3) on a
fully-occupied matching wall tile; otherwise a fresh placement guarded by
the edge-to-castle reachability re-check on a clone of the grid. -/
def BuildingState.placeBuilding (s : BuildingState) (type : BuildingType)
    (gridX gridY : ℤ) (ownerId : String) (grid : Grid) (currentGold : ℚ) :
    PlaceResult × BuildingState × Grid :=
  let stats := BUILDING_STATS type
  if currentGold < stats.cost then
    ({ building := none, reason := some "Not enough gold" }, s, grid)
  else if gridX < 0 ∨ gridY < 0 ∨ gridX + stats.gridWidth > gridWidth ∨
      gridY + stats.gridHeight > gridHeight then
    ({ building := none, reason := some "Out of bounds" }, s, grid)
  else
    let footprint := rectCells gridX gridY stats.gridWidth stats.gridHeight
    let allBlocked := footprint.all fun p => ¬ grid.isWalkable p.1 p.2
    if allBlocked ∧ stats.isWall then
      match s.findWallAt gridX gridY type with
      | some existingWall =>
        if existingWall.stackCount < 3 then
          let updated := { existingWall with
            stackCount := existingWall.stackCount + 1,
            hp := existingWall.hp + stats.hp,
            maxHp := existingWall.maxHp + stats.hp }
          ({ building := some updated },
           { s with
             buildings := jsSet s.buildings existingWall.id updated,
             totalBuildingsPlaced := s.totalBuildingsPlaced + 1 },
           grid.setWallHeight gridX gridY stats.gridWidth stats.gridHeight
             updated.stackCount)
        else
          ({ building := none, reason := some "Maximum stack count (3) reached" }, s, grid)
      | none =>
        ({ building := none, reason := some "Tiles are already occupied" }, s, grid)
    else if allBlocked then
      ({ building := none, reason := some "Tiles are already occupied" }, s, grid)
    else if ¬ footprint.all (fun p => grid.isWalkable p.1 p.2) then
      ({ building := none, reason := some "Tiles are already occupied" }, s, grid)
    else
      let testGrid := grid.clone.setBlocked gridX gridY stats.gridWidth stats.gridHeight
      if ¬ edgeTestsPass testGrid then
        ({ building := none, reason := some "Placement would block all paths to castle" },
         s, grid)
      else
        let building : Building :=
          { id := s.nextId, type := type, gridX := gridX, gridY := gridY,
            hp := stats.hp, maxHp := stats.hp, ownerId := ownerId,
            lastAttackTime := 0, stats := stats, stackCount := 1 }
        let grid' := grid.setBlocked gridX gridY stats.gridWidth stats.gridHeight
        let grid'' :=
          if stats.isWall then
            grid'.setWallHeight gridX gridY stats.gridWidth stats.gridHeight 1
          else grid'
        ({ building := some building },
         { s with
           buildings := jsSet s.buildings building.id building,
           totalBuildingsPlaced := s.totalBuildingsPlaced + 1,
           nextId := s.nextId + 1 },
         grid'')

/-- `BuildingManager.removeBuilding(id, grid)`: free the footprint (and
reset the wall height for walls) and delete the entry. -/
def BuildingState.removeBuilding (s : BuildingState) (id : Nat) (grid : Grid) :
    Option Building × BuildingState × Grid :=
  match s.getBuilding id with
  | none => (none, s, grid)
  | some building =>
    let grid' := grid.setWalkable building.gridX building.gridY
      building.stats.gridWidth building.stats.gridHeight
    let grid'' :=
      if building.stats.isWall then
        grid'.setWallHeight building.gridX building.gridY
          building.stats.gridWidth building.stats.gridHeight 0
      else grid'
    (some building, { s with buildings := jsDelete s.buildings id }, grid'')

/-- `BuildingManager.sellBuilding(id, grid)`: remove and refund
`Math.floor(cost * sellRefundPercent)`. -/
def BuildingState.sellBuilding (s : BuildingState) (id : Nat) (grid : Grid) :
    (Option Building × ℚ) × BuildingState × Grid :=
  match s.getBuilding id with
  | none => ((none, 0), s, grid)
  | some building =>
    let refund : ℚ := (⌊building.stats.cost * sellRefundPercent⌋ : ℚ)
    let (_, s', grid') := s.removeBuilding id grid
    ((some building, refund), s', grid')

/-- Result of `BuildingManager.moveBuilding`. -/
structure MoveResult where
  success : Bool
  reason : Option String := none
deriving DecidableEq, Repr

/-- `BuildingManager.moveBuilding(id, newX, newY, grid)`: bounds check,
temporary unblock of the old footprint, occupancy check of the new one,
the same edge-reachability re-check, then the move (reverting the unblock
on any failure). -/
def BuildingState.moveBuilding (s : BuildingState) (id : Nat) (newX newY : ℤ)
    (grid : Grid) : MoveResult × BuildingState × Grid :=
  match s.getBuilding id with
  | none => ({ success := false, reason := some "Building not found" }, s, grid)
  | some building =>
    let stats := building.stats
    if newX < 0 ∨ newY < 0 ∨ newX + stats.gridWidth > gridWidth ∨
        newY + stats.gridHeight > gridHeight then
      ({ success := false, reason := some "Out of bounds" }, s, grid)
    else
      let gridU := grid.setWalkable building.gridX building.gridY
        stats.gridWidth stats.gridHeight
      let newFoot := rectCells newX newY stats.gridWidth stats.gridHeight
      if ¬ newFoot.all (fun p => gridU.isWalkable p.1 p.2) then
        ({ success := false, reason := some "New position is occupied" }, s,
         gridU.setBlocked building.gridX building.gridY stats.gridWidth stats.gridHeight)
      else
        let testGrid := gridU.clone.setBlocked newX newY stats.gridWidth stats.gridHeight
        if ¬ edgeTestsPass testGrid then
          ({ success := false, reason := some "Move would block all paths to castle" }, s,
           gridU.setBlocked building.gridX building.gridY stats.gridWidth stats.gridHeight)
        else
          let grid' := gridU.setBlocked newX newY stats.gridWidth stats.gridHeight
          let moved := jsAdjust s.buildings id (fun b => { b with gridX := newX, gridY := newY })
          ({ success := true }, { s with buildings := moved }, grid')

/-- `BuildingManager.takeDamage(id, amount)`: clamp hp at 0 and report
whether the building reached 0 (the caller removes it). -/
def BuildingState.takeDamage (s : BuildingState) (id : Nat) (amount : ℚ) :
    (Bool × Option Building) × BuildingState :=
  match s.getBuilding id with
  | none => ((false, none), s)
  | some building =>
    let hp' := max 0 (building.hp - amount)
    let updated := { building with hp := hp' }
    ((hp' ≤ 0, some updated),
     { s with buildings := jsAdjust s.buildings id (fun b => { b with hp := hp' }) })

/-- `BuildingManager.getInRange(x, y, range)`: buildings whose footprint
centre is within `range`. -/
def BuildingState.getInRange (sq : ℚ → ℚ) (s : BuildingState) (x y range : ℚ) :
    List Building :=
  s.getAllBuildings.filter fun b =>
    let centerX : ℚ := (b.gridX : ℚ) + (b.stats.gridWidth : ℚ) / 2
    let centerY : ℚ := (b.gridY : ℚ) + (b.stats.gridHeight : ℚ) / 2
    jsDistance sq x y centerX centerY ≤ range

-- ════════════════════════════════════════════════════════════════════
-- game/ArmyManager.ts
-- ════════════════════════════════════════════════════════════════════

/-- `game/ArmyManager.ts` `ArmyUnit`. -/
structure ArmyUnit where
  id : Nat
  type : ArmyUnitType
  ownerId : String
  targetPlayerId : String
  x : ℚ
  y : ℚ
  hp : ℚ
  maxHp : ℚ
  speed : ℚ
  damage : ℚ
  range : ℚ
  attackSpeed : ℚ
  path : List (ℚ × ℚ)
  pathIndex : Nat
  lastAttackTime : ℚ
  special : Option String
deriving DecidableEq, Repr

/-- `game/ArmyManager.ts` `ArmyManager` state. -/
structure ArmyState where
  units : List (Nat × ArmyUnit)
  nextId : Nat
deriving DecidableEq, Repr

/-- `ArmyManager.init()`. -/
def ArmyState.empty : ArmyState :=
  { units := [], nextId := 0 }

/-- `ArmyManager.getAllUnits()`. -/
def ArmyState.getAllUnits (s : ArmyState) : List ArmyUnit :=
  jsValues s.units

/-- The expanding-ring spawn-position search of `ArmyManager.spawnUnit`
(`for ring 1..9`, `dx`/`dy` from `-ring` to `ring`, skipping interior
cells): the first walkable candidate in source order. -/
def ringSearch (grid : Grid) (spawnX spawnY : ℤ) : Option (ℤ × ℤ) :=
  let candidates := (List.range 9).flatMap fun r0 =>
    let ring : ℤ := r0 + 1
    ((List.range (2 * r0 + 3)).flatMap fun dx0 =>
      (List.range (2 * r0 + 3)).filterMap fun dy0 =>
        let dx : ℤ := dx0 - ring
        let dy : ℤ := dy0 - ring
        if dx.natAbs ≠ (r0 + 1) ∧ dy.natAbs ≠ (r0 + 1) then none
        else some (spawnX + dx, spawnY + dy))
  candidates.find? fun p => grid.isWalkable p.1 p.2

/-- `ArmyManager.spawnUnit(type, ownerId, spawnX, spawnY, targetX,
targetY, grid)`: find a walkable spawn cell (expanding-ring search if the
given one is blocked), path to the target, and create the unit
(`targetPlayerId` is set by the caller). -/
def ArmyState.spawnUnit (s : ArmyState) (type : ArmyUnitType) (ownerId : String)
    (spawnX spawnY targetX targetY : ℤ) (grid : Grid) :
    Option ArmyUnit × ArmyState :=
  let stats := ARMY_UNIT_STATS type
  let pos : Option (ℤ × ℤ) :=
    if grid.isWalkable spawnX spawnY then some (spawnX, spawnY)
    else ringSearch grid spawnX spawnY
  match pos with
  | none => (none, s)
  | some (ax, ay) =>
    let path := findPath grid ax ay targetX targetY
    let unit : ArmyUnit :=
      { id := s.nextId, type := type, ownerId := ownerId, targetPlayerId := "",
        x := (ax : ℚ), y := (ay : ℚ), hp := stats.hp, maxHp := stats.hp,
        speed := stats.speed, damage := stats.damage, range := stats.range,
        attackSpeed := stats.attackSpeed,
        path := path.map (fun p => ((p.1 : ℚ), (p.2 : ℚ))), pathIndex := 0,
        lastAttackTime := 0, special := stats.special }
    (some unit, { units := jsSet s.units unit.id unit, nextId := s.nextId + 1 })

/-- The per-unit body of `ArmyManager.updateUnits`: movement along the
path (same waypoint-consuming loop as the enemies, at the unit's plain
speed) and the reached-target check.  Returns the updated unit and whether
it is reported as having reached its target. -/
def armyUpdateOne (sq : ℚ → ℚ) (deltaTime : ℚ) (u : ArmyUnit) : ArmyUnit × Bool :=
  if u.path.length = 0 then
    (u, true)
  else
    let moveDistance := u.speed * deltaTime
    let (x', y', idx') :=
      moveAlongPath sq (u.path.length + 1) moveDistance u.x u.y u.path u.pathIndex
    let u' := { u with x := x', y := y', pathIndex := idx' }
    (u', u'.pathIndex ≥ u'.path.length)

/-- `ArmyManager.updateUnits(deltaTime, grid)`: move every unit and return
those that have reached their target (path consumed or absent). -/
def ArmyState.updateUnits (sq : ℚ → ℚ) (s : ArmyState) (deltaTime : ℚ) :
    List ArmyUnit × ArmyState :=
  let updated := s.units.map fun kv => (kv.1, armyUpdateOne sq deltaTime kv.2)
  let reached := (updated.filter fun kv => kv.2.2).map fun kv => kv.2.1
  (reached, { s with units := updated.map fun kv => (kv.1, kv.2.1) })

/-- `ArmyManager.takeDamage(id, amount)`: clamp hp at 0; delete on kill. -/
def ArmyState.takeDamage (s : ArmyState) (id : Nat) (amount : ℚ) :
    Bool × ArmyState :=
  match jsGet s.units id with
  | none => (false, s)
  | some unit =>
    let hp' := max 0 (unit.hp - amount)
    if hp' ≤ 0 then (true, { s with units := jsDelete s.units id })
    else (false, { s with units := jsAdjust s.units id (fun u => { u with hp := hp' }) })

-- ════════════════════════════════════════════════════════════════════
-- game/WaveManager.ts
-- ════════════════════════════════════════════════════════════════════

/-- `game/WaveManager.ts` `WavePhase`. -/
inductive WavePhase
  | preparation | waveActive | waveBreak | ended
deriving DecidableEq, Repr

/-- `game/WaveManager.ts` `SpawnRequest`. -/
structure SpawnRequest where
  type : EnemyType
  edge : SpawnEdge
deriving DecidableEq, Repr

/-- `WaveManager.pickRandomEdge()`: `EDGES[Math.floor(Math.random()*4)]`. -/
def pickRandomEdge (r : Rand) : SpawnEdge × Rand :=
  let (i, r') := randBelow r 4
  ((EDGES.get? i).getD .north, r')

/-- `game/WaveManager.ts` `WaveManager` state. -/
structure WaveState where
  phase : WavePhase
  preparationTimer : ℚ
  waveBreakTimer : ℚ
  currentZombieWave : Nat
  currentInvaderWave : Nat
  waveSpawnQueue : List SpawnRequest
  spawnTimer : ℚ
  waveWarningEmitted : Bool
deriving DecidableEq, Repr

/-- `WaveManager.spawnInterval` (seconds between queue drains). -/
def spawnInterval : ℚ := 0.5

/-- `WaveManager.init()`. -/
def WaveState.start : WaveState :=
  { phase := .preparation, preparationTimer := WAVE_CONFIG.preparationTime,
    waveBreakTimer := 0, currentZombieWave := 0, currentInvaderWave := 0,
    waveSpawnQueue := [], spawnTimer := 0, waveWarningEmitted := false }

/-- `WaveManager.isAllWavesComplete()`. -/
def WaveState.isAllWavesComplete (s : WaveState) : Bool :=
  s.currentZombieWave ≥ WAVE_CONFIG.totalZombieWaves ∧
  s.currentInvaderWave ≥ WAVE_CONFIG.totalInvaderWaves

/-- `l[i]` / `l[j]` swap used by `shuffleArray`'s destructuring swap. -/
def listSwap {α : Type} (l : List α) (i j : Nat) : List α :=
  match l.get? i, l.get? j with
  | some vi, some vj => (l.set i vj).set j vi
  | _, _ => l

/-- The descending Fisher–Yates loop of `WaveManager.shuffleArray`
(`for (let i = length - 1; i > 0; i--)`, `j = Math.floor(random()*(i+1))`). -/
def fyGo {α : Type} (l : List α) (r : Rand) : Nat → List α × Rand
  | 0 => (l, r)
  | i + 1 =>
    let (j, r') := randBelow r (i + 2)
    fyGo (listSwap l (i + 1) j) r' i

/-- `WaveManager.shuffleArray(array)`. -/
def shuffleArray {α : Type} (l : List α) (r : Rand) : List α × Rand :=
  fyGo l r (l.length - 1)

/-- `n` spawn requests of one enemy type, each with its own random edge
draw (the `for` loops of `startNextZombieWave`/`queueInvaderWave`). -/
def buildRequests (type : EnemyType) (n : Nat) (r : Rand) :
    List SpawnRequest × Rand :=
  (List.range n).foldl
    (fun (acc : List SpawnRequest × Rand) _ =>
      let (edge, r') := pickRandomEdge acc.2
      (acc.1 ++ [{ type := type, edge := edge }], r'))
    ([], r)

/-- The total enemy count of a zombie wave:
`composition.baseCount + (wave - 1) * spawnCountScale`. -/
def totalCountFor (wave : Nat) : ℤ :=
  (getCompositionForWave wave).baseCount + ((wave : ℤ) - 1) * WAVE_CONFIG.spawnCountScale

/-- `Math.round(totalCount * composition.normalPercent)` of
`startNextZombieWave`. -/
def normalCountFor (wave : Nat) : ℤ :=
  jsRound ((totalCountFor wave : ℚ) * (getCompositionForWave wave).normalPercent)

/-- `Math.round(totalCount * composition.fastPercent)`. -/
def fastCountFor (wave : Nat) : ℤ :=
  jsRound ((totalCountFor wave : ℚ) * (getCompositionForWave wave).fastPercent)

/-- `Math.max(0, totalCount - normalCount - fastCount)`. -/
def heavyCountFor (wave : Nat) : ℤ :=
  max 0 (totalCountFor wave - normalCountFor wave - fastCountFor wave)

/-- The zombie spawn-request list of `startNextZombieWave` for wave `w`
(normals, fasts, heavies, plus the four bosses on wave 15), before
shuffling. -/
def zombieRequests (wave : Nat) (r : Rand) : List SpawnRequest × Rand :=
  let (normals, r1) := buildRequests .normalZombie (normalCountFor wave).toNat r
  let (fasts, r2) := buildRequests .fastZombie (fastCountFor wave).toNat r1
  let (heavies, r3) := buildRequests .heavyZombie (heavyCountFor wave).toNat r2
  let bosses : List SpawnRequest :=
    if wave = 15 then EDGES.map (fun e => { type := .zombieBoss, edge := e }) else []
  (normals ++ fasts ++ heavies ++ bosses, r3)

/-- `WaveManager.queueInvaderWave(invaderWave)`: build, shuffle, and
append the invader block to the live queue. -/
def WaveState.queueInvaderWave (s : WaveState) (iw : InvaderWaveConfig) (r : Rand) :
    WaveState × Rand :=
  let s1 := { s with currentInvaderWave := s.currentInvaderWave + 1 }
  let (soldiers, r1) := buildRequests .soldier iw.soldiers r
  let (elites, r2) := buildRequests .eliteSoldier iw.elites r1
  let (generalReq, r3) :=
    if iw.hasGeneral then
      let (edge, r') := pickRandomEdge r2
      ([{ type := EnemyType.general, edge := edge } ], r')
    else ([], r2)
  let (shuffled, r4) := shuffleArray (soldiers ++ elites ++ generalReq) r3
  ({ s1 with waveSpawnQueue := s1.waveSpawnQueue ++ shuffled }, r4)

/-- `WaveManager.startNextZombieWave()`: advance the wave counter (ending
the game past wave 15), build and shuffle the zombie spawn queue, and
append the interleaved invader wave when one is scheduled after this
zombie wave. -/
def WaveState.startNextZombieWave (s : WaveState) (r : Rand) : WaveState × Rand :=
  let s1 := { s with currentZombieWave := s.currentZombieWave + 1 }
  if s1.currentZombieWave > WAVE_CONFIG.totalZombieWaves then
    ({ s1 with phase := .ended }, r)
  else
    let s2 := { s1 with phase := .waveActive, waveSpawnQueue := [], spawnTimer := 0 }
    let wave := s2.currentZombieWave
    let (requests, r1) := zombieRequests wave r
    let (shuffled, r2) := shuffleArray requests r1
    let s3 := { s2 with waveSpawnQueue := shuffled }
    match INVADER_WAVES.find? (fun iw => iw.appearsAfterZombieWave = wave) with
    | some iw => s3.queueInvaderWave iw r2
    | none => (s3, r2)

-- ════════════════════════════════════════════════════════════════════
-- game/CombatManager.ts
-- ════════════════════════════════════════════════════════════════════

/-- Target (or source) reference of a damage event.  The source uses
string ids plus a `targetType`/`sourceType` discriminator; the
constructor plays both roles here. -/
inductive TargetRef
  | enemy (id : Nat)
  | building (id : Nat)
  | castle (playerId : String)
  | castleKing (playerId : String)
deriving DecidableEq, Repr

/-- `game/CombatManager.ts` `DamageEvent`. -/
structure DamageEvent where
  target : TargetRef
  amount : ℚ
  remainingHp : ℚ
  source : Option TargetRef := none
deriving DecidableEq, Repr

/-- `game/CombatManager.ts` `KillInfo`. -/
structure KillInfo where
  enemyId : Nat
  goldReward : ℚ
  killedByBuildingOwnerId : Option String := none
deriving DecidableEq, Repr

/-- The state mutated and the outputs accumulated across the phases of
`CombatManager.update` (`kills`, `damageEvents`, `destroyedBuildings`,
`castleDamage`, plus the managers and the grid it mutates through
them). -/
structure CombatAcc where
  bs : BuildingState
  es : EnemyState
  cs : CastleState
  army : ArmyState
  grid : Grid
  kills : List KillInfo
  damageEvents : List DamageEvent
  destroyedBuildings : List Nat
  castleDamage : List (String × ℚ)
deriving Repr

/-- The closest-enemy scan (`for (const e of enemiesInRange)`, starting
from `closestDist = Infinity`, so the first enemy always wins the first
comparison). -/
def closestEnemyTo (sq : ℚ → ℚ) (x y : ℚ) (l : List Enemy) : Option Enemy :=
  (l.foldl
    (fun (acc : Option (Enemy × ℚ)) e =>
      let d := jsDistance sq x y e.x e.y
      match acc with
      | none => some (e, d)
      | some (_, nd) => if d < nd then some (e, d) else acc)
    none).map Prod.fst

/-- One enemy hit dealt by a building: `enemyManager.takeDamage`, the
damage event (`remainingHp` is 0 on a kill, else the survivor's hp), and
the kill record crediting the building's owner. -/
def buildingHitEnemy (acc : CombatAcc) (b : Building) (targetId : Nat) (dmg : ℚ) :
    CombatAcc :=
  let ((killed, goldReward), es') := acc.es.takeDamage targetId dmg
  let remaining : ℚ :=
    if killed then 0 else ((jsGet es'.enemies targetId).map Enemy.hp).getD 0
  let acc := { acc with
    es := es',
    damageEvents := acc.damageEvents ++
      [{ target := .enemy targetId, amount := dmg, remainingHp := remaining,
         source := some (.building b.id) }] }
  if killed then
    { acc with kills := acc.kills ++
        [{ enemyId := targetId, goldReward := goldReward,
           killedByBuildingOwnerId := some b.ownerId }] }
  else acc

/-- `CombatManager.handleArrowTower`: single hit on the closest enemy in
range. -/
def handleArrowTower (sq : ℚ → ℚ) (acc : CombatAcc) (b : Building)
    (enemiesInRange : List Enemy) : CombatAcc :=
  let bCenterX : ℚ := (b.gridX : ℚ) + (b.stats.gridWidth : ℚ) / 2
  let bCenterY : ℚ := (b.gridY : ℚ) + (b.stats.gridHeight : ℚ) / 2
  match closestEnemyTo sq bCenterX bCenterY enemiesInRange with
  | none => acc
  | some closest => buildingHitEnemy acc b closest.id ((b.stats.damage).getD 0)

/-- `CombatManager.handleCannon` / `handleHotAirBalloon`: area damage
centred on the closest enemy, radius `stats.aoeRadius || 2`. -/
def handleAoeAttack (sq : ℚ → ℚ) (acc : CombatAcc) (b : Building)
    (bCenterX bCenterY : ℚ) (enemiesInRange : List Enemy) : CombatAcc :=
  match closestEnemyTo sq bCenterX bCenterY enemiesInRange with
  | none => acc
  | some closest =>
    let aoeRadius := jsOrElse b.stats.aoeRadius 2
    let dmg := (b.stats.damage).getD 0
    let aoeTargets := acc.es.getInRange sq closest.x closest.y aoeRadius
    aoeTargets.foldl (fun a t => buildingHitEnemy a b t.id dmg) acc

/-- `CombatManager.handleBallista`: damage up to 2 enemies whose projected
position lies within a 1-tile corridor along the line to the closest
enemy. -/
def handleBallista (sq : ℚ → ℚ) (acc : CombatAcc) (b : Building)
    (bCenterX bCenterY : ℚ) (enemiesInRange : List Enemy) : CombatAcc :=
  match closestEnemyTo sq bCenterX bCenterY enemiesInRange with
  | none => acc
  | some closest =>
    let dmg := (b.stats.damage).getD 0
    let dirX := closest.x - bCenterX
    let dirY := closest.y - bCenterY
    let dirLen := sq (dirX * dirX + dirY * dirY)
    if dirLen = 0 then acc
    else
      let ndx := dirX / dirLen
      let ndy := dirY / dirLen
      let along := enemiesInRange.filterMap fun e =>
        let ex := e.x - bCenterX
        let ey := e.y - bCenterY
        let projDist := ex * ndx + ey * ndy
        if projDist < 0 then none
        else
          let perpDist := |ex * (-ndy) + ey * ndx|
          if perpDist ≤ 1 then some (e, projDist) else none
      let sorted := along.mergeSort fun a b => a.2 ≤ b.2
      let toPierce := sorted.take 2
      toPierce.foldl (fun a t => buildingHitEnemy a b t.1.id dmg) acc

/-- `CombatManager.handleMine`: a one-time area detonation triggered by an
enemy within 0.8 tiles, after which the mine building is destroyed and
removed. -/
def handleMine (sq : ℚ → ℚ) (acc : CombatAcc) (b : Building) : CombatAcc :=
  let bCenterX : ℚ := (b.gridX : ℚ) + (b.stats.gridWidth : ℚ) / 2
  let bCenterY : ℚ := (b.gridY : ℚ) + (b.stats.gridHeight : ℚ) / 2
  let nearbyEnemies := acc.es.getInRange sq bCenterX bCenterY 0.8
  if nearbyEnemies = [] then acc
  else
    let aoeRadius := jsOrElse b.stats.aoeRadius 1.5
    let dmg := (b.stats.damage).getD 0
    let aoeTargets := acc.es.getInRange sq bCenterX bCenterY aoeRadius
    let acc := aoeTargets.foldl (fun a t => buildingHitEnemy a b t.id dmg) acc
    let (_, bs', grid') := acc.bs.removeBuilding b.id acc.grid
    { acc with
      destroyedBuildings := acc.destroyedBuildings ++ [b.id],
      bs := bs', grid := grid' }

/-- The per-building body of phase 1 of `CombatManager.update`. -/
def buildingAttackOne (sq : ℚ → ℚ) (now : ℚ) (acc : CombatAcc) (b : Building) : CombatAcc :=
  if ¬ jsTruthyNum b.stats.damage then acc
  else if b.stats.isOneTime then handleMine sq acc b
  else if ¬ jsTruthyNum b.stats.attackSpeed then acc
  else if now - b.lastAttackTime < (b.stats.attackSpeed).getD 0 then acc
  else
    let bCenterX : ℚ := (b.gridX : ℚ) + (b.stats.gridWidth : ℚ) / 2
    let bCenterY : ℚ := (b.gridY : ℚ) + (b.stats.gridHeight : ℚ) / 2
    let range := (b.stats.range).getD 0
    let enemiesInRange := acc.es.getInRange sq bCenterX bCenterY range
    if enemiesInRange = [] then acc
    else
      let bBuildings := jsAdjust acc.bs.buildings b.id
        (fun bb => { bb with lastAttackTime := now })
      let acc := { acc with bs := { acc.bs with buildings := bBuildings } }
      match b.type with
      | .arrowTower => handleArrowTower sq acc b enemiesInRange
      | .cannon => handleAoeAttack sq acc b bCenterX bCenterY enemiesInRange
      | .ballista => handleBallista sq acc b bCenterX bCenterY enemiesInRange
      | .hotAirBalloon => handleAoeAttack sq acc b bCenterX bCenterY enemiesInRange
      | _ => acc

/-- Phase 1 of `CombatManager.update`: every offensive building either
detonates (mines) or, when its cooldown has elapsed and an enemy is in
range, fires according to its type (setting `lastAttackTime`). -/
def combatBuildingsPhase (sq : ℚ → ℚ) (now : ℚ) (acc0 : CombatAcc) : CombatAcc :=
  acc0.bs.getAllBuildings.foldl (buildingAttackOne sq now) acc0

/-- The per-castle body of phase 2 of `CombatManager.update`. -/
def kingAttackOne (sq : ℚ → ℚ) (now : ℚ) (acc : CombatAcc) (castle : PlayerCastle) :
    CombatAcc :=
  if castle.hp ≤ 0 then acc
  else if now - castle.lastKingAttackTime < CASTLE_KING_attackSpeed then acc
  else
    let enemiesInRange :=
      acc.es.getInRange sq castle.centerX castle.centerY CASTLE_KING_range
    if enemiesInRange = [] then acc
    else
      match closestEnemyTo sq castle.centerX castle.centerY enemiesInRange with
      | none => acc
      | some closest =>
        let kCastles := jsAdjust acc.cs.castles castle.playerId
          (fun c => { c with lastKingAttackTime := now })
        let acc := { acc with cs := { castles := kCastles } }
        let dmg := CASTLE_KING_damage
        let ((killed, goldReward), es') := acc.es.takeDamage closest.id dmg
        let remaining : ℚ :=
          if killed then 0 else ((jsGet es'.enemies closest.id).map Enemy.hp).getD 0
        let acc := { acc with
          es := es',
          damageEvents := acc.damageEvents ++
            [{ target := .enemy closest.id, amount := dmg, remainingHp := remaining,
               source := some (.castleKing castle.playerId) }] }
        if killed then
          { acc with kills := acc.kills ++
              [{ enemyId := closest.id, goldReward := goldReward,
                 killedByBuildingOwnerId := some castle.playerId }] }
        else acc

/-- Phase 2 of `CombatManager.update`: each live castle's "king" attack —
single-target damage to the closest enemy within the king's range, on its
own cooldown; a kill is credited to the castle's owning player. -/
def combatKingPhase (sq : ℚ → ℚ) (now : ℚ) (acc0 : CombatAcc) : CombatAcc :=
  acc0.cs.getAllCastles.foldl (kingAttackOne sq now) acc0

/-- `CombatManager.handleBossSlam`: every 10 s, area damage to buildings
and live castles within the slam radius (the cooldown timestamp is
written back only if the boss is still alive in the enemy map). -/
def handleBossSlam (sq : ℚ → ℚ) (now : ℚ) (acc0 : CombatAcc) (e : Enemy) : CombatAcc :=
  let intervalSec := BOSS_SLAM_interval / 1000
  if now - e.lastSpecialTime < intervalSec then acc0
  else
    let markedSlam := jsAdjust acc0.es.enemies e.id
      (fun en => { en with lastSpecialTime := now })
    let acc := { acc0 with es := { acc0.es with enemies := markedSlam } }
    let buildingsHit := acc.bs.getInRange sq e.x e.y BOSS_SLAM_radius
    let acc := buildingsHit.foldl
      (fun a bld =>
        let ((destroyed, updated), bs') := a.bs.takeDamage bld.id BOSS_SLAM_damage
        match updated with
        | none => { a with bs := bs' }
        | some ub =>
          let a := { a with
            bs := bs',
            damageEvents := a.damageEvents ++
              [{ target := .building bld.id, amount := BOSS_SLAM_damage,
                 remainingHp := ub.hp }] }
          if destroyed then
            let (_, bs'', grid') := a.bs.removeBuilding bld.id a.grid
            { a with
              destroyedBuildings := a.destroyedBuildings ++ [bld.id],
              bs := bs'', grid := grid' }
          else a)
      acc
    acc.cs.getAllCastles.foldl
      (fun a castle =>
        if castle.hp ≤ 0 then a
        else if jsDistance sq e.x e.y castle.centerX castle.centerY ≤ BOSS_SLAM_radius then
          let cs' := a.cs.takeDamage castle.playerId BOSS_SLAM_damage
          let prevDmg : ℚ := (jsGet a.castleDamage castle.playerId).getD 0
          { a with
            cs := cs',
            castleDamage := jsSet a.castleDamage castle.playerId
              (prevDmg + BOSS_SLAM_damage),
            damageEvents := a.damageEvents ++
              [{ target := .castle castle.playerId, amount := BOSS_SLAM_damage,
                 remainingHp := cs'.getHp castle.playerId }] }
        else a)
      acc

/-- `CombatManager.handleGeneralWarCry`: every 15 s, heal all other
enemies within 5 tiles by 10% of their max hp, clamped at max hp. -/
def handleGeneralWarCry (sq : ℚ → ℚ) (now : ℚ) (acc : CombatAcc) (e : Enemy) : CombatAcc :=
  let intervalSec := GENERAL_warCryInterval / 1000
  if now - e.lastSpecialTime < intervalSec then acc
  else
    let markedCry := jsAdjust acc.es.enemies e.id
      (fun en => { en with lastSpecialTime := now })
    let acc := { acc with es := { acc.es with enemies := markedCry } }
    let healed := acc.es.enemies.map fun kv =>
      if kv.1 = e.id then kv
      else if jsDistance sq e.x e.y kv.2.x kv.2.y ≤ 5 then
        let healAmount : ℚ := (jsRound (kv.2.maxHp * GENERAL_warCryHealPercent) : ℚ)
        (kv.1, { kv.2 with hp := min kv.2.maxHp (kv.2.hp + healAmount) })
      else kv
    { acc with es := { acc.es with enemies := healed } }

/-- The per-enemy body of phase 3 of `CombatManager.update`. -/
def specialOne (sq : ℚ → ℚ) (now : ℚ) (acc : CombatAcc) (e : Enemy) : CombatAcc :=
  match e.special with
  | some s =>
    if s = "aoe_slam" then handleBossSlam sq now acc e
    else if s = "charge_warcry" then handleGeneralWarCry sq now acc e
    else acc
  | none => acc

/-- Phase 3 of `CombatManager.update`: enemy specials, iterating the enemy
snapshot captured at the start of the combat update (so a boss killed
earlier in the same tick still slams, as in the source, where the stale
array holds live object references). -/
def combatSpecialsPhase (sq : ℚ → ℚ) (now : ℚ) (staleEnemies : List Enemy)
    (acc0 : CombatAcc) : CombatAcc :=
  staleEnemies.foldl (specialOne sq now) acc0

/-- The per-enemy body of phase 4 of `CombatManager.update`. -/
def reachedOne (sq : ℚ → ℚ) (acc : CombatAcc) (e : Enemy) : CombatAcc :=
  let acc : CombatAcc :=
    match acc.cs.getNearestCastle sq e.x e.y with
    | some nearest =>
      let cs' := acc.cs.takeDamage nearest.playerId e.damage
      let prevDmg : ℚ := (jsGet acc.castleDamage nearest.playerId).getD 0
      { acc with
        cs := cs',
        castleDamage := jsSet acc.castleDamage nearest.playerId (prevDmg + e.damage),
        damageEvents := acc.damageEvents ++
          [{ target := .castle nearest.playerId, amount := e.damage,
             remainingHp := cs'.getHp nearest.playerId }] }
    | none => acc
  { acc with es := acc.es.removeEnemy e.id }

/-- Phase 4 of `CombatManager.update`: enemies that reached a castle this
tick damage the nearest living castle and are removed. -/
def combatReachedPhase (sq : ℚ → ℚ) (reached : List Enemy) (acc0 : CombatAcc) : CombatAcc :=
  reached.foldl (reachedOne sq) acc0

/-- The per-wall inner body of phase 5 of `CombatManager.update`. -/
def wallHitOne (deltaTime : ℚ) (e : Enemy) (a : CombatAcc) (wall : Building) : CombatAcc :=
  if ¬ wall.stats.isWall then a
  else
    let dmg := if e.special = some "wall_breaker" then e.damage * 2 else e.damage
    let ((destroyed, updated), bs') := a.bs.takeDamage wall.id (dmg * deltaTime)
    match updated with
    | none => { a with bs := bs' }
    | some ub =>
      let a := { a with
        bs := bs',
        damageEvents := a.damageEvents ++
          [{ target := .building wall.id, amount := dmg * deltaTime,
             remainingHp := ub.hp }] }
      if destroyed then
        let (_, bs'', grid') := a.bs.removeBuilding wall.id a.grid
        { a with
          destroyedBuildings := a.destroyedBuildings ++ [wall.id],
          bs := bs'', grid := grid' }
      else a

/-- The per-enemy outer body of phase 5 of `CombatManager.update`. -/
def wallMeleeOne (sq : ℚ → ℚ) (deltaTime : ℚ) (acc : CombatAcc) (e : Enemy) : CombatAcc :=
  (acc.bs.getInRange sq e.x e.y 1.5).foldl (wallHitOne deltaTime e) acc

/-- Phase 5 of `CombatManager.update`: enemies within melee range (1.5) of
wall buildings damage them continuously by `damage * deltaTime` (doubled
for the `wall_breaker` special); a wall at 0 hp is removed. -/
def combatWallMeleePhase (sq : ℚ → ℚ) (deltaTime : ℚ) (acc0 : CombatAcc) : CombatAcc :=
  acc0.es.getAllEnemies.foldl (wallMeleeOne sq deltaTime) acc0

/--  The per-unit body of phase 6 of `CombatManager.update`. -/
def armyAttackOne (now : ℚ) (acc : CombatAcc) (u : ArmyUnit) : CombatAcc :=
  if u.targetPlayerId = "" then acc
  else
    match acc.cs.getCastle u.targetPlayerId with
    | some targetCastle =>
      if targetCastle.hp > 0 then
        if now - u.lastAttackTime ≥ u.attackSpeed then
          let aUnits := jsAdjust acc.army.units u.id
            (fun uu => { uu with lastAttackTime := now })
          let acc := { acc with army := { acc.army with units := aUnits } }
          let cs' := acc.cs.takeDamage u.targetPlayerId u.damage
          let prevDmg : ℚ := (jsGet acc.castleDamage u.targetPlayerId).getD 0
          { acc with
            cs := cs',
            castleDamage := jsSet acc.castleDamage u.targetPlayerId (prevDmg + u.damage),
            damageEvents := acc.damageEvents ++
              [{ target := .castle u.targetPlayerId, amount := u.damage,
                 remainingHp := cs'.getHp u.targetPlayerId }] }
        else acc
      else acc
    | none => acc

/-- Phase 6 of `CombatManager.update`: army units are advanced
(`armyManager.updateUnits`), and each unit that reached its target castle
attacks it on its own cooldown. -/
def combatArmyPhase (sq : ℚ → ℚ) (deltaTime now : ℚ) (acc0 : CombatAcc) : CombatAcc :=
  let (unitsAtTarget, army') := acc0.army.updateUnits sq deltaTime
  let acc0 := { acc0 with army := army' }
  unitsAtTarget.foldl (armyAttackOne now) acc0

/-- `CombatManager.update(buildingManager, enemyManager, castleManager,
grid, deltaTime, reachedCastle, armyManager)`: advances the combat clock
and runs the six phases in source order.  Returns the updated managers and
the accumulated combat result; the first component is the new
`elapsedTime`. -/
def combatUpdate (sq : ℚ → ℚ) (elapsedTime deltaTime : ℚ) (reached : List Enemy)
    (bs : BuildingState) (es : EnemyState) (cs : CastleState) (army : ArmyState)
    (grid : Grid) : ℚ × CombatAcc :=
  let elapsed := elapsedTime + deltaTime
  let now := elapsed
  let staleEnemies := es.getAllEnemies
  let acc : CombatAcc :=
    { bs := bs, es := es, cs := cs, army := army, grid := grid,
      kills := [], damageEvents := [], destroyedBuildings := [], castleDamage := [] }
  let acc := combatBuildingsPhase sq now acc
  let acc := combatKingPhase sq now acc
  let acc := combatSpecialsPhase sq now staleEnemies acc
  let acc := combatReachedPhase sq reached acc
  let acc := combatWallMeleePhase sq deltaTime acc
  let acc := combatArmyPhase sq deltaTime now acc
  (elapsed, acc)

-- ════════════════════════════════════════════════════════════════════
-- game/GameEngine.ts
-- ════════════════════════════════════════════════════════════════════

/-- `game/GameEngine.ts` `GameEngine` state (`init` wires the
`WaveManager.onEnemySpawn` callback to `EnemyManager.spawnEnemy`, so the
wave update below spawns directly into the enemy manager). -/
structure GameState where
  grid : Grid
  econ : EconState
  cs : CastleState
  bs : BuildingState
  es : EnemyState
  ws : WaveState
  army : ArmyState
  combatElapsed : ℚ
  players : List String
  gameOver : Bool
  gameResult : Option Bool
  rand : Rand

/-- The `onEnemySpawn` callback wired in `GameEngine.initWithPlayerIds`:
drain one spawn request into `EnemyManager.spawnEnemy`. -/
def GameState.spawnOne (s : GameState) (req : SpawnRequest) : GameState :=
  let (_, es', r') := s.es.spawnEnemy req.type req.edge s.grid s.ws.currentZombieWave s.rand
  { s with es := es', rand := r' }

/-- The spawn-drain loop of `WaveManager.updateWaveActive`
(`while (spawnTimer <= 0 && queue.length > 0)`); fuel dominates the queue
length. -/
def drainSpawnQueue : Nat → GameState → GameState
  | 0, s => s
  | fuel + 1, s =>
    if s.ws.spawnTimer ≤ 0 then
      match s.ws.waveSpawnQueue with
      | [] => s
      | req :: rest =>
        let s := { s with ws := { s.ws with waveSpawnQueue := rest } }
        let s := s.spawnOne req
        let s := { s with ws := { s.ws with spawnTimer := s.ws.spawnTimer + spawnInterval } }
        drainSpawnQueue fuel s
    else s

/-- `WaveManager.updatePreparation(deltaTime)`: count down, emit the
one-shot warning flag, and start zombie wave 1 when the timer expires. -/
def GameState.updatePreparation (s : GameState) (deltaTime : ℚ) : GameState :=
  let t := s.ws.preparationTimer - deltaTime
  let emitted := s.ws.waveWarningEmitted ∨ (¬ s.ws.waveWarningEmitted ∧ t ≤ 10)
  let s := { s with ws := { s.ws with preparationTimer := t, waveWarningEmitted := emitted } }
  if t ≤ 0 then
    let s := { s with ws := { s.ws with preparationTimer := 0 } }
    let (ws', r') := s.ws.startNextZombieWave s.rand
    { s with ws := ws', rand := r' }
  else s

/-- `WaveManager.updateWaveActive(deltaTime, activeEnemyCount)`: drain the
spawn queue on the 0.5 s cadence, then — when the queue is empty and the
(caller-supplied) live enemy count is zero — transition to `wave_break`
or, once all waves are complete, to `ended`. -/
def GameState.updateWaveActive (s : GameState) (deltaTime : ℚ) (activeEnemyCount : Nat) :
    GameState :=
  let s :=
    if s.ws.waveSpawnQueue.length > 0 then
      let s := { s with ws := { s.ws with spawnTimer := s.ws.spawnTimer - deltaTime } }
      drainSpawnQueue (s.ws.waveSpawnQueue.length + 1) s
    else s
  if s.ws.waveSpawnQueue.length = 0 ∧ activeEnemyCount = 0 then
    if s.ws.isAllWavesComplete then
      { s with ws := { s.ws with phase := .ended } }
    else
      let ws' := { s.ws with
        phase := WavePhase.waveBreak,
        waveBreakTimer := WAVE_CONFIG.waveBreakTime, waveWarningEmitted := false }
      { s with ws := ws' }
  else s

/-- `WaveManager.updateWaveBreak(deltaTime)`. -/
def GameState.updateWaveBreak (s : GameState) (deltaTime : ℚ) : GameState :=
  let t := s.ws.waveBreakTimer - deltaTime
  let emitted := s.ws.waveWarningEmitted ∨ (¬ s.ws.waveWarningEmitted ∧ t ≤ 10)
  let s := { s with ws := { s.ws with waveBreakTimer := t, waveWarningEmitted := emitted } }
  if t ≤ 0 then
    let s := { s with ws := { s.ws with waveBreakTimer := 0 } }
    let (ws', r') := s.ws.startNextZombieWave s.rand
    { s with ws := ws', rand := r' }
  else s

/-- `WaveManager.update(deltaTime, activeEnemyCount)` with the spawn
callback wired to the enemy manager. -/
def GameState.waveUpdate (s : GameState) (deltaTime : ℚ) (activeEnemyCount : Nat) :
    GameState :=
  match s.ws.phase with
  | .preparation => s.updatePreparation deltaTime
  | .waveActive => s.updateWaveActive deltaTime activeEnemyCount
  | .waveBreak => s.updateWaveBreak deltaTime
  | .ended => s

/-- The kill-processing loop of `GameEngine.tick` (lines following the
combat update): a kill with a (truthy) building-owner id pays
`goldReward + that owner's treasury bonus` to the owner alone; a kill
without one pays `goldReward + the maximum treasury bonus` to every
player via `addGoldAll`. -/
def processKills (kills : List KillInfo) (cs : CastleState) (econ : EconState) :
    EconState :=
  kills.foldl
    (fun ec kill =>
      if jsTruthyStr kill.killedByBuildingOwnerId then
        match kill.killedByBuildingOwnerId with
        | some ownerId =>
          let goldBonus := cs.getGoldBonusPerKill (some ownerId)
          ec.addGold ownerId (kill.goldReward + goldBonus)
        | none => ec
      else
        let goldBonus := cs.getGoldBonusPerKill none
        ec.addGoldAll (kill.goldReward + goldBonus))
    econ

/-- `GameEngine.tick(deltaTime)`: wave update (spawns), enemy movement
towards the first live castle's centre, combat, kill-reward routing, and
the defeat/victory checks. -/
def GameState.tick (sq : ℚ → ℚ) (s : GameState) (deltaTime : ℚ) : GameState :=
  if s.gameOver then s
  else
    let preCount := s.es.getCount
    let s := s.waveUpdate deltaTime preCount
    let allAlive := s.cs.getAllCastles.filter fun c => c.hp > 0
    let castleX : ℚ := match allAlive.head? with
      | some c => c.centerX
      | none => (castleCenterX : ℚ)
    let castleY : ℚ := match allAlive.head? with
      | some c => c.centerY
      | none => (castleCenterY : ℚ)
    let (reached, es') := s.es.updateEnemies sq deltaTime s.grid castleX castleY
    let s := { s with es := es' }
    let (elapsed, acc) :=
      combatUpdate sq s.combatElapsed deltaTime reached s.bs s.es s.cs s.army s.grid
    let s := { s with
      bs := acc.bs, es := acc.es, cs := acc.cs, army := acc.army, grid := acc.grid,
      combatElapsed := elapsed }
    let s := { s with econ := processKills acc.kills s.cs s.econ }
    if s.cs.isAllDestroyed then
      { s with gameOver := true, gameResult := some false }
    else if s.ws.isAllWavesComplete ∧ s.ws.phase = .ended ∧ s.es.getCount = 0 then
      { s with gameOver := true, gameResult := some true }
    else s

/-- `GameEngine.initWithPlayerIds(playerIds)` (via `init`): one castle
footprint per player on a fresh grid, all managers reset, gold seeded. -/
def initEngine (playerIds : List String) (r : Rand) : GameState :=
  let castlePositions := (List.range playerIds.length).map fun i =>
    (CASTLE_POSITIONS.get? i).getD ((20 : ℤ), (20 : ℤ))
  { grid := Grid.new.initCastles castlePositions,
    econ := EconState.init playerIds,
    cs := CastleState.initMultiple playerIds,
    bs := BuildingState.empty,
    es := EnemyState.empty,
    ws := WaveState.start,
    army := ArmyState.empty,
    combatElapsed := 0,
    players := playerIds,
    gameOver := false,
    gameResult := none,
    rand := r }

/-- A synchronous command result (`{success, error?}`). -/
structure CmdResult where
  success : Bool
  error : Option String := none
deriving DecidableEq, Repr

/-- `GameEngine.handlePlaceBuilding(type, gridX, gridY, ownerId)`: the
command-API wrapper — unknown type and per-player gold checks, the
manager placement, then the gold deduction.  `type = none` models an
unknown type string (`BUILDING_STATS[type]` undefined). -/
def GameState.handlePlaceBuilding (s : GameState) (type : Option BuildingType)
    (gridX gridY : ℤ) (ownerId : String) : CmdResult × GameState :=
  match type with
  | none => ({ success := false, error := some "Unknown building type" }, s)
  | some bt =>
    let stats := BUILDING_STATS bt
    if s.econ.getGold ownerId < stats.cost then
      ({ success := false, error := some "Not enough gold" }, s)
    else
      let (result, bs', grid') :=
        s.bs.placeBuilding bt gridX gridY ownerId s.grid (s.econ.getGold ownerId)
      match result.building with
      | none => ({ success := false, error := result.reason }, s)
      | some _ =>
        let s := { s with bs := bs', grid := grid' }
        let (_, econ') := s.econ.spendGold ownerId stats.cost
        ({ success := true }, { s with econ := econ' })

/-- `GameEngine.handleSellBuilding(buildingId, sellerId)`: owner check,
manager sale, refund credited to the seller. -/
def GameState.handleSellBuilding (s : GameState) (buildingId : Nat) (sellerId : String) :
    CmdResult × GameState :=
  match s.bs.getBuilding buildingId with
  | none => ({ success := false, error := some "Building not found" }, s)
  | some building =>
    if building.ownerId ≠ sellerId then
      ({ success := false, error := some "You can only sell your own buildings" }, s)
    else
      let ((sold, refund), bs', grid') := s.bs.sellBuilding buildingId s.grid
      match sold with
      | none => ({ success := false, error := some "Building not found" }, s)
      | some _ =>
        let s := { s with bs := bs', grid := grid' }
        ({ success := true }, { s with econ := s.econ.addGold sellerId refund })

/-- `GameEngine.handleMoveBuilding(buildingId, newGridX, newGridY)`. -/
def GameState.handleMoveBuilding (s : GameState) (buildingId : Nat) (newX newY : ℤ) :
    CmdResult × GameState :=
  let (result, bs', grid') := s.bs.moveBuilding buildingId newX newY s.grid
  ({ success := result.success, error := result.reason },
   { s with bs := bs', grid := grid' })

/-- `GameEngine.handleUpgradeCastle(upgradeType, playerId)`: unknown-type
check, upfront spend, the castle-manager upgrade, an atomic refund if the
upgrade fails, and the treasury wiring into the economy manager.
`type = none` models an unknown upgrade-type string. -/
def GameState.handleUpgradeCastle (s : GameState) (type : Option CastleUpgradeType)
    (playerId : String) : CmdResult × GameState :=
  match type with
  | none => ({ success := false, error := some "Unknown upgrade type" }, s)
  | some ut =>
    let cfg := CASTLE_UPGRADES ut
    let (ok, econ') := s.econ.spendGold playerId cfg.cost
    if ¬ ok then
      ({ success := false, error := some "Not enough gold" }, { s with econ := econ' })
    else
      let s := { s with econ := econ' }
      let (result, cs') := s.cs.upgrade playerId ut
      if ¬ result.success then
        ({ success := false, error := result.reason },
         { s with cs := cs', econ := s.econ.addGold playerId cfg.cost })
      else
        let s := { s with cs := cs' }
        let s :=
          if ut = .treasury then
            { s with econ := s.econ.setGoldBonusPerKill (s.cs.getGoldBonusPerKill (some playerId)) }
          else s
        ({ success := true }, s)

/-- `GameEngine.handleRepairCastle(playerId)` =
`handleUpgradeCastle(Repair, playerId)`. -/
def GameState.handleRepairCastle (s : GameState) (playerId : String) :
    CmdResult × GameState :=
  s.handleUpgradeCastle (some .repair) playerId

/-- `GameEngine.handleSpawnArmy(unitType, ownerId, targetPlayerId)`:
self-target and live-target checks, spend, spawn near the owner's castle,
refunds when the owner has no castle or no valid spawn position, and the
`targetPlayerId` assignment on the created unit. -/
def GameState.handleSpawnArmy (s : GameState) (type : Option ArmyUnitType)
    (ownerId targetPlayerId : String) : CmdResult × GameState :=
  match type with
  | none => ({ success := false, error := some "Unknown army unit type" }, s)
  | some ut =>
    let stats := ARMY_UNIT_STATS ut
    if ownerId = targetPlayerId then
      ({ success := false, error := some "Cannot attack your own castle" }, s)
    else
      match s.cs.getCastle targetPlayerId with
      | none =>
        ({ success := false, error := some "Target castle not found or already destroyed" }, s)
      | some targetCastle =>
        if targetCastle.hp ≤ 0 then
          ({ success := false, error := some "Target castle not found or already destroyed" }, s)
        else
          let (ok, econ') := s.econ.spendGold ownerId stats.cost
          if ¬ ok then
            ({ success := false, error := some "Not enough gold" }, { s with econ := econ' })
          else
            let s := { s with econ := econ' }
            match s.cs.getCastle ownerId with
            | none =>
              ({ success := false, error := some "Your castle not found" },
               { s with econ := s.econ.addGold ownerId stats.cost })
            | some ownerCastle =>
              let (unit, army') := s.army.spawnUnit ut ownerId
                ⌊ownerCastle.centerX⌋ ⌊ownerCastle.centerY⌋
                ⌊targetCastle.centerX⌋ ⌊targetCastle.centerY⌋ s.grid
              match unit with
              | none =>
                ({ success := false, error := some "Failed to spawn unit (no valid position)" },
                 { s with econ := s.econ.addGold ownerId stats.cost })
              | some u =>
                let tGot := jsAdjust army'.units u.id
                  (fun uu => { uu with targetPlayerId := targetPlayerId })
                let army'' := { army' with units := tGot }
                ({ success := true }, { s with army := army'' })

/-- The external interface of the core: command calls interleaved with
ticks (spec §2/§6). -/
inductive Action
  | tick (dt : ℚ)
  | place (type : Option BuildingType) (gridX gridY : ℤ) (ownerId : String)
  | sell (buildingId : Nat) (sellerId : String)
  | move (buildingId : Nat) (newX newY : ℤ)
  | upgrade (type : Option CastleUpgradeType) (playerId : String)
  | repairC (playerId : String)
  | spawnArmy (type : Option ArmyUnitType) (ownerId targetPlayerId : String)

/-- Apply one action to the engine state (command results are returned to
the transport layer and do not feed back into the simulation). -/
def GameState.step (sq : ℚ → ℚ) (s : GameState) : Action → GameState
  | .tick dt => s.tick sq dt
  | .place t x y owner => (s.handlePlaceBuilding t x y owner).2
  | .sell id seller => (s.handleSellBuilding id seller).2
  | .move id x y => (s.handleMoveBuilding id x y).2
  | .upgrade t pid => (s.handleUpgradeCastle t pid).2
  | .repairC pid => (s.handleRepairCastle pid).2
  | .spawnArmy t owner target => (s.handleSpawnArmy t owner target).2

/-- Run a sequence of command calls and ticks from a state. -/
def GameState.run (sq : ℚ → ℚ) (s : GameState) (acts : List Action) : GameState :=
  acts.foldl (GameState.step sq) s

-- ════════════════════════════════════════════════════════════════════
-- Spec-side definitions used by the theorems
-- ════════════════════════════════════════════════════════════════════

/-- A concrete enemy used by witnesses: 5 hp, reward 5, empty path. -/
def witnessEnemy : Enemy :=
  { id := 7, type := .normalZombie, x := 0, y := 0, hp := 5, maxHp := 50,
    speed := 1, damage := 5, path := [], pathIndex := 0, goldReward := 5,
    special := none, lastSpecialTime := 0, canClimbWalls := false }

/-- A concrete one-enemy manager state used by witnesses. -/
def witnessEnemyState : EnemyState :=
  { enemies := [(7, witnessEnemy)], totalKills := 0, nextId := 8 }

/-- A fixed random stream (all zeros) for concrete evaluations. -/
def rand0 : Rand := ⟨fun _ => 0, 0⟩

/-- The identity square-root oracle used in concrete evaluations (any
`sq` works for the theorems, which quantify over it). -/
def sqId : ℚ → ℚ := fun q => q

/-- A freshly initialized single-player session. -/
def engine1 : GameState := initEngine ["player_0"] rand0

/-- The castle of `engine1`'s player, as created by
`CastleManager.initMultiple`. -/
def engine1Castle : PlayerCastle :=
  { playerId := "player_0", hp := 1000, maxHp := 1000, centerX := 20, centerY := 20,
    purchasedUpgrades := [], goldBonusPerKill := 0, lastKingAttackTime := 0 }

/-- A concrete two-player economy (500 gold each) used by the C3
counterexample. -/
def econ2 : EconState := EconState.init ["a", "b"]

/-- A concrete kill record with no deterministic owner (reward 5). -/
def noOwnerKill : KillInfo := { enemyId := 1, goldReward := 5 }

/-- A concrete kill record credited to player "a" (reward 5). -/
def ownedKill : KillInfo :=
  { enemyId := 1, goldReward := 5, killedByBuildingOwnerId := some "a" }

/-- A concrete enemy standing next to the castle centre (hp 5, so one
king hit kills it). -/
def kingDemoEnemy : Enemy :=
  { id := 7, type := .normalZombie, x := 21, y := 20, hp := 5, maxHp := 50,
    speed := 1, damage := 5, path := [], pathIndex := 0, goldReward := 5,
    special := none, lastSpecialTime := 0, canClimbWalls := false }

/-- A concrete combat accumulator: a fresh single-player castle and one
enemy in king range. -/
def kingDemoAcc : CombatAcc :=
  { bs := BuildingState.empty,
    es := { enemies := [(7, kingDemoEnemy)], totalKills := 0, nextId := 8 },
    cs := CastleState.initMultiple ["player_0"],
    army := ArmyState.empty,
    grid := Grid.new.initCastles [(20, 20)],
    kills := [], damageEvents := [], destroyedBuildings := [], castleDamage := [] }

/-- The kill record the king attack produces in `kingDemoAcc`. -/
def kingDemoKill : KillInfo :=
  { enemyId := 7, goldReward := 5, killedByBuildingOwnerId := some "player_0" }

/-- A concrete army unit one waypoint from its destination (C9 witness). -/
def c9Unit : ArmyUnit :=
  { id := 1, type := .swordsman, ownerId := "a", targetPlayerId := "b",
    x := 3, y := 4, hp := 60, maxHp := 60, speed := 2, damage := 8, range := 1.5,
    attackSpeed := 1, path := [(3, 4), (4, 4)], pathIndex := 1, lastAttackTime := 0,
    special := none }

/-- A non-climbing enemy kinematically identical to `c9Unit` (C9
witness). -/
def c9Enemy : Enemy :=
  { id := 2, type := .normalZombie, x := 3, y := 4, hp := 50, maxHp := 50,
    speed := 2, damage := 5, path := [(3, 4), (4, 4)], pathIndex := 1, goldReward := 5,
    special := none, lastSpecialTime := 0, canClimbWalls := false }

/-- A random stream that always yields 20 (spawns at the north-edge
midpoint). -/
def c6Rand : Rand := ⟨fun _ => 20, 0⟩

/-- A concrete wave-2 spawn of a normal zombie on an all-walkable grid. -/
def c6Spawn : Option Enemy × EnemyState × Rand :=
  EnemyState.empty.spawnEnemy .normalZombie .north Grid.new 2 c6Rand

/-- One `placeBuilding` command call (its arguments, `currentGold`
included, as the engine passes them through). -/
structure PlaceCall where
  type : BuildingType
  gridX : ℤ
  gridY : ℤ
  ownerId : String
  gold : ℚ

/-- A sequence of `placeBuilding` calls threaded through the manager and
the grid. -/
def runPlaces (start : BuildingState × Grid) (calls : List PlaceCall) :
    BuildingState × Grid :=
  calls.foldl
    (fun (st : BuildingState × Grid) c =>
      let r := st.1.placeBuilding c.type c.gridX c.gridY c.ownerId st.2 c.gold
      (r.2.1, r.2.2))
    start

/-- Four identical wooden-wall placements at `(20, 0)` on an all-walkable
grid (C4 scenario): the results after each call. -/
def c4p1 : PlaceResult × BuildingState × Grid :=
  BuildingState.empty.placeBuilding .woodenWall 20 0 "p" Grid.new 500

/-- Second call: stacks onto the wall placed by `c4p1`. -/
def c4p2 : PlaceResult × BuildingState × Grid :=
  c4p1.2.1.placeBuilding .woodenWall 20 0 "p" c4p1.2.2 500

/-- Third call: raises the stack to 3. -/
def c4p3 : PlaceResult × BuildingState × Grid :=
  c4p2.2.1.placeBuilding .woodenWall 20 0 "p" c4p2.2.2 500

/-- Fourth call: the rejected over-stack attempt. -/
def c4p4 : PlaceResult × BuildingState × Grid :=
  c4p3.2.1.placeBuilding .woodenWall 20 0 "p" c4p3.2.2 500

/-- A wooden wall placed by the engine, through the full command path, at
the north map-edge midpoint `(20, 0)` of a fresh single-player session
(C1 counterexample). -/
def c1After : CmdResult × GameState :=
  engine1.handlePlaceBuilding (some .woodenWall) 20 0 "player_0"

/-- Non-negativity facts about an enemy that the global invariant
tracks. -/
def EnemyOk (e : Enemy) : Prop :=
  0 ≤ e.hp ∧ 0 ≤ e.maxHp ∧ 0 ≤ e.goldReward

/-- Non-negativity facts about a castle. -/
def CastleOk (c : PlayerCastle) : Prop :=
  0 ≤ c.hp ∧ 0 ≤ c.maxHp ∧ 0 ≤ c.goldBonusPerKill

/-- Non-negativity facts about a building (the stored cost feeds the sell
refund). -/
def BuildingOk (b : Building) : Prop :=
  0 ≤ b.hp ∧ 0 ≤ b.stats.cost

/-- Non-negativity facts about an army unit. -/
def ArmyOk (u : ArmyUnit) : Prop :=
  0 ≤ u.hp

/-- The per-manager non-negativity predicates. -/
def EconOk (ec : EconState) : Prop :=
  ∀ g ∈ jsValues ec.playerGold, 0 ≤ g

/-- All enemies satisfy `EnemyOk`. -/
def EnemiesOk (es : EnemyState) : Prop :=
  ∀ e ∈ jsValues es.enemies, EnemyOk e

/-- All castles satisfy `CastleOk`. -/
def CastlesOk (cs : CastleState) : Prop :=
  ∀ c ∈ jsValues cs.castles, CastleOk c

/-- All buildings satisfy `BuildingOk`. -/
def BuildingsOk (bs : BuildingState) : Prop :=
  ∀ b ∈ jsValues bs.buildings, BuildingOk b

/-- All army units satisfy `ArmyOk`. -/
def ArmysOk (ar : ArmyState) : Prop :=
  ∀ u ∈ jsValues ar.units, ArmyOk u

/-- All recorded kills carry a non-negative reward. -/
def KillsOk (kills : List KillInfo) : Prop :=
  ∀ k ∈ kills, 0 ≤ k.goldReward

/-- The invariant on a combat accumulator. -/
def AccOk (acc : CombatAcc) : Prop :=
  EnemiesOk acc.es ∧ CastlesOk acc.cs ∧ BuildingsOk acc.bs ∧ ArmysOk acc.army ∧
  KillsOk acc.kills

/-- A concrete building for the C2 clamp witness. -/
def c2Building : Building :=
  { id := 1, type := .arrowTower, gridX := 5, gridY := 5, hp := 200, maxHp := 200,
    ownerId := "a", lastAttackTime := 0, stats := BUILDING_STATS .arrowTower,
    stackCount := 1 }

/-- A concrete one-building manager state for the C2 clamp witness. -/
def c2BS : BuildingState :=
  { buildings := [(1, c2Building)], totalBuildingsPlaced := 1, nextId := 2 }

/-- A concrete army unit for the C2 clamp witness. -/
def c2Unit : ArmyUnit :=
  { id := 1, type := .swordsman, ownerId := "a", targetPlayerId := "b", x := 0, y := 0,
    hp := 60, maxHp := 60, speed := 1.2, damage := 8, range := 1.5, attackSpeed := 1.0,
    path := [], pathIndex := 0, lastAttackTime := 0, special := none }

/-- A concrete one-unit army manager state for the C2 clamp witness. -/
def c2AS : ArmyState := { units := [(1, c2Unit)], nextId := 2 }

/-- A concrete one-player castle manager state for the C2 clamp witness. -/
def c2Castles : CastleState := CastleState.initMultiple ["a"]

/-- The castle stored in `c2Castles`. -/
def c2CastleA : PlayerCastle :=
  { playerId := "a", hp := 1000, maxHp := 1000, centerX := 20, centerY := 20,
    purchasedUpgrades := [], goldBonusPerKill := 0, lastKingAttackTime := 0 }

/-- `manhattan` on cell pairs. -/
def manP (a b : ℤ × ℤ) : Nat := manhattan a.1 a.2 b.1 b.2

/-- In-bounds as a proposition on a cell pair. -/
def inB (p : ℤ × ℤ) : Prop := Grid.isInBounds p.1 p.2 = true

/-- Every cell of the 40×40 map. -/
def allCells : List (ℤ × ℤ) :=
  (List.range 40).flatMap fun (x : ℕ) =>
    (List.range 40).map fun (y : ℕ) => ((x : ℤ), (y : ℤ))

/-- The body of the `selectMin` fold, named. -/
def selStep (cur : Option ANode) (node : ANode) : Option ANode :=
  match cur with
  | none => some node
  | some c => if aBetter node c then some node else cur

/-- Validity of one A* open node for a run from `s` to `t` on the empty
grid: in bounds, heuristic equal to the Manhattan distance to the target,
`g` at least the true (Manhattan) distance from the start, and a stored
reversed path of `g + 1` points. -/
def NodeOk (s t : ℤ × ℤ) (n : ANode) : Prop :=
  inB n.key ∧ n.h = manP n.key t ∧ manP s n.key ≤ n.g ∧ n.pathRev.length = n.g + 1

/-- The A* main-loop invariant on the all-walkable grid: valid open
nodes with distinct keys disjoint from the closed set; the closed set is
in bounds without duplicates and never contains the target; the start is
settled or open at `g = 0`; and every in-bounds neighbour of a closed
cell is closed or open with `g` at most the cell's distance plus 1. -/
def AInv (s t : ℤ × ℤ) (open_ : List ANode) (closed : List (ℤ × ℤ)) : Prop :=
  (∀ n ∈ open_, NodeOk s t n) ∧
  (open_.map ANode.key).Nodup ∧
  (∀ n ∈ open_, n.key ∉ closed) ∧
  (∀ c ∈ closed, inB c) ∧
  closed.Nodup ∧
  (s ∈ closed ∨ ∃ n ∈ open_, n.key = s ∧ n.g = 0) ∧
  (∀ c ∈ closed, ∀ nb, manP c nb = 1 → inB nb →
    nb ∈ closed ∨ ∃ n ∈ open_, n.key = nb ∧ n.g ≤ manP s c + 1) ∧
  t ∉ closed

/-- **The global invariant of C2**: every player's gold balance and every
entity's hp (enemy, castle, building, army unit) is non-negative (along
with the auxiliary non-negativity facts that keep it inductive). -/
def Inv (s : GameState) : Prop :=
  EconOk s.econ ∧ EnemiesOk s.es ∧ CastlesOk s.cs ∧ BuildingsOk s.bs ∧ ArmysOk s.army

-- ════════════════════════════════════════════════════════════════════
-- Helper lemmas: JS map model
-- ════════════════════════════════════════════════════════════════════

attribute [local semireducible] Rat.add Rat.sub Rat.mul Rat.inv Rat.ofScientific

theorem jsGet_jsSet_self {κ α : Type} [DecidableEq κ] (m : List (κ × α)) (k : κ) (v : α) :
    jsGet (jsSet m k v) k = some v := by
  induction m with
  | nil => simp [jsSet, jsGet]
  | cons hd tl ih =>
    by_cases h : hd.1 = k <;> simp [jsSet, jsGet, h, ih]

theorem jsGet_jsSet_ne {κ α : Type} [DecidableEq κ] (m : List (κ × α)) (k k' : κ) (v : α)
    (h : k ≠ k') : jsGet (jsSet m k v) k' = jsGet m k' := by
  induction m with
  | nil => simp [jsSet, jsGet, h]
  | cons hd tl ih =>
    by_cases hk : hd.1 = k
    · simp [jsSet, jsGet, hk, h]
    · by_cases hk' : hd.1 = k' <;> simp [jsSet, jsGet, hk, hk', ih, Ne.symm h]

theorem jsGet_jsAdjust_self {κ α : Type} [DecidableEq κ] (m : List (κ × α)) (k : κ)
    (f : α → α) : jsGet (jsAdjust m k f) k = (jsGet m k).map f := by
  induction m with
  | nil => simp [jsAdjust, jsGet]
  | cons hd tl ih =>
    by_cases h : hd.1 = k <;> simp [jsAdjust, jsGet, h, ih]

theorem jsGet_jsAdjust_ne {κ α : Type} [DecidableEq κ] (m : List (κ × α)) (k k' : κ)
    (f : α → α) (h : k ≠ k') : jsGet (jsAdjust m k f) k' = jsGet m k' := by
  induction m with
  | nil => simp [jsAdjust, jsGet]
  | cons hd tl ih =>
    by_cases hk : hd.1 = k
    · simp [jsAdjust, jsGet, hk, h]
    · by_cases hk' : hd.1 = k' <;> simp [jsAdjust, jsGet, hk, hk', ih, Ne.symm h]

theorem jsGet_eq_none_of_not_mem {κ α : Type} [DecidableEq κ] (m : List (κ × α)) (k : κ)
    (h : k ∉ m.map Prod.fst) : jsGet m k = none := by
  induction m with
  | nil => simp [jsGet]
  | cons hd tl ih =>
    simp only [List.map_cons, List.mem_cons, not_or] at h
    simp only [jsGet, if_neg (fun hc : hd.1 = k => h.1 hc.symm)]
    exact ih h.2

theorem jsGet_jsDelete_self {κ α : Type} [DecidableEq κ] (m : List (κ × α)) (k : κ)
    (hnod : (m.map Prod.fst).Nodup) : jsGet (jsDelete m k) k = none := by
  induction m with
  | nil => simp [jsDelete, jsGet]
  | cons hd tl ih =>
    simp only [List.map_cons, List.nodup_cons] at hnod
    by_cases h : hd.1 = k
    · subst h
      simp only [jsDelete, if_pos rfl]
      exact jsGet_eq_none_of_not_mem tl hd.1 hnod.1
    · simp only [jsDelete, if_neg h, jsGet, if_neg h]
      exact ih hnod.2

theorem jsGet_jsDelete_ne {κ α : Type} [DecidableEq κ] (m : List (κ × α)) (k k' : κ)
    (h : k ≠ k') : jsGet (jsDelete m k) k' = jsGet m k' := by
  induction m with
  | nil => simp [jsDelete, jsGet]
  | cons hd tl ih =>
    by_cases hk : hd.1 = k
    · subst hk
      simp [jsDelete, jsGet, fun hc => h hc]
    · by_cases hk' : hd.1 = k' <;> simp [jsDelete, jsGet, hk, hk', ih, Ne.symm h]

/-- Every value of `jsSet m k v` is a value of `m` or is `v`. -/
theorem jsValues_jsSet_subset {κ α : Type} [DecidableEq κ] (m : List (κ × α)) (k : κ)
    (v w : α) (hw : w ∈ jsValues (jsSet m k v)) : w ∈ jsValues m ∨ w = v := by
  induction m with
  | nil =>
    simp [jsSet, jsValues] at hw
    exact Or.inr hw
  | cons hd tl ih =>
    by_cases h : hd.1 = k
    · simp only [jsSet, if_pos h, jsValues, List.map_cons, List.mem_cons] at hw
      rcases hw with h1 | h2
      · exact Or.inr h1
      · exact Or.inl (by simp [jsValues, List.mem_cons]; right; simpa [jsValues] using h2)
    · simp only [jsSet, if_neg h, jsValues, List.map_cons, List.mem_cons] at hw
      rcases hw with h1 | h2
      · exact Or.inl (by simp [jsValues, h1])
      · rcases ih (by simpa [jsValues] using h2) with h3 | h4
        · exact Or.inl (by simp [jsValues] at h3 ⊢; exact Or.inr h3)
        · exact Or.inr h4

/-- Every value of `jsAdjust m k f` is a value of `m` or the image under
`f` of a value of `m`. -/
theorem jsValues_jsAdjust_subset {κ α : Type} [DecidableEq κ] (m : List (κ × α)) (k : κ)
    (f : α → α) (w : α) (hw : w ∈ jsValues (jsAdjust m k f)) :
    w ∈ jsValues m ∨ ∃ u ∈ jsValues m, w = f u := by
  induction m with
  | nil => simp [jsAdjust, jsValues] at hw
  | cons hd tl ih =>
    by_cases h : hd.1 = k
    · simp only [jsAdjust, if_pos h, jsValues, List.map_cons, List.mem_cons] at hw
      rcases hw with h1 | h2
      · exact Or.inr ⟨hd.2, by simp [jsValues], h1⟩
      · exact Or.inl (by simp [jsValues, List.mem_cons]; right; simpa [jsValues] using h2)
    · simp only [jsAdjust, if_neg h, jsValues, List.map_cons, List.mem_cons] at hw
      rcases hw with h1 | h2
      · exact Or.inl (by simp [jsValues, h1])
      · rcases ih (by simpa [jsValues] using h2) with h3 | ⟨u, hu, hfu⟩
        · exact Or.inl (by simp [jsValues] at h3 ⊢; exact Or.inr h3)
        · exact Or.inr ⟨u, by simp [jsValues] at hu ⊢; exact Or.inr hu, hfu⟩

/-- Every value of `jsDelete m k` is a value of `m`. -/
theorem jsValues_jsDelete_subset {κ α : Type} [DecidableEq κ] (m : List (κ × α)) (k : κ)
    (w : α) (hw : w ∈ jsValues (jsDelete m k)) : w ∈ jsValues m := by
  induction m with
  | nil => simpa [jsDelete] using hw
  | cons hd tl ih =>
    by_cases h : hd.1 = k
    · simp only [jsDelete, if_pos h] at hw
      simp [jsValues, List.mem_cons]
      right
      simpa [jsValues] using hw
    · simp only [jsDelete, if_neg h, jsValues, List.map_cons, List.mem_cons] at hw
      rcases hw with h1 | h2
      · simp [jsValues, h1]
      · simp [jsValues, List.mem_cons]
        right
        simpa [jsValues] using ih (by simpa [jsValues] using h2)

/-- A value looked up by key is a value of the map. -/
theorem jsGet_mem_values {κ α : Type} [DecidableEq κ] (m : List (κ × α)) (k : κ) (v : α)
    (h : jsGet m k = some v) : v ∈ jsValues m := by
  induction m with
  | nil => simp [jsGet] at h
  | cons hd tl ih =>
    by_cases hk : hd.1 = k
    · simp only [jsGet, if_pos hk, Option.some_inj] at h
      simp [jsValues, h]
    · simp only [jsGet, if_neg hk] at h
      simp [jsValues, List.mem_cons]
      right
      simpa [jsValues] using ih h

-- ════════════════════════════════════════════════════════════════════
-- C7: EnemyManager.takeDamage pays the reward exactly once
-- ════════════════════════════════════════════════════════════════════

/-- **C7.** `EnemyManager.takeDamage` clamps hp at 0 and kills exactly
when the damage reaches the remaining hp; a kill deletes the entity and
returns the gold reward; on a survivor the stored hp is the clamped
value and the returned reward is 0; and any later `takeDamage` call with
the same id (the entity having been deleted) returns
`killed = false, goldReward = 0` and leaves the state unchanged, so no
enemy's reward can be paid twice. -/
theorem C7_takeDamage_reward_once (s : EnemyState) (id : Nat) (amt amt' : ℚ) (e : Enemy)
    (hmem : jsGet s.enemies id = some e)
    (hnod : (s.enemies.map Prod.fst).Nodup) :
    (((s.takeDamage id amt).1.1 = true) ↔ e.hp ≤ amt) ∧
    ((s.takeDamage id amt).1.1 = true →
      jsGet (s.takeDamage id amt).2.enemies id = none ∧
      (s.takeDamage id amt).1.2 = e.goldReward ∧
      ((s.takeDamage id amt).2.takeDamage id amt').1 = (false, 0) ∧
      ((s.takeDamage id amt).2.takeDamage id amt').2 = (s.takeDamage id amt).2) ∧
    ((s.takeDamage id amt).1.1 = false →
      jsGet (s.takeDamage id amt).2.enemies id = some { e with hp := max 0 (e.hp - amt) } ∧
      (s.takeDamage id amt).1.2 = 0) := by
  have hkill : (max 0 (e.hp - amt) ≤ 0) ↔ e.hp ≤ amt := by
    constructor
    · intro h
      have := le_max_right 0 (e.hp - amt)
      nlinarith [le_max_left 0 (e.hp - amt)]
    · intro h
      simp [max_le_iff]
      linarith
  by_cases hk : max 0 (e.hp - amt) ≤ 0
  · have hle : e.hp ≤ amt := hkill.mp hk
    have hdel : jsGet (jsDelete s.enemies id) id = none := jsGet_jsDelete_self _ _ hnod
    refine ⟨?_, ?_, ?_⟩
    · simp [EnemyState.takeDamage, hmem, hk, hle]
    · intro _
      refine ⟨by simp [EnemyState.takeDamage, hmem, hk, hle, hdel], ?_, ?_, ?_⟩
      · simp [EnemyState.takeDamage, hmem, hk, hle]
      · simp [EnemyState.takeDamage, hmem, hk, hle, hdel]
      · simp [EnemyState.takeDamage, hmem, hk, hle, hdel]
    · intro hfalse
      exfalso
      simp [EnemyState.takeDamage, hmem, hk, hle] at hfalse
  · have hnle : ¬ e.hp ≤ amt := fun h => hk (hkill.mpr h)
    refine ⟨?_, ?_, ?_⟩
    · constructor
      · intro h
        exfalso
        simp [EnemyState.takeDamage, hmem, hk, hnle] at h
      · intro h
        exact absurd (hkill.mpr h) hk
    · intro htrue
      exfalso
      simp [EnemyState.takeDamage, hmem, hk, hnle] at htrue
    · intro _
      constructor
      · simp only [EnemyState.takeDamage, hmem, if_neg hk]
        rw [jsGet_jsAdjust_self, hmem]
        rfl
      · simp [EnemyState.takeDamage, hmem, hk, hnle]

/-- Witness for C7 at a concrete one-enemy state: a 10-damage hit on a
5-hp enemy kills it, returns its reward, and a repeated call returns
nothing. -/
theorem C7_takeDamage_reward_once_witness :
    ((witnessEnemyState.takeDamage 7 10).1.1 = true) ∧
    jsGet (witnessEnemyState.takeDamage 7 10).2.enemies 7 = none ∧
    (witnessEnemyState.takeDamage 7 10).1.2 = 5 ∧
    ((witnessEnemyState.takeDamage 7 10).2.takeDamage 7 10).1 = (false, 0) := by
  have h := C7_takeDamage_reward_once witnessEnemyState 7 10 10 witnessEnemy
    (by decide) (by decide)
  have ht : (witnessEnemyState.takeDamage 7 10).1.1 = true := h.1.mpr (by norm_num [witnessEnemy])
  have h2 := h.2.1 ht
  refine ⟨ht, h2.1, ?_, h2.2.2.1⟩
  rw [h2.2.1]
  rfl

-- ════════════════════════════════════════════════════════════════════
-- C8: FortifyII without FortifyI is rejected atomically
-- ════════════════════════════════════════════════════════════════════

/-- `CastleManager.upgrade` on `FortifyII` without `FortifyI`: the typed
prerequisite failure, with the castle map untouched. -/
theorem upgrade_fortifyII_missing_prereq (cs : CastleState) (pid : String)
    (c : PlayerCastle) (hc : jsGet cs.castles pid = some c)
    (hno : CastleUpgradeType.fortifyI ∉ c.purchasedUpgrades)
    (hno2 : CastleUpgradeType.fortifyII ∉ c.purchasedUpgrades) :
    cs.upgrade pid .fortifyII =
      ({ success := false, cost := 0, reason := some "FortifyI required first" }, cs) := by
  simp [CastleState.upgrade, CastleState.getCastle, hc, hno, hno2]

/-- **C8.** A `FortifyII` upgrade command for a player whose castle has
not purchased `FortifyI` (and has not somehow already purchased
`FortifyII`), and who can afford the upfront spend, is rejected with the
prerequisite-error reason; the upstream spend is refunded so the player's
gold balance is unchanged, and the whole castle state (hp, maxHp,
purchased upgrades) is unchanged. -/
theorem C8_fortifyII_prereq_rejected (s : GameState) (pid : String) (c : PlayerCastle)
    (hc : jsGet s.cs.castles pid = some c)
    (hno : CastleUpgradeType.fortifyI ∉ c.purchasedUpgrades)
    (hno2 : CastleUpgradeType.fortifyII ∉ c.purchasedUpgrades)
    (hgold : 200 ≤ s.econ.getGold pid) :
    (s.handleUpgradeCastle (some .fortifyII) pid).1.success = false ∧
    (s.handleUpgradeCastle (some .fortifyII) pid).1.error = some "FortifyI required first" ∧
    (s.handleUpgradeCastle (some .fortifyII) pid).2.econ.getGold pid = s.econ.getGold pid ∧
    (s.handleUpgradeCastle (some .fortifyII) pid).2.cs = s.cs := by
  have hup := upgrade_fortifyII_missing_prereq s.cs pid c hc hno hno2
  have hcost : (CASTLE_UPGRADES CastleUpgradeType.fortifyII).cost = 200 := rfl
  have hng : ¬ (s.econ.getGold pid < (CASTLE_UPGRADES CastleUpgradeType.fortifyII).cost) := by
    rw [hcost]
    exact not_lt.mpr hgold
  have hspend : s.econ.spendGold pid (CASTLE_UPGRADES CastleUpgradeType.fortifyII).cost =
      (true, { s.econ with playerGold := jsSet s.econ.playerGold pid (s.econ.getGold pid - (CASTLE_UPGRADES CastleUpgradeType.fortifyII).cost) }) := by
    simp [EconState.spendGold, hng]
  simp only [GameState.handleUpgradeCastle, hspend, Bool.not_true, hup, not_true,
    not_false_eq_true, if_true, if_false, ite_true, ite_false, Bool.false_eq_true]
  refine ⟨by simp, by simp, ?_, by simp⟩
  simp only [EconState.addGold, EconState.getGold, jsGet_jsSet_self, Option.getD_some]
  ring

/-- Witness for C8: in a fresh single-player session (500 gold, no
upgrades), the `FortifyII` command is rejected with the prerequisite
reason and the gold balance stays 500. -/
theorem C8_fortifyII_prereq_rejected_witness :
    (engine1.handleUpgradeCastle (some .fortifyII) "player_0").1.success = false ∧
    (engine1.handleUpgradeCastle (some .fortifyII) "player_0").1.error =
      some "FortifyI required first" ∧
    (engine1.handleUpgradeCastle (some .fortifyII) "player_0").2.econ.getGold "player_0" =
      engine1.econ.getGold "player_0" ∧
    (engine1.handleUpgradeCastle (some .fortifyII) "player_0").2.cs = engine1.cs := by
  exact C8_fortifyII_prereq_rejected engine1 "player_0" engine1Castle
    (by decide) (by decide) (by decide) (by decide)

-- ════════════════════════════════════════════════════════════════════
-- C3: kill-reward routing in GameEngine.tick
-- ════════════════════════════════════════════════════════════════════

/-- `jsGet` after the pointwise `+ amt` map of `addGoldAll`. -/
theorem jsGet_map_add {κ : Type} [DecidableEq κ] (m : List (κ × ℚ)) (k : κ) (amt : ℚ) :
    jsGet (m.map fun kv => (kv.1, kv.2 + amt)) k = (jsGet m k).map (· + amt) := by
  induction m with
  | nil => simp [jsGet]
  | cons hd tl ih =>
    by_cases h : hd.1 = k <;> simp [jsGet, h, ih]

/-- Shifting a fold of `+` by a constant in the initial accumulator. -/
theorem foldl_add_shift (l : List ℚ) (x c : ℚ) :
    l.foldl (· + ·) (x + c) = l.foldl (· + ·) x + c := by
  induction l generalizing x with
  | nil => simp
  | cons hd tl ih =>
    simp only [List.foldl_cons]
    rw [show x + c + hd = (x + hd) + c by ring, ih]

/-- Summing a constant shift over the ledger: folding `+` over the mapped
values adds `amt * length`. -/
theorem foldl_add_map_const {α : Type} (l : List (α × ℚ)) (amt a : ℚ) :
    ((l.map fun kv => (kv.1, kv.2 + amt)).map Prod.snd).foldl (· + ·) a
      = (l.map Prod.snd).foldl (· + ·) a + amt * l.length := by
  induction l generalizing a with
  | nil => simp
  | cons hd tl ih =>
    simp only [List.map_cons, List.foldl_cons, List.length_cons, ih]
    rw [show a + (hd.2 + amt) = (a + hd.2) + amt by ring, foldl_add_shift]
    push_cast
    ring

/-- `EconomyManager.addGoldAll` adds the amount to every present balance
and `amount * playerCount` to the total. -/
theorem addGoldAll_getGold (ec : EconState) (amt : ℚ) (q : String)
    (hq : (jsGet ec.playerGold q).isSome) :
    (ec.addGoldAll amt).getGold q = ec.getGold q + amt := by
  rcases Option.isSome_iff_exists.mp hq with ⟨g, hg⟩
  simp [EconState.addGoldAll, EconState.getGold, jsGet_map_add, hg]

/-- **C3 counterexample.** A kill with no deterministic owner in a
two-player session: `addGoldAll` pays the full 5-gold reward to *each*
player, so the sum of gold added is 10, not the single reward of 5 the
claim requires ("split evenly"). -/
theorem C3_no_owner_reward_duplicated_counterexample :
    (processKills [noOwnerKill] (CastleState.initMultiple ["a", "b"]) econ2).getGold "a"
      = econ2.getGold "a" + 5 ∧
    (processKills [noOwnerKill] (CastleState.initMultiple ["a", "b"]) econ2).getGold "b"
      = econ2.getGold "b" + 5 ∧
    (processKills [noOwnerKill] (CastleState.initMultiple ["a", "b"]) econ2).getTotalGold
      - econ2.getTotalGold = 10 ∧
    noOwnerKill.goldReward = 5 ∧ ¬ ((10 : ℚ) = 5) := by
  refine ⟨by decide, by decide, by decide, by decide, by decide⟩

/-- Kill-reward routing, owner case (shared helper): the owner receives
`goldReward + their treasury bonus`, every other balance is unchanged. -/
theorem processKills_owner_pays (ec : EconState) (cs : CastleState) (k : KillInfo)
    (pid : String) (hpid : k.killedByBuildingOwnerId = some pid) (hne : pid ≠ "") :
    (processKills [k] cs ec).getGold pid
      = ec.getGold pid + (k.goldReward + cs.getGoldBonusPerKill (some pid)) ∧
    (∀ q, q ≠ pid → (processKills [k] cs ec).getGold q = ec.getGold q) := by
  have htruthy : jsTruthyStr (some pid) = true := by
    simp [jsTruthyStr, hne]
  constructor
  · simp [processKills, htruthy, hpid, EconState.addGold, EconState.getGold,
      jsGet_jsSet_self]
  · intro q hq
    simp [processKills, htruthy, hpid, EconState.addGold, EconState.getGold,
      jsGet_jsSet_ne _ _ _ _ (Ne.symm hq)]

/-- Kill-reward routing, ownerless case (shared helper): `addGoldAll`
pays the full amount to every player. -/
theorem processKills_ownerless_pays (ec : EconState) (cs : CastleState) (k : KillInfo)
    (hnone : k.killedByBuildingOwnerId = none) :
    (∀ q, (jsGet ec.playerGold q).isSome →
      (processKills [k] cs ec).getGold q
        = ec.getGold q + (k.goldReward + cs.getGoldBonusPerKill none)) ∧
    (processKills [k] cs ec).getTotalGold
      = ec.getTotalGold + (k.goldReward + cs.getGoldBonusPerKill none) * ec.playerGold.length := by
  have htruthy : jsTruthyStr k.killedByBuildingOwnerId = false := by
    simp [jsTruthyStr, hnone]
  constructor
  · intro q hq
    simp only [processKills, List.foldl_cons, List.foldl_nil, htruthy, Bool.false_eq_true,
      if_false]
    exact addGoldAll_getGold ec _ q hq
  · simp only [processKills, List.foldl_cons, List.foldl_nil, htruthy, Bool.false_eq_true,
      if_false, EconState.addGoldAll, EconState.getTotalGold, jsValues]
    exact foldl_add_map_const ec.playerGold _ 0

/-- **C3 (amended).** When the engine processes a kill: a kill whose
record carries a (non-empty) building-owner id pays
`goldReward + that owner's treasury bonus` to the owner alone, leaving
every other balance unchanged; a kill with no deterministic owner pays
the full `goldReward + max treasury bonus` to **every** player
(duplication, not an even split), so the total gold grows by
`playerCount × (reward + bonus)`. -/
theorem C3_kill_reward_routing (ec : EconState) (cs : CastleState) (k : KillInfo) :
    (∀ pid, k.killedByBuildingOwnerId = some pid → pid ≠ "" →
      (processKills [k] cs ec).getGold pid
        = ec.getGold pid + (k.goldReward + cs.getGoldBonusPerKill (some pid)) ∧
      (∀ q, q ≠ pid → (processKills [k] cs ec).getGold q = ec.getGold q)) ∧
    (k.killedByBuildingOwnerId = none →
      (∀ q, (jsGet ec.playerGold q).isSome →
        (processKills [k] cs ec).getGold q
          = ec.getGold q + (k.goldReward + cs.getGoldBonusPerKill none)) ∧
      (processKills [k] cs ec).getTotalGold
        = ec.getTotalGold + (k.goldReward + cs.getGoldBonusPerKill none) * ec.playerGold.length) :=
  ⟨fun pid hpid hne => processKills_owner_pays ec cs k pid hpid hne,
   fun hnone => processKills_ownerless_pays ec cs k hnone⟩

/-- Witness for the amended C3 at concrete inputs: an owned kill pays the
owner alone; the ownerless kill adds the reward to each of the two
players. -/
theorem C3_kill_reward_routing_witness :
    (processKills [ownedKill] (CastleState.initMultiple ["a", "b"]) econ2).getGold "a"
      = econ2.getGold "a" + (5 + 0) ∧
    (processKills [noOwnerKill] (CastleState.initMultiple ["a", "b"]) econ2).getTotalGold
      = econ2.getTotalGold + (5 + 0) * 2 := by
  constructor
  · have h := (C3_kill_reward_routing econ2 (CastleState.initMultiple ["a", "b"])
      ownedKill).1 "a" (by decide) (by decide)
    rw [h.1]
    decide
  · have h := (C3_kill_reward_routing econ2 (CastleState.initMultiple ["a", "b"])
      noOwnerKill).2 (by decide)
    rw [h.2]
    decide

-- ════════════════════════════════════════════════════════════════════
-- C10: castle-king kills are credited to the castle's owner
-- ════════════════════════════════════════════════════════════════════

/-- One step of the king-attack fold either leaves the kill list alone or
appends a single kill credited to that castle's owning player (and only
fires for a live castle). -/
theorem kingAttackOne_kills (sq : ℚ → ℚ) (now : ℚ) (acc : CombatAcc) (c : PlayerCastle) :
    (kingAttackOne sq now acc c).kills = acc.kills ∨
    (0 < c.hp ∧ ∃ eid gr, (kingAttackOne sq now acc c).kills
       = acc.kills ++ [{ enemyId := eid, goldReward := gr, killedByBuildingOwnerId := some c.playerId }]) := by
  by_cases h1 : c.hp ≤ 0
  · left
    simp [kingAttackOne, h1]
  · have hhp : 0 < c.hp := lt_of_not_ge h1
    by_cases h2 : now - c.lastKingAttackTime < CASTLE_KING_attackSpeed
    · left
      simp [kingAttackOne, h1, h2]
    · by_cases h3 : acc.es.getInRange sq c.centerX c.centerY CASTLE_KING_range = []
      · left
        simp [kingAttackOne, h1, h2, h3]
      · cases hclosest : closestEnemyTo sq c.centerX c.centerY
          (acc.es.getInRange sq c.centerX c.centerY CASTLE_KING_range) with
        | none =>
          left
          simp [kingAttackOne, h1, h2, h3, hclosest]
        | some closest =>
          cases htd : acc.es.takeDamage closest.id CASTLE_KING_damage with
          | mk res es' =>
            cases res with
            | mk killed gr =>
              cases killed with
              | false =>
                left
                simp [kingAttackOne, h1, h2, h3, hclosest, htd]
              | true =>
                right
                exact ⟨hhp, closest.id, gr, by simp [kingAttackOne, h1, h2, h3, hclosest, htd]⟩

/-- Folding `kingAttackOne` only adds kills credited to live castles of
the snapshot list. -/
theorem kingFold_kills (sq : ℚ → ℚ) (now : ℚ) (l : List PlayerCastle) (acc : CombatAcc) :
    ∀ k ∈ (l.foldl (kingAttackOne sq now) acc).kills,
      k ∈ acc.kills ∨ ∃ c ∈ l, 0 < c.hp ∧ k.killedByBuildingOwnerId = some c.playerId := by
  induction l generalizing acc with
  | nil =>
    intro k hk
    exact Or.inl hk
  | cons c rest ih =>
    intro k hk
    rcases ih (kingAttackOne sq now acc c) k hk with hin | ⟨c', hc', h⟩
    · rcases kingAttackOne_kills sq now acc c with heq | ⟨hhp, eid, gr, heq⟩
      · rw [heq] at hin
        exact Or.inl hin
      · rw [heq, List.mem_append, List.mem_singleton] at hin
        rcases hin with hin | rfl
        · exact Or.inl hin
        · exact Or.inr ⟨c, List.mem_cons_self c rest, hhp, rfl⟩
    · exact Or.inr ⟨c', List.mem_cons_of_mem c hc', h⟩

/-- **C10.** Every kill produced by the castles' king auto-attack phase
carries the id of a live castle's owning player in its
`killedByBuildingOwnerId` field, and the engine's kill-processing then
adds `goldReward + that player's treasury bonus` to that owner alone —
every other player's balance is unchanged, so a king kill is never
distributed to all players. -/
theorem C10_king_kill_credited_to_owner (sq : ℚ → ℚ) (now : ℚ) (acc0 : CombatAcc) :
    (∀ k ∈ (combatKingPhase sq now acc0).kills,
      k ∈ acc0.kills ∨
      ∃ c ∈ acc0.cs.getAllCastles, 0 < c.hp ∧ k.killedByBuildingOwnerId = some c.playerId) ∧
    (∀ (ec : EconState) (cs : CastleState) (k : KillInfo) (pid : String),
      k.killedByBuildingOwnerId = some pid → pid ≠ "" →
      (processKills [k] cs ec).getGold pid
        = ec.getGold pid + (k.goldReward + cs.getGoldBonusPerKill (some pid)) ∧
      (∀ q, q ≠ pid → (processKills [k] cs ec).getGold q = ec.getGold q)) := by
  constructor
  · exact kingFold_kills sq now acc0.cs.getAllCastles acc0
  · intro ec cs k pid hpid hne
    exact processKills_owner_pays ec cs k pid hpid hne

/-- Witness for C10: in `kingDemoAcc` the king attack at `now = 3` kills
the adjacent enemy; the kill record carries the owner `player_0`, and
processing it pays that owner alone. -/
theorem C10_king_kill_credited_to_owner_witness :
    kingDemoKill ∈ (combatKingPhase sqId 3 kingDemoAcc).kills ∧
    (∃ c ∈ kingDemoAcc.cs.getAllCastles, 0 < c.hp ∧
      kingDemoKill.killedByBuildingOwnerId = some c.playerId) ∧
    (processKills [kingDemoKill] kingDemoAcc.cs econ2).getGold "player_0"
      = econ2.getGold "player_0" + (5 + 0) ∧
    (processKills [kingDemoKill] kingDemoAcc.cs econ2).getGold "a" = econ2.getGold "a" := by
  have hmem : kingDemoKill ∈ (combatKingPhase sqId 3 kingDemoAcc).kills := by decide
  have h := C10_king_kill_credited_to_owner sqId 3 kingDemoAcc
  have hcred := (h.1 kingDemoKill hmem).resolve_left (by decide)
  have hroute := h.2 econ2 kingDemoAcc.cs kingDemoKill "player_0" (by decide) (by decide)
  refine ⟨hmem, hcred, ?_, hroute.2 "a" (by decide)⟩
  rw [hroute.1]
  decide

-- ════════════════════════════════════════════════════════════════════
-- C9: army-unit movement matches enemy movement
-- ════════════════════════════════════════════════════════════════════

/-- **C9.** `ArmyManager.updateUnits` advances a unit along its waypoint
path exactly as `EnemyManager.updateEnemies` advances an enemy with the
same position, path, path index, speed and `dt` (provided the enemy is
not subject to the wall-climb speed penalty, the only movement input the
enemy loop adds), and it reports exactly the units whose path is absent
or fully consumed after the move — the destination-reached condition. -/
theorem C9_army_movement_matches_enemy (sq : ℚ → ℚ) (dt : ℚ) (grid : Grid)
    (u : ArmyUnit) (e : Enemy)
    (hx : e.x = u.x) (hy : e.y = u.y) (hpath : e.path = u.path)
    (hidx : e.pathIndex = u.pathIndex) (hspeed : e.speed = u.speed)
    (hclimb : e.canClimbWalls = false ∨ grid.getWallHeight ⌊e.x⌋ ⌊e.y⌋ = 0) :
    (∀ cx cy : ℚ,
      (enemyUpdateOne sq dt grid cx cy e).1.x = (armyUpdateOne sq dt u).1.x ∧
      (enemyUpdateOne sq dt grid cx cy e).1.y = (armyUpdateOne sq dt u).1.y ∧
      (enemyUpdateOne sq dt grid cx cy e).1.pathIndex = (armyUpdateOne sq dt u).1.pathIndex) ∧
    (∀ (s : ArmyState) (u' : ArmyUnit),
      u' ∈ (s.updateUnits sq dt).1 ↔ ∃ kv ∈ s.units, armyUpdateOne sq dt kv.2 = (u', true)) ∧
    (∀ v : ArmyUnit, (armyUpdateOne sq dt v).2 = true ↔
      ((armyUpdateOne sq dt v).1.path = [] ∨
        (armyUpdateOne sq dt v).1.path.length ≤ (armyUpdateOne sq dt v).1.pathIndex)) := by
  refine ⟨?_, ?_, ?_⟩
  · intro cx cy
    by_cases hempty : e.path.length = 0
    · have huempty : u.path.length = 0 := by rw [← hpath]; exact hempty
      simp [enemyUpdateOne, armyUpdateOne, hempty, huempty, hx, hy, hidx]
    · have hune : ¬ u.path.length = 0 := by rw [← hpath]; exact hempty
      rcases hclimb with hc | hw
      · simp only [enemyUpdateOne, armyUpdateOne, hempty, hune, if_neg, hc,
          Bool.false_eq_true, if_false, hx, hy, hpath, hidx, hspeed]
        by_cases hreach : u.path.length ≤ (moveAlongPath sq (u.path.length + 1)
            (u.speed * dt) u.x u.y u.path u.pathIndex).2.2
        · simp [hreach]
        · simp [hreach]
      · rw [hx, hy] at hw
        simp only [enemyUpdateOne, armyUpdateOne, hempty, hune, if_neg, hw,
          lt_self_iff_false, if_false, hx, hy, hpath, hidx, hspeed]
        by_cases hreach : u.path.length ≤ (moveAlongPath sq (u.path.length + 1)
            (u.speed * dt) u.x u.y u.path u.pathIndex).2.2
        · simp [hreach]
        · simp [hreach]
  · intro s u'
    simp only [ArmyState.updateUnits, List.mem_map, List.mem_filter]
    constructor
    · rintro ⟨kv, ⟨⟨kv0, hkv0, rfl⟩, hflag⟩, rfl⟩
      refine ⟨kv0, hkv0, ?_⟩
      have : (armyUpdateOne sq dt kv0.2).2 = true := by simpa using hflag
      exact Prod.ext rfl this
    · rintro ⟨kv, hkv, hupd⟩
      refine ⟨(kv.1, armyUpdateOne sq dt kv.2), ⟨⟨kv, hkv, rfl⟩, by simp [hupd]⟩, by simp [hupd]⟩
  · intro v
    by_cases hvempty : v.path.length = 0
    · simp [armyUpdateOne, hvempty, List.length_eq_zero.mp hvempty]
    · simp only [armyUpdateOne, hvempty, if_neg]
      constructor
      · intro h
        right
        simpa [ge_iff_le] using h
      · intro h
        rcases h with h | h
        · exact absurd (by simpa [h] : v.path.length = 0) hvempty
        · simpa [ge_iff_le] using h

/-- Witness for C9 at concrete inputs: a swordsman-like unit and a
matching non-climbing enemy, one waypoint ahead, with `sq` the identity
and `dt = 1`. -/
theorem C9_army_movement_matches_enemy_witness :
    (enemyUpdateOne sqId 1 Grid.new 20 20 c9Enemy).1.x = (armyUpdateOne sqId 1 c9Unit).1.x ∧
    ((armyUpdateOne sqId 1 c9Unit).2 = true ↔
      ((armyUpdateOne sqId 1 c9Unit).1.path = [] ∨
        (armyUpdateOne sqId 1 c9Unit).1.path.length ≤ (armyUpdateOne sqId 1 c9Unit).1.pathIndex)) := by
  have h := C9_army_movement_matches_enemy sqId 1 Grid.new c9Unit c9Enemy
    (by decide) (by decide) (by decide) (by decide) (by decide) (Or.inl (by decide))
  exact ⟨(h.1 20 20).1, h.2.2 c9Unit⟩

-- ════════════════════════════════════════════════════════════════════
-- C6: wave spawn-count and stat-scaling formulas
-- ════════════════════════════════════════════════════════════════════

/-- A fold that appends one request per step grows the list by the number
of steps. -/
theorem buildRequests_length (type : EnemyType) (n : Nat) (r : Rand) :
    (buildRequests type n r).1.length = n := by
  suffices h : ∀ (l : List Nat) (acc : List SpawnRequest × Rand),
      ((l.foldl (fun (acc : List SpawnRequest × Rand) _ =>
        let (edge, r') := pickRandomEdge acc.2
        (acc.1 ++ [{ type := type, edge := edge }], r')) acc).1).length
        = acc.1.length + l.length by
    simpa [buildRequests] using h (List.range n) ([], r)
  intro l
  induction l with
  | nil => intro acc; simp
  | cons hd tl ih =>
    intro acc
    simp only [List.foldl_cons, List.length_cons, ih]
    simp
    ring

/-- The pre-shuffle zombie request list of `startNextZombieWave` has
exactly `normalCount + fastCount + heavyCount` entries, plus the four
wave-15 bosses. -/
theorem zombieRequests_length (w : Nat) (r : Rand) :
    (zombieRequests w r).1.length =
      (normalCountFor w).toNat + (fastCountFor w).toNat + (heavyCountFor w).toNat +
      (if w = 15 then 4 else 0) := by
  simp only [zombieRequests]
  by_cases h15 : w = 15 <;>
    simp [h15, buildRequests_length, EDGES] <;> ring

/-- **C6 (amended).** For every zombie wave 1–15: the number of zombie
spawn requests queued (excluding the four wave-15 bosses the spec lists
separately) equals `totalCount(wave) = baseCount(bracket) +
(wave-1)*spawnCountScale` exactly; every spawned enemy's speed is exactly
`baseSpeed*(1+(wave-1)*0.05)`; and its hp is the **rounded** value
`Math.round(baseHp*(1+(wave-1)*0.15))` — not the raw product the original
claim states. -/
theorem C6_wave_scaling_formulas (w : Nat) (hw1 : 1 ≤ w) (hw15 : w ≤ 15) :
    (∀ r : Rand, (zombieRequests w r).1.length
      = (totalCountFor w).toNat + (if w = 15 then 4 else 0)) ∧
    totalCountFor w = ((getCompositionForWave w).baseCount : ℤ) + ((w : ℤ) - 1) * 2 ∧
    (∀ (type : EnemyType) (edge : SpawnEdge) (grid : Grid) (r : Rand)
       (s : EnemyState) (e : Enemy),
      (s.spawnEnemy type edge grid w r).1 = some e →
      e.hp = (jsRound ((ENEMY_STATS type).hp * (1 + ((w : ℚ) - 1) * 0.15)) : ℚ) ∧
      e.speed = (ENEMY_STATS type).speed * (1 + ((w : ℚ) - 1) * 0.05)) := by
  refine ⟨?_, ?_, ?_⟩
  · intro r
    rw [zombieRequests_length]
    have hsum : (normalCountFor w).toNat + (fastCountFor w).toNat + (heavyCountFor w).toNat
        = (totalCountFor w).toNat := by
      interval_cases w <;> decide
    rw [hsum]
  · simp [totalCountFor, WAVE_CONFIG]
  · intro type edge grid r s e hspawn
    simp only [EnemyState.spawnEnemy] at hspawn
    rcases hcase : (if Grid.isWalkable grid (spawnEdgePos edge r).1.1 (spawnEdgePos edge r).1.2
        then some (spawnEdgePos edge r).1
        else slideAlongEdge grid edge (spawnEdgePos edge r).1.1 (spawnEdgePos edge r).1.2) with
      _ | pos
    · rw [hcase] at hspawn
      simp at hspawn
    · rw [hcase] at hspawn
      simp only [Option.some_inj] at hspawn
      constructor
      · rw [← hspawn]
        simp [WAVE_CONFIG]
      · rw [← hspawn]
        simp [WAVE_CONFIG]

/-- **C6 counterexample.** A normal zombie spawned in wave 2 has hp 58 —
`Math.round(50 * 1.15) = round(57.5) = 58` — while the claim's exact
formula demands `50*(1+(2-1)*0.15) = 57.5`; the two differ, so the hp
formula does not hold exactly. -/
theorem C6_wave2_hp_rounded_counterexample :
    (c6Spawn.1.map Enemy.hp) = some 58 ∧
    ¬ ((58 : ℚ) = 50 * (1 + ((2 : ℚ) - 1) * 0.15)) := by
  constructor
  · decide
  · decide

/-- Witness for the amended C6 at wave 2 and the concrete spawn
`c6Spawn`. -/
theorem C6_wave_scaling_formulas_witness :
    (zombieRequests 2 c6Rand).1.length = (totalCountFor 2).toNat + 0 ∧
    totalCountFor 2 = ((getCompositionForWave 2).baseCount : ℤ) + ((2 : ℤ) - 1) * 2 ∧
    (c6Spawn.1.map Enemy.hp) = some ((jsRound ((50 : ℚ) * (1 + ((2 : ℚ) - 1) * 0.15)) : ℚ)) := by
  have h := C6_wave_scaling_formulas 2 (by decide) (by decide)
  refine ⟨by simpa using h.1 c6Rand, h.2.1, ?_⟩
  cases hsp : c6Spawn.1 with
  | none => exact absurd (by decide : c6Spawn.1.isSome = true) (by simp [hsp])
  | some e =>
    have he := (h.2.2 .normalZombie .north Grid.new c6Rand EnemyState.empty e
      (by rw [← hsp]; rfl)).1
    simp [he, ENEMY_STATS]

-- ════════════════════════════════════════════════════════════════════
-- C4: wall stacking is capped at 3
-- ════════════════════════════════════════════════════════════════════

/-- One `placeBuilding` call preserves the station that every building's
`stackCount` is at most 3 (a fresh placement starts at 1; stacking is
guarded by `stackCount < 3`). -/
theorem placeBuilding_stack_le (s : BuildingState) (type : BuildingType) (x y : ℤ)
    (owner : String) (grid : Grid) (gold : ℚ)
    (hs : ∀ b ∈ jsValues s.buildings, b.stackCount ≤ 3) :
    ∀ b ∈ jsValues (s.placeBuilding type x y owner grid gold).2.1.buildings,
      b.stackCount ≤ 3 := by
  intro b hb
  simp only [BuildingState.placeBuilding] at hb
  repeat' split at hb
  all_goals
    first
    | exact hs b hb
    | {
        rcases jsValues_jsSet_subset _ _ _ _ hb with hold | hnew
        · exact hs b hold
        · subst hnew
          first
          | exact Nat.succ_le_of_lt (by assumption)
          | exact Nat.one_le_iff_ne_zero.mpr (by simp) |>.trans (by norm_num)
          | simp
      }

/-- **C4.** Wall stacking never exceeds `stackCount = 3`: after any
sequence of `placeBuilding` calls from a fresh manager every building's
`stackCount` is at most 3; and in the concrete four-call scenario at one
tile, the first call places the wall (`stackCount` 1), the next two raise
the stack to 2 and then 3 (hp accumulating, wall height following), and
the fourth attempt is rejected with the max-stack failure reason while
the wall's state and the grid's wall height stay unchanged. -/
theorem C4_wall_stack_capped (start : Grid) (calls : List PlaceCall) :
    (∀ b ∈ jsValues (runPlaces (BuildingState.empty, start) calls).1.buildings,
      b.stackCount ≤ 3) ∧
    (c4p1.1.building.map Building.stackCount = some 1 ∧
     c4p2.1.building.map Building.stackCount = some 2 ∧
     c4p3.1.building.map Building.stackCount = some 3 ∧
     c4p3.1.building.map Building.hp = some 300 ∧
     c4p3.2.2.getWallHeight 20 0 = 3 ∧
     c4p4.1.building = none ∧
     c4p4.1.reason = some "Maximum stack count (3) reached" ∧
     c4p4.2.1 = c4p3.2.1 ∧
     c4p4.2.2 = c4p3.2.2) := by
  constructor
  · have hrun : ∀ (cs : List PlaceCall) (st : BuildingState × Grid),
        (∀ b ∈ jsValues st.1.buildings, b.stackCount ≤ 3) →
        ∀ b ∈ jsValues (runPlaces st cs).1.buildings, b.stackCount ≤ 3 := by
      intro cs
      induction cs with
      | nil => intro st h; exact h
      | cons c rest ih =>
        intro st h
        exact ih _ (placeBuilding_stack_le st.1 c.type c.gridX c.gridY c.ownerId st.2 c.gold h)
    exact hrun calls (BuildingState.empty, start) (by simp [BuildingState.empty, jsValues])
  · refine ⟨by decide, by decide, by decide, by decide, by decide, by decide, by decide,
      by decide, by decide⟩

/-- Witness for C4 at a concrete call list: after one wooden-wall
placement at `(20, 0)` the placed wall's stack count is at most 3. -/
theorem C4_wall_stack_capped_witness :
    ∀ b ∈ jsValues (runPlaces (BuildingState.empty, Grid.new)
      [{ type := .woodenWall, gridX := 20, gridY := 0, ownerId := "p", gold := 500 }]).1.buildings,
      b.stackCount ≤ 3 :=
  (C4_wall_stack_capped Grid.new
    [{ type := .woodenWall, gridX := 20, gridY := 0, ownerId := "p", gold := 500 }]).1

-- ════════════════════════════════════════════════════════════════════
-- C1: edge-to-castle reachability after accepted placements
-- ════════════════════════════════════════════════════════════════════

/-- All grid reads of the pathfinder factor through `blocked`. -/
theorem isWalkable_congr (g₁ g₂ : Grid) (h : g₁.blocked = g₂.blocked) (x y : ℤ) :
    g₁.isWalkable x y = g₂.isWalkable x y := by
  simp [Grid.isWalkable, h]

theorem getNeighbors_congr (g₁ g₂ : Grid) (h : g₁.blocked = g₂.blocked) (x y : ℤ) :
    g₁.getNeighbors x y = g₂.getNeighbors x y := by
  simp only [Grid.getNeighbors]
  congr 1
  funext p
  rw [isWalkable_congr g₁ g₂ h]

theorem astarLoop_congr (g₁ g₂ : Grid) (h : g₁.blocked = g₂.blocked) (ex ey : ℤ) :
    ∀ (fuel : Nat) (open_ : List ANode) (closed : List (ℤ × ℤ)),
      astarLoop g₁ ex ey fuel open_ closed = astarLoop g₂ ex ey fuel open_ closed := by
  intro fuel
  induction fuel with
  | zero => intro _ _; rfl
  | succ n ih =>
    intro open_ closed
    simp only [astarLoop]
    cases selectMin open_ with
    | none => rfl
    | some cur =>
      simp only []
      split
      · rfl
      · rw [getNeighbors_congr g₁ g₂ h, ih]

theorem bestNeighbor8_congr (g₁ g₂ : Grid) (h : g₁.blocked = g₂.blocked)
    (sx sy ex ey : ℤ) : bestNeighbor8 g₁ sx sy ex ey = bestNeighbor8 g₂ sx sy ex ey := by
  simp only [bestNeighbor8]
  congr 1
  funext acc n
  rw [isWalkable_congr g₁ g₂ h]

theorem bestNeighborRing_congr (g₁ g₂ : Grid) (h : g₁.blocked = g₂.blocked)
    (ex ey : ℤ) (acc0 : Option (ℤ × ℤ) × Nat) :
    bestNeighborRing g₁ ex ey acc0 = bestNeighborRing g₂ ex ey acc0 := by
  simp only [bestNeighborRing]
  congr 1
  funext acc n
  rw [isWalkable_congr g₁ g₂ h]

/-- `findPath` only depends on the grid through its `blocked` set (wall
heights are irrelevant to pathfinding). -/
theorem findPath_congr (g₁ g₂ : Grid) (h : g₁.blocked = g₂.blocked)
    (sx sy ex ey : ℤ) : findPath g₁ sx sy ex ey = findPath g₂ sx sy ex ey := by
  simp only [findPath, isWalkable_congr g₁ g₂ h, bestNeighbor8_congr g₁ g₂ h,
    bestNeighborRing_congr g₁ g₂ h, astarLoop_congr g₁ g₂ h]

/-- `setWallHeight` leaves the blocked set unchanged. -/
theorem setWallHeight_blocked (g : Grid) (x y : ℤ) (w h hh : Nat) :
    (g.setWallHeight x y w h hh).blocked = g.blocked := rfl

/-- The grid width of every building type is nonzero. -/
theorem gridWidth_pos (t : BuildingType) : (BUILDING_STATS t).gridWidth ≠ 0 := by
  cases t <;> decide

/-- The grid height of every building type is nonzero. -/
theorem gridHeight_pos (t : BuildingType) : (BUILDING_STATS t).gridHeight ≠ 0 := by
  cases t <;> decide

/-- The anchor cell belongs to a building's footprint. -/
theorem anchor_mem_rectCells (x y : ℤ) (w h : Nat) (hw : w ≠ 0) (hh : h ≠ 0) :
    (x, y) ∈ rectCells x y w h := by
  unfold rectCells
  rw [List.mem_flatMap]
  refine ⟨0, List.mem_range.mpr (Nat.pos_of_ne_zero hw), ?_⟩
  exact List.mem_map.mpr ⟨(0 : ℕ), List.mem_range.mpr (Nat.pos_of_ne_zero hh), by simp⟩

/-- **C1 (amended).** For every *accepted* fresh (non-stacking) placement
— the footprint was fully walkable — each of the four map-edge probe
points that is still walkable on the resulting grid retains a path
(`findPath ≠ []`) to the fixed `MAP_CONFIG` castle centre `(20, 20)`.
(Edge points covered by the placement itself are skipped by the source's
`continue`, and only the primary castle centre is ever checked.) -/
theorem C1_accepted_placement_keeps_edge_paths (s : BuildingState) (type : BuildingType)
    (x y : ℤ) (owner : String) (grid : Grid) (gold : ℚ)
    (hwalk : (rectCells x y (BUILDING_STATS type).gridWidth
      (BUILDING_STATS type).gridHeight).all
        (fun p => grid.isWalkable p.1 p.2) = true)
    (hacc : (s.placeBuilding type x y owner grid gold).1.building.isSome = true) :
    ∀ p ∈ edgeTests,
      Grid.isWalkable (s.placeBuilding type x y owner grid gold).2.2 p.1 p.2 = true →
      findPath (s.placeBuilding type x y owner grid gold).2.2 p.1 p.2
        castleCenterX castleCenterY ≠ [] := by
  intro p hp hpwalk
  by_cases h1 : gold < (BUILDING_STATS type).cost
  · exfalso
    simp [BuildingState.placeBuilding, h1] at hacc
  by_cases h2 : x < 0 ∨ y < 0 ∨ x + ((BUILDING_STATS type).gridWidth : ℤ) > gridWidth ∨
      y + ((BUILDING_STATS type).gridHeight : ℤ) > gridHeight
  · exfalso
    simp only [BuildingState.placeBuilding, if_neg h1, if_pos h2] at hacc
    simp at hacc
  have hnblocked : ¬ ((rectCells x y (BUILDING_STATS type).gridWidth
      (BUILDING_STATS type).gridHeight).all
        (fun p => ¬ grid.isWalkable p.1 p.2) = true) := by
    intro hall
    have hmem := anchor_mem_rectCells x y _ _ (gridWidth_pos type) (gridHeight_pos type)
    have h1w := List.all_eq_true.mp hwalk (x, y) hmem
    have h2w := List.all_eq_true.mp hall (x, y) hmem
    simp at h1w h2w
    simp [h1w] at h2w
  by_cases hedge : edgeTestsPass (grid.clone.setBlocked x y (BUILDING_STATS type).gridWidth
      (BUILDING_STATS type).gridHeight) = true
  · -- accepted fresh placement: read off the stored edge test
    have hblocked : ((s.placeBuilding type x y owner grid gold).2.2).blocked =
        (grid.clone.setBlocked x y (BUILDING_STATS type).gridWidth
          (BUILDING_STATS type).gridHeight).blocked := by
      simp only [BuildingState.placeBuilding, if_neg h1, if_neg h2, Bool.and_eq_true]
      rw [if_neg (by intro hc; exact hnblocked hc.1), if_neg hnblocked,
        if_neg (by simpa using hwalk), if_neg (by simpa using hedge)]
      by_cases hwall : (BUILDING_STATS type).isWall
      · simp [hwall, setWallHeight_blocked, Grid.clone]
      · simp [hwall, Grid.clone]
    have hskip := List.all_eq_true.mp hedge p hp
    rw [isWalkable_congr _ _ hblocked] at hpwalk
    rw [findPath_congr _ _ hblocked]
    simp only [hpwalk] at hskip
    simpa using hskip
  · exfalso
    simp only [BuildingState.placeBuilding, if_neg h1, if_neg h2, Bool.and_eq_true] at hacc
    rw [if_neg (by intro hc; exact hnblocked hc.1), if_neg hnblocked,
      if_neg (by simpa using hwalk), if_pos (by simpa using hedge)] at hacc
    simp at hacc

/-- Witness for the amended C1: the accepted wooden-wall placement of
`c4p1` (at the north midpoint of an all-walkable grid) leaves a path from
the still-walkable west midpoint `(0, 20)` to the castle centre. -/
theorem C1_accepted_placement_keeps_edge_paths_witness :
    findPath c4p1.2.2 0 20 castleCenterX castleCenterY ≠ [] := by
  exact C1_accepted_placement_keeps_edge_paths BuildingState.empty .woodenWall 20 0 "p"
    Grid.new 500 (by decide) (by decide) (0, 20) (by decide) (by decide)

/-- **C1 counterexample.** In a fresh single-player session the engine
*accepts* a wooden wall placed exactly on the north map-edge midpoint
`(20, 0)` (the reachability check skips a probe point that is itself
unwalkable), after which no path at all exists from that map-edge
midpoint to the live castle's centre `(20, 20)` — contradicting the
claim that every accepted placement leaves a connected path from each of
the four map-edge midpoints to every live castle centre. -/
theorem C1_midpoint_walled_off_counterexample :
    c1After.1.success = true ∧
    (engine1.cs.getAllCastles.map PlayerCastle.hp) = [1000] ∧
    (engine1.cs.getAllCastles.map PlayerCastle.centerX) = [20] ∧
    (engine1.cs.getAllCastles.map PlayerCastle.centerY) = [20] ∧
    Grid.isWalkable c1After.2.grid 20 0 = false ∧
    findPath c1After.2.grid 20 0 20 20 = [] := by
  refine ⟨by decide, by decide, by decide, by decide, by decide, by decide⟩

-- ════════════════════════════════════════════════════════════════════
-- C2: the non-negativity invariant — generic preservation lemmas
-- ════════════════════════════════════════════════════════════════════

/-- A fold whose body preserves a predicate preserves it. -/
theorem foldl_preserves {α β : Type} (P : α → Prop) (f : α → β → α) :
    ∀ (l : List β), (∀ x ∈ l, ∀ b, P b → P (f b x)) → ∀ a, P a → P (l.foldl f a) := by
  intro l
  induction l with
  | nil => exact fun _ a ha => ha
  | cons hd tl ih =>
    intro hf a ha
    exact ih (fun x hx b hb => hf x (List.mem_cons_of_mem hd hx) b hb)
      (f a hd) (hf hd (List.mem_cons_self hd tl) a ha)

/-- The second component of an entry is a value of the map. -/
theorem snd_mem_jsValues {κ α : Type} (m : List (κ × α)) (kv : κ × α) (h : kv ∈ m) :
    kv.2 ∈ jsValues m :=
  List.mem_map_of_mem Prod.snd h

/-- Values after an entrywise map, given the map body lands in `P`. -/
theorem valuesOk_map {κ α β : Type} (P : β → Prop) (m : List (κ × α)) (g : κ × α → κ × β)
    (h : ∀ kv ∈ m, P (g kv).2) : ∀ w ∈ jsValues (m.map g), P w := by
  intro w hw
  simp only [jsValues, List.map_map, List.mem_map] at hw
  obtain ⟨kv, hkv, rfl⟩ := hw
  exact h kv hkv

/-- Values after a keyed set, given the new value satisfies `P`. -/
theorem valuesOk_set {κ α : Type} [DecidableEq κ] (P : α → Prop) (m : List (κ × α))
    (k : κ) (v : α) (h : ∀ w ∈ jsValues m, P w) (hv : P v) :
    ∀ w ∈ jsValues (jsSet m k v), P w := by
  intro w hw
  rcases jsValues_jsSet_subset m k v w hw with h1 | h1
  · exact h w h1
  · exact h1 ▸ hv

/-- Values after a keyed adjust, given the body preserves `P`. -/
theorem valuesOk_adjust {κ α : Type} [DecidableEq κ] (P : α → Prop) (m : List (κ × α))
    (k : κ) (f : α → α) (h : ∀ w ∈ jsValues m, P w) (hf : ∀ u, P u → P (f u)) :
    ∀ w ∈ jsValues (jsAdjust m k f), P w := by
  intro w hw
  rcases jsValues_jsAdjust_subset m k f w hw with h1 | ⟨u, hu, rfl⟩
  · exact h w h1
  · exact hf u (h u hu)

/-- Values after a keyed delete. -/
theorem valuesOk_delete {κ α : Type} [DecidableEq κ] (P : α → Prop) (m : List (κ × α))
    (k : κ) (h : ∀ w ∈ jsValues m, P w) : ∀ w ∈ jsValues (jsDelete m k), P w :=
  fun w hw => h w (jsValues_jsDelete_subset m k w hw)

/-- `Math.round` of a non-negative number is non-negative. -/
theorem jsRound_nonneg (x : ℚ) (hx : 0 ≤ x) : (0 : ℚ) ≤ ((jsRound x : ℤ) : ℚ) := by
  have h1 : (0 : ℤ) ≤ jsRound x := Int.floor_nonneg.mpr (by linarith)
  exact_mod_cast h1

/-- `KillsOk` through an append of one non-negative-reward record. -/
theorem killsOk_append (l : List KillInfo) (k : KillInfo) (hl : KillsOk l)
    (hk : 0 ≤ k.goldReward) : KillsOk (l ++ [k]) := by
  intro x hx
  rcases List.mem_append.mp hx with h1 | h1
  · exact hl x h1
  · simp only [List.mem_singleton] at h1
    exact h1 ▸ hk

-- ── economy ──────────────────────────────────────────────────────────

/-- `getGold` of a non-negative ledger is non-negative. -/
theorem getGold_nonneg (ec : EconState) (h : EconOk ec) (p : String) :
    0 ≤ ec.getGold p := by
  unfold EconState.getGold
  cases hv : jsGet ec.playerGold p with
  | none => simp
  | some v => simpa using h v (jsGet_mem_values _ _ _ hv)

/-- `addGold` with a non-negative amount keeps all balances non-negative. -/
theorem econOk_addGold (ec : EconState) (p : String) (amt : ℚ) (h : EconOk ec)
    (ha : 0 ≤ amt) : EconOk (ec.addGold p amt) := by
  intro g hg
  exact valuesOk_set (fun q => 0 ≤ q) ec.playerGold p _ h
    (add_nonneg (getGold_nonneg ec h p) ha) g hg

/-- `addGoldAll` with a non-negative amount keeps all balances non-negative. -/
theorem econOk_addGoldAll (ec : EconState) (amt : ℚ) (h : EconOk ec) (ha : 0 ≤ amt) :
    EconOk (ec.addGoldAll amt) := by
  intro g hg
  refine valuesOk_map (fun q => 0 ≤ q) ec.playerGold _ ?_ g hg
  intro kv hkv
  exact add_nonneg (h kv.2 (snd_mem_jsValues _ kv hkv)) ha

/-- `spendGold` keeps all balances non-negative: the insufficient case
leaves the ledger untouched, the sufficient case stores the non-negative
difference. -/
theorem econOk_spendGold (ec : EconState) (p : String) (amt : ℚ) (h : EconOk ec) :
    EconOk (ec.spendGold p amt).2 := by
  simp only [EconState.spendGold]
  split
  · exact h
  · next hlt =>
    intro g hg
    exact valuesOk_set (fun q => 0 ≤ q) ec.playerGold p _ h
      (by have := not_lt.mp hlt; linarith) g hg

-- ── castles ──────────────────────────────────────────────────────────

/-- Castle adjusts whose body preserves `CastleOk` preserve `CastlesOk`. -/
theorem castlesOk_adjust (cs : CastleState) (pid : String)
    (f : PlayerCastle → PlayerCastle) (h : CastlesOk cs)
    (hf : ∀ c, CastleOk c → CastleOk (f c)) :
    CastlesOk (CastleState.mk (jsAdjust cs.castles pid f)) := by
  intro c hc
  exact valuesOk_adjust CastleOk cs.castles pid f h hf c hc

/-- `CastleManager.takeDamage` preserves `CastlesOk` (hp clamped at 0). -/
theorem castlesOk_takeDamage (cs : CastleState) (pid : String) (amt : ℚ)
    (h : CastlesOk cs) : CastlesOk (cs.takeDamage pid amt) := by
  refine castlesOk_adjust cs pid _ h ?_
  intro c hc
  exact ⟨le_max_left 0 _, hc.2.1, hc.2.2⟩

/-- `CastleManager.repair` preserves `CastlesOk`. -/
theorem castlesOk_repair (cs : CastleState) (pid : String) (h : CastlesOk cs) :
    CastlesOk (cs.repair pid).2 := by
  simp only [CastleState.repair]
  split
  · exact h
  · refine castlesOk_adjust cs pid _ h ?_
    intro c hc
    refine ⟨le_min hc.2.1 ?_, hc.2.1, hc.2.2⟩
    have h1 : (0 : ℚ) ≤ (CASTLE_UPGRADES CastleUpgradeType.repair).hpRestore := by decide
    linarith [hc.1]

/-- `CastleManager.upgrade` preserves `CastlesOk` (bonuses are added on
top of non-negative values, the treasury bonus is the non-negative
configured constant). -/
theorem castlesOk_upgrade (cs : CastleState) (pid : String) (t : CastleUpgradeType)
    (h : CastlesOk cs) : CastlesOk (cs.upgrade pid t).2 := by
  have hadj : CastlesOk (CastleState.mk
      (jsAdjust cs.castles pid
        (fun c => { c with purchasedUpgrades := c.purchasedUpgrades ++ [t] }))) :=
    castlesOk_adjust cs pid _ h (fun c hc => hc)
  simp only [CastleState.upgrade]
  split
  · exact h
  · split
    · exact castlesOk_repair cs pid h
    · split
      · exact h
      · split
        · exact h
        · split
          · refine castlesOk_adjust _ pid _ hadj ?_
            intro c hc
            have hb : (0 : ℚ) ≤ (CASTLE_UPGRADES CastleUpgradeType.fortifyI).hpBonus := by
              decide
            exact ⟨add_nonneg hc.1 hb, add_nonneg hc.2.1 hb, hc.2.2⟩
          · refine castlesOk_adjust _ pid _ hadj ?_
            intro c hc
            have hb : (0 : ℚ) ≤ (CASTLE_UPGRADES CastleUpgradeType.fortifyII).hpBonus := by
              decide
            exact ⟨add_nonneg hc.1 hb, add_nonneg hc.2.1 hb, hc.2.2⟩
          · refine castlesOk_adjust _ pid _ hadj ?_
            intro c hc
            refine ⟨hc.1, hc.2.1, ?_⟩
            show (0 : ℚ) ≤ (CASTLE_UPGRADES CastleUpgradeType.treasury).goldBonusPerKill
            decide
          · exact hadj

/-- The no-player treasury-bonus fold starts at 0 and never drops below
it. -/
theorem bonus_none_nonneg (cs : CastleState) : 0 ≤ cs.getGoldBonusPerKill none := by
  show 0 ≤ cs.getAllCastles.foldl
    (fun mx c => if c.goldBonusPerKill > mx then c.goldBonusPerKill else mx) 0
  refine foldl_preserves (fun q => 0 ≤ q) _ cs.getAllCastles ?_ 0 le_rfl
  intro c _ mx hmx
  by_cases hgt : c.goldBonusPerKill > mx
  · simpa [hgt] using le_of_lt (lt_of_le_of_lt hmx hgt)
  · simpa [hgt] using hmx

/-- A named player's treasury bonus is non-negative under `CastlesOk`. -/
theorem bonus_some_nonneg (cs : CastleState) (pid : String) (h : CastlesOk cs) :
    0 ≤ cs.getGoldBonusPerKill (some pid) := by
  simp only [CastleState.getGoldBonusPerKill]
  cases hv : cs.getCastle pid with
  | none => simp
  | some c => simpa using (h c (jsGet_mem_values _ _ _ hv)).2.2

-- ── enemies ──────────────────────────────────────────────────────────

/-- The configured enemy base stats are non-negative. -/
theorem enemyStats_nonneg (t : EnemyType) :
    0 ≤ (ENEMY_STATS t).hp ∧ 0 ≤ (ENEMY_STATS t).goldReward := by
  cases t <;> exact ⟨by decide, by decide⟩

/-- The wave hp multiplier `1 + (wave − 1) * 0.15` is non-negative for
every natural wave number. -/
theorem hpMultiplier_nonneg (w : Nat) :
    0 ≤ 1 + ((w : ℚ) - 1) * WAVE_CONFIG.hpScalePerWave := by
  have hw : (0 : ℚ) ≤ (w : ℚ) := Nat.cast_nonneg w
  have hs : WAVE_CONFIG.hpScalePerWave = 0.15 := rfl
  rw [hs]
  nlinarith

/-- `EnemyManager.takeDamage` preserves `EnemiesOk` (survivors get the
clamped hp, kills are deleted). -/
theorem enemiesOk_takeDamage (es : EnemyState) (id : Nat) (amt : ℚ) (h : EnemiesOk es) :
    EnemiesOk (es.takeDamage id amt).2 := by
  simp only [EnemyState.takeDamage]
  split
  · exact h
  · split
    · intro x hx
      exact valuesOk_delete EnemyOk es.enemies id h x hx
    · intro x hx
      refine valuesOk_adjust EnemyOk es.enemies id _ h ?_ x hx
      intro u hu
      exact ⟨le_max_left 0 _, hu.2.1, hu.2.2⟩

/-- The reward returned by `EnemyManager.takeDamage` is non-negative
under `EnemiesOk`. -/
theorem takeDamage_gold_nonneg (es : EnemyState) (id : Nat) (amt : ℚ)
    (h : EnemiesOk es) : 0 ≤ (es.takeDamage id amt).1.2 := by
  simp only [EnemyState.takeDamage]
  split
  · exact le_rfl
  · next e heq =>
    split
    · exact (h e (jsGet_mem_values _ _ _ heq)).2.2
    · exact le_rfl

/-- `EnemyManager.spawnEnemy` only ever stores enemies with non-negative
hp, max hp and reward (rounded scaled base stats). -/
theorem enemiesOk_spawn (es : EnemyState) (t : EnemyType) (edge : SpawnEdge)
    (grid : Grid) (w : Nat) (r : Rand) (h : EnemiesOk es) :
    EnemiesOk (es.spawnEnemy t edge grid w r).2.1 := by
  simp only [EnemyState.spawnEnemy]
  split
  · exact h
  · intro x hx
    refine valuesOk_set EnemyOk es.enemies _ _ h ?_ x hx
    have hhp : (0 : ℚ) ≤ ((jsRound ((ENEMY_STATS t).hp *
        (1 + ((w : ℚ) - 1) * WAVE_CONFIG.hpScalePerWave)) : ℤ) : ℚ) :=
      jsRound_nonneg _ (mul_nonneg (enemyStats_nonneg t).1 (hpMultiplier_nonneg w))
    exact ⟨hhp, hhp, (enemyStats_nonneg t).2⟩

/-- The per-enemy movement body only changes position and path index. -/
theorem enemyUpdateOne_ok (sq : ℚ → ℚ) (dt : ℚ) (grid : Grid) (cx cy : ℚ) (e : Enemy)
    (h : EnemyOk e) : EnemyOk (enemyUpdateOne sq dt grid cx cy e).1 := by
  simp only [enemyUpdateOne]
  repeat' split
  all_goals exact h

/-- `EnemyManager.updateEnemies` preserves `EnemiesOk`. -/
theorem enemiesOk_update (sq : ℚ → ℚ) (es : EnemyState) (dt : ℚ) (grid : Grid)
    (cx cy : ℚ) (h : EnemiesOk es) :
    EnemiesOk (es.updateEnemies sq dt grid cx cy).2 := by
  intro x hx
  have hx2 : x ∈ jsValues ((es.enemies.map fun kv =>
      (kv.1, enemyUpdateOne sq dt grid cx cy kv.2)).map fun kv => (kv.1, kv.2.1)) := hx
  refine valuesOk_map EnemyOk _ _ ?_ x hx2
  intro kv2 hkv2
  obtain ⟨kv, hkv, rfl⟩ := List.mem_map.mp hkv2
  exact enemyUpdateOne_ok sq dt grid cx cy kv.2 (h kv.2 (snd_mem_jsValues _ kv hkv))

/-- `EnemyManager.removeEnemy` preserves `EnemiesOk`. -/
theorem enemiesOk_remove (es : EnemyState) (id : Nat) (h : EnemiesOk es) :
    EnemiesOk (es.removeEnemy id) := by
  intro x hx
  exact valuesOk_delete EnemyOk es.enemies id h x hx

-- ── buildings ────────────────────────────────────────────────────────

/-- The configured building stats are non-negative. -/
theorem buildingStats_nonneg (t : BuildingType) :
    0 ≤ (BUILDING_STATS t).hp ∧ 0 ≤ (BUILDING_STATS t).cost := by
  cases t <;> exact ⟨by decide, by decide⟩

/-- `BuildingManager.placeBuilding` preserves `BuildingsOk` (fresh
placements store the configured stats, stacking adds configured hp on
top of a stored building's hp). -/
theorem buildingsOk_place (s : BuildingState) (t : BuildingType) (x y : ℤ) (o : String)
    (grid : Grid) (gold : ℚ) (h : BuildingsOk s) :
    BuildingsOk (s.placeBuilding t x y o grid gold).2.1 := by
  intro b hb
  simp only [BuildingState.placeBuilding] at hb
  repeat' split at hb
  all_goals
    first
    | exact h b hb
    | {
        rcases jsValues_jsSet_subset _ _ _ _ hb with hold | hnew
        · exact h b hold
        · subst hnew
          first
          | exact ⟨(buildingStats_nonneg t).1, (buildingStats_nonneg t).2⟩
          | {
              rename_i existingWall heq hcnt
              have hmem : existingWall ∈ jsValues s.buildings := by
                have h2 := List.mem_of_find?_eq_some heq
                simpa [BuildingState.getAllBuildings] using h2
              have hw := h existingWall hmem
              exact ⟨add_nonneg hw.1 (buildingStats_nonneg t).1, hw.2⟩
            }
      }

/-- `BuildingManager.takeDamage` preserves `BuildingsOk` (hp clamped at
0, stored stats untouched). -/
theorem buildingsOk_takeDamage (s : BuildingState) (id : Nat) (amt : ℚ)
    (h : BuildingsOk s) : BuildingsOk (s.takeDamage id amt).2 := by
  simp only [BuildingState.takeDamage]
  split
  · exact h
  · intro b hb
    refine valuesOk_adjust BuildingOk s.buildings id _ h ?_ b hb
    intro u hu
    exact ⟨le_max_left 0 _, hu.2⟩

/-- `BuildingManager.removeBuilding` preserves `BuildingsOk`. -/
theorem buildingsOk_remove (s : BuildingState) (id : Nat) (grid : Grid)
    (h : BuildingsOk s) : BuildingsOk (s.removeBuilding id grid).2.1 := by
  simp only [BuildingState.removeBuilding]
  split
  · exact h
  · intro b hb
    exact valuesOk_delete BuildingOk s.buildings id h b hb

/-- `BuildingManager.sellBuilding` preserves `BuildingsOk`. -/
theorem buildingsOk_sell (s : BuildingState) (id : Nat) (grid : Grid)
    (h : BuildingsOk s) : BuildingsOk (s.sellBuilding id grid).2.1 := by
  simp only [BuildingState.sellBuilding]
  split
  · exact h
  · exact buildingsOk_remove s id grid h

/-- The sell refund `⌊cost / 2⌋` is non-negative under `BuildingsOk`. -/
theorem sell_refund_nonneg (s : BuildingState) (id : Nat) (grid : Grid)
    (h : BuildingsOk s) : 0 ≤ (s.sellBuilding id grid).1.2 := by
  simp only [BuildingState.sellBuilding]
  split
  · exact le_rfl
  · next b heq =>
    have hb := h b (jsGet_mem_values _ _ _ heq)
    have hcost : (0 : ℚ) ≤ b.stats.cost * sellRefundPercent :=
      mul_nonneg hb.2 (by decide)
    have h1 : (0 : ℤ) ≤ ⌊b.stats.cost * sellRefundPercent⌋ := Int.floor_nonneg.mpr hcost
    show (0 : ℚ) ≤ ((⌊b.stats.cost * sellRefundPercent⌋ : ℤ) : ℚ)
    exact_mod_cast h1

/-- `BuildingManager.moveBuilding` preserves `BuildingsOk` (only the
coordinates change). -/
theorem buildingsOk_move (s : BuildingState) (id : Nat) (nx ny : ℤ) (grid : Grid)
    (h : BuildingsOk s) : BuildingsOk (s.moveBuilding id nx ny grid).2.1 := by
  simp only [BuildingState.moveBuilding]
  repeat' split
  all_goals
    first
    | exact h
    | {
        intro b hb
        refine valuesOk_adjust BuildingOk s.buildings id _ h ?_ b hb
        intro u hu
        exact hu
      }

-- ── army ─────────────────────────────────────────────────────────────

/-- The configured army unit stats are non-negative. -/
theorem armyStats_nonneg (t : ArmyUnitType) :
    0 ≤ (ARMY_UNIT_STATS t).hp ∧ 0 ≤ (ARMY_UNIT_STATS t).cost := by
  cases t <;> exact ⟨by decide, by decide⟩

/-- `ArmyManager.spawnUnit` stores units at their configured hp. -/
theorem armysOk_spawnUnit (ar : ArmyState) (t : ArmyUnitType) (o : String)
    (sx sy tx ty : ℤ) (grid : Grid) (h : ArmysOk ar) :
    ArmysOk (ar.spawnUnit t o sx sy tx ty grid).2 := by
  simp only [ArmyState.spawnUnit]
  split
  · exact h
  · intro x hx
    refine valuesOk_set ArmyOk ar.units _ _ h ?_ x hx
    exact (armyStats_nonneg t).1

/-- The per-unit movement body only changes position and path index. -/
theorem armyUpdateOne_ok (sq : ℚ → ℚ) (dt : ℚ) (u : ArmyUnit) (h : ArmyOk u) :
    ArmyOk (armyUpdateOne sq dt u).1 := by
  simp only [armyUpdateOne]
  repeat' split
  all_goals exact h

/-- `ArmyManager.updateUnits` preserves `ArmysOk`. -/
theorem armysOk_update (sq : ℚ → ℚ) (ar : ArmyState) (dt : ℚ) (h : ArmysOk ar) :
    ArmysOk (ar.updateUnits sq dt).2 := by
  intro x hx
  have hx2 : x ∈ jsValues ((ar.units.map fun kv =>
      (kv.1, armyUpdateOne sq dt kv.2)).map fun kv => (kv.1, kv.2.1)) := hx
  refine valuesOk_map ArmyOk _ _ ?_ x hx2
  intro kv2 hkv2
  obtain ⟨kv, hkv, rfl⟩ := List.mem_map.mp hkv2
  exact armyUpdateOne_ok sq dt kv.2 (h kv.2 (snd_mem_jsValues _ kv hkv))

-- ── combat phases ────────────────────────────────────────────────────

/-- One building hit on one enemy preserves the combat invariant. -/
theorem accOk_buildingHitEnemy (acc : CombatAcc) (b : Building) (tid : Nat) (dmg : ℚ)
    (h : AccOk acc) : AccOk (buildingHitEnemy acc b tid dmg) := by
  simp only [buildingHitEnemy]
  split
  · exact ⟨enemiesOk_takeDamage acc.es tid dmg h.1, h.2.1, h.2.2.1, h.2.2.2.1,
      killsOk_append _ _ h.2.2.2.2 (takeDamage_gold_nonneg acc.es tid dmg h.1)⟩
  · exact ⟨enemiesOk_takeDamage acc.es tid dmg h.1, h.2.1, h.2.2.1, h.2.2.2.1, h.2.2.2.2⟩

/-- A fold of building hits preserves the combat invariant. -/
theorem accOk_hitFold (acc : CombatAcc) (b : Building) (dmg : ℚ) (l : List Enemy)
    (h : AccOk acc) : AccOk (l.foldl (fun a t => buildingHitEnemy a b t.id dmg) acc) :=
  foldl_preserves AccOk _ l (fun t _ a hA => accOk_buildingHitEnemy a b t.id dmg hA) acc h

/-- `handleArrowTower` preserves the combat invariant. -/
theorem accOk_arrowTower (sq : ℚ → ℚ) (acc : CombatAcc) (b : Building)
    (l : List Enemy) (h : AccOk acc) : AccOk (handleArrowTower sq acc b l) := by
  simp only [handleArrowTower]
  split
  · exact h
  · exact accOk_buildingHitEnemy _ _ _ _ h

/-- `handleCannon` / `handleHotAirBalloon` preserve the combat invariant. -/
theorem accOk_aoe (sq : ℚ → ℚ) (acc : CombatAcc) (b : Building) (cx cy : ℚ)
    (l : List Enemy) (h : AccOk acc) : AccOk (handleAoeAttack sq acc b cx cy l) := by
  simp only [handleAoeAttack]
  split
  · exact h
  · exact accOk_hitFold _ _ _ _ h

/-- `handleBallista` preserves the combat invariant. -/
theorem accOk_ballista (sq : ℚ → ℚ) (acc : CombatAcc) (b : Building) (cx cy : ℚ)
    (l : List Enemy) (h : AccOk acc) : AccOk (handleBallista sq acc b cx cy l) := by
  simp only [handleBallista]
  split
  · exact h
  · split
    · exact h
    · exact foldl_preserves AccOk _ _
        (fun t _ a hA => accOk_buildingHitEnemy a b t.1.id _ hA) acc h

/-- `handleMine` preserves the combat invariant (the detonated mine is
removed, a map delete). -/
theorem accOk_mine (sq : ℚ → ℚ) (acc : CombatAcc) (b : Building) (h : AccOk acc) :
    AccOk (handleMine sq acc b) := by
  simp only [handleMine]
  split
  · exact h
  · have hF : ∀ (a : CombatAcc), AccOk a → AccOk
        { a with
          destroyedBuildings := a.destroyedBuildings ++ [b.id],
          bs := (a.bs.removeBuilding b.id a.grid).2.1,
          grid := (a.bs.removeBuilding b.id a.grid).2.2 } := by
      intro a ha
      exact ⟨ha.1, ha.2.1, buildingsOk_remove _ b.id _ ha.2.2.1, ha.2.2.2.1, ha.2.2.2.2⟩
    exact hF _ (accOk_hitFold acc b _ _ h)

/-- The per-building attack body preserves the combat invariant. -/
theorem accOk_buildingAttackOne (sq : ℚ → ℚ) (now : ℚ) (acc : CombatAcc) (b : Building)
    (h : AccOk acc) : AccOk (buildingAttackOne sq now acc b) := by
  simp only [buildingAttackOne]
  split
  · exact h
  · split
    · exact accOk_mine sq acc b h
    · split
      · exact h
      · split
        · exact h
        · split
          · exact h
          · have hacc2 : AccOk { acc with bs := { acc.bs with buildings := jsAdjust acc.bs.buildings b.id fun bb => { bb with lastAttackTime := now } } } := by
              refine ⟨h.1, h.2.1, ?_, h.2.2.2.1, h.2.2.2.2⟩
              intro x hx
              exact valuesOk_adjust BuildingOk acc.bs.buildings b.id
                (fun bb => { bb with lastAttackTime := now }) h.2.2.1
                (fun u hu => hu) x hx
            split
            all_goals
              first
              | exact accOk_arrowTower sq _ _ _ hacc2
              | exact accOk_aoe sq _ _ _ _ _ hacc2
              | exact accOk_ballista sq _ _ _ _ _ hacc2
              | exact hacc2

/-- Phase 1 (building attacks) preserves the combat invariant. -/
theorem accOk_buildingsPhase (sq : ℚ → ℚ) (now : ℚ) (acc0 : CombatAcc) (h : AccOk acc0) :
    AccOk (combatBuildingsPhase sq now acc0) :=
  foldl_preserves AccOk _ _ (fun b _ a hA => accOk_buildingAttackOne sq now a b hA) acc0 h

/-- The per-castle king attack body preserves the combat invariant. -/
theorem accOk_kingAttackOne (sq : ℚ → ℚ) (now : ℚ) (acc : CombatAcc)
    (castle : PlayerCastle) (h : AccOk acc) : AccOk (kingAttackOne sq now acc castle) := by
  simp only [kingAttackOne]
  split
  · exact h
  · split
    · exact h
    · split
      · exact h
      · split
        · exact h
        · have hacc2 : AccOk { acc with cs := { castles := jsAdjust acc.cs.castles castle.playerId fun c => { c with lastKingAttackTime := now } } } :=
            ⟨h.1,
             fun c hc => valuesOk_adjust CastleOk acc.cs.castles castle.playerId
               (fun cc => { cc with lastKingAttackTime := now }) h.2.1
               (fun u hu => hu) c hc,
             h.2.2.1, h.2.2.2.1, h.2.2.2.2⟩
          split
          · exact ⟨enemiesOk_takeDamage _ _ _ hacc2.1, hacc2.2.1, hacc2.2.2.1,
              hacc2.2.2.2.1,
              killsOk_append _ _ hacc2.2.2.2.2 (takeDamage_gold_nonneg _ _ _ hacc2.1)⟩
          · exact ⟨enemiesOk_takeDamage _ _ _ hacc2.1, hacc2.2.1, hacc2.2.2.1,
              hacc2.2.2.2.1, hacc2.2.2.2.2⟩

/-- Phase 2 (castle kings) preserves the combat invariant. -/
theorem accOk_kingPhase (sq : ℚ → ℚ) (now : ℚ) (acc0 : CombatAcc) (h : AccOk acc0) :
    AccOk (combatKingPhase sq now acc0) :=
  foldl_preserves AccOk _ _ (fun c _ a hA => accOk_kingAttackOne sq now a c hA) acc0 h

/-- `handleBossSlam` preserves the combat invariant (building and castle
damage is clamped, destroyed buildings are deleted). -/
theorem accOk_bossSlam (sq : ℚ → ℚ) (now : ℚ) (acc0 : CombatAcc) (e : Enemy)
    (h : AccOk acc0) : AccOk (handleBossSlam sq now acc0 e) := by
  simp only [handleBossSlam]
  split
  · exact h
  · have h1 : AccOk { acc0 with es := { acc0.es with enemies := jsAdjust acc0.es.enemies e.id fun en => { en with lastSpecialTime := now } } } :=
      ⟨fun x hx => valuesOk_adjust EnemyOk acc0.es.enemies e.id
         (fun en => { en with lastSpecialTime := now }) h.1 (fun u hu => hu) x hx,
       h.2.1, h.2.2.1, h.2.2.2.1, h.2.2.2.2⟩
    refine foldl_preserves AccOk _ _ ?_ _ (foldl_preserves AccOk _ _ ?_ _ h1)
    · intro castle _ a ha
      split
      · exact ha
      · split
        · exact ⟨ha.1, castlesOk_takeDamage _ _ _ ha.2.1, ha.2.2.1, ha.2.2.2.1,
            ha.2.2.2.2⟩
        · exact ha
    · intro bld _ a ha
      split
      · exact ⟨ha.1, ha.2.1, buildingsOk_takeDamage _ _ _ ha.2.2.1, ha.2.2.2.1,
          ha.2.2.2.2⟩
      · split
        · exact ⟨ha.1, ha.2.1,
            buildingsOk_remove _ _ _ (buildingsOk_takeDamage _ _ _ ha.2.2.1),
            ha.2.2.2.1, ha.2.2.2.2⟩
        · exact ⟨ha.1, ha.2.1, buildingsOk_takeDamage _ _ _ ha.2.2.1, ha.2.2.2.1,
            ha.2.2.2.2⟩

/-- `handleGeneralWarCry` preserves the combat invariant (heals are
clamped at max hp and never negative). -/
theorem accOk_warCry (sq : ℚ → ℚ) (now : ℚ) (acc : CombatAcc) (e : Enemy)
    (h : AccOk acc) : AccOk (handleGeneralWarCry sq now acc e) := by
  simp only [handleGeneralWarCry]
  split
  · exact h
  · have h1 : ∀ x ∈ jsValues (jsAdjust acc.es.enemies e.id
        (fun en => { en with lastSpecialTime := now })), EnemyOk x :=
      fun x hx => valuesOk_adjust EnemyOk acc.es.enemies e.id
        (fun en => { en with lastSpecialTime := now }) h.1 (fun u hu => hu) x hx
    refine ⟨?_, h.2.1, h.2.2.1, h.2.2.2.1, h.2.2.2.2⟩
    intro x hx
    refine valuesOk_map EnemyOk _ _ ?_ x hx
    intro kv hkv
    have hkOk : EnemyOk kv.2 := h1 kv.2 (snd_mem_jsValues _ kv hkv)
    split
    · exact hkOk
    · split
      · refine ⟨?_, hkOk.2.1, hkOk.2.2⟩
        have hheal : (0 : ℚ) ≤
            ((jsRound (kv.2.maxHp * GENERAL_warCryHealPercent) : ℤ) : ℚ) :=
          jsRound_nonneg _ (mul_nonneg hkOk.2.1 (by decide))
        exact le_min hkOk.2.1 (add_nonneg hkOk.1 hheal)
      · exact hkOk

/-- The per-enemy special body preserves the combat invariant. -/
theorem accOk_specialOne (sq : ℚ → ℚ) (now : ℚ) (acc : CombatAcc) (e : Enemy)
    (h : AccOk acc) : AccOk (specialOne sq now acc e) := by
  simp only [specialOne]
  split
  · split
    · exact accOk_bossSlam sq now acc e h
    · split
      · exact accOk_warCry sq now acc e h
      · exact h
  · exact h

/-- Phase 3 (enemy specials over the stale snapshot) preserves the combat
invariant. -/
theorem accOk_specialsPhase (sq : ℚ → ℚ) (now : ℚ) (staleEnemies : List Enemy)
    (acc0 : CombatAcc) (h : AccOk acc0) :
    AccOk (combatSpecialsPhase sq now staleEnemies acc0) :=
  foldl_preserves AccOk _ _ (fun e _ a hA => accOk_specialOne sq now a e hA) acc0 h

/-- The per-enemy castle-reached body preserves the combat invariant. -/
theorem accOk_reachedOne (sq : ℚ → ℚ) (acc : CombatAcc) (e : Enemy) (h : AccOk acc) :
    AccOk (reachedOne sq acc e) := by
  simp only [reachedOne]
  split
  · exact ⟨enemiesOk_remove _ _ h.1, castlesOk_takeDamage _ _ _ h.2.1, h.2.2.1,
      h.2.2.2.1, h.2.2.2.2⟩
  · exact ⟨enemiesOk_remove _ _ h.1, h.2.1, h.2.2.1, h.2.2.2.1, h.2.2.2.2⟩

/-- Phase 4 (reached-castle enemies) preserves the combat invariant. -/
theorem accOk_reachedPhase (sq : ℚ → ℚ) (reached : List Enemy) (acc0 : CombatAcc)
    (h : AccOk acc0) : AccOk (combatReachedPhase sq reached acc0) :=
  foldl_preserves AccOk _ _ (fun e _ a hA => accOk_reachedOne sq a e hA) acc0 h

/-- The per-wall melee body preserves the combat invariant. -/
theorem accOk_wallHitOne (dt : ℚ) (e : Enemy) (a : CombatAcc) (wall : Building)
    (h : AccOk a) : AccOk (wallHitOne dt e a wall) := by
  simp only [wallHitOne]
  repeat' split
  all_goals
    first
    | exact h
    | exact ⟨h.1, h.2.1, buildingsOk_takeDamage _ _ _ h.2.2.1, h.2.2.2.1, h.2.2.2.2⟩
    | exact ⟨h.1, h.2.1,
        buildingsOk_remove _ _ _ (buildingsOk_takeDamage _ _ _ h.2.2.1),
        h.2.2.2.1, h.2.2.2.2⟩

/-- The per-enemy melee body preserves the combat invariant. -/
theorem accOk_wallMeleeOne (sq : ℚ → ℚ) (dt : ℚ) (acc : CombatAcc) (e : Enemy)
    (h : AccOk acc) : AccOk (wallMeleeOne sq dt acc e) := by
  simp only [wallMeleeOne]
  exact foldl_preserves AccOk _ _ (fun w _ a ha => accOk_wallHitOne dt e a w ha) acc h

/-- Phase 5 (wall melee) preserves the combat invariant. -/
theorem accOk_wallMeleePhase (sq : ℚ → ℚ) (dt : ℚ) (acc0 : CombatAcc) (h : AccOk acc0) :
    AccOk (combatWallMeleePhase sq dt acc0) :=
  foldl_preserves AccOk _ _ (fun e _ a hA => accOk_wallMeleeOne sq dt a e hA) acc0 h

/-- The per-unit army attack body preserves the combat invariant. -/
theorem accOk_armyAttackOne (now : ℚ) (acc : CombatAcc) (u : ArmyUnit) (h : AccOk acc) :
    AccOk (armyAttackOne now acc u) := by
  simp only [armyAttackOne]
  split
  · exact h
  · split
    · split
      · split
        · exact ⟨h.1, castlesOk_takeDamage _ _ _ h.2.1, h.2.2.1,
            fun x hx => valuesOk_adjust ArmyOk acc.army.units u.id
              (fun uu => { uu with lastAttackTime := now }) h.2.2.2.1
              (fun w hw => hw) x hx,
            h.2.2.2.2⟩
        · exact h
      · exact h
    · exact h

/-- Phase 6 (army movement and attacks) preserves the combat invariant. -/
theorem accOk_armyPhase (sq : ℚ → ℚ) (dt now : ℚ) (acc0 : CombatAcc) (h : AccOk acc0) :
    AccOk (combatArmyPhase sq dt now acc0) := by
  simp only [combatArmyPhase]
  refine foldl_preserves AccOk _ _ ?_ _ ?_
  · intro u _ a ha
    exact accOk_armyAttackOne now a u ha
  · exact ⟨h.1, h.2.1, h.2.2.1, armysOk_update sq acc0.army dt h.2.2.2.1, h.2.2.2.2⟩

/-- `CombatManager.update` preserves the managers' non-negativity
invariants and only records non-negative kill rewards. -/
theorem accOk_combatUpdate (sq : ℚ → ℚ) (et dt : ℚ) (reached : List Enemy)
    (bs : BuildingState) (es : EnemyState) (cs : CastleState) (army : ArmyState)
    (grid : Grid) (he : EnemiesOk es) (hc : CastlesOk cs) (hb : BuildingsOk bs)
    (ha : ArmysOk army) :
    AccOk (combatUpdate sq et dt reached bs es cs army grid).2 := by
  simp only [combatUpdate]
  exact accOk_armyPhase _ _ _ _ (accOk_wallMeleePhase _ _ _ (accOk_reachedPhase _ _ _
    (accOk_specialsPhase _ _ _ _ (accOk_kingPhase _ _ _ (accOk_buildingsPhase _ _ _
      ⟨he, hc, hb, ha, fun k hk => absurd hk (List.not_mem_nil k)⟩)))))

/-- The engine's kill-reward routing preserves non-negative balances. -/
theorem econOk_processKills (kills : List KillInfo) (cs : CastleState) (ec : EconState)
    (he : EconOk ec) (hk : KillsOk kills) (hc : CastlesOk cs) :
    EconOk (processKills kills cs ec) := by
  refine foldl_preserves EconOk _ _ ?_ ec he
  intro kill hmem ec2 he2
  split
  · split
    · exact econOk_addGold _ _ _ he2
        (add_nonneg (hk kill hmem) (bonus_some_nonneg cs _ hc))
    · exact he2
  · exact econOk_addGoldAll _ _ he2 (add_nonneg (hk kill hmem) (bonus_none_nonneg cs))

-- ── engine level ─────────────────────────────────────────────────────

/-- The wave spawn callback preserves the invariant. -/
theorem inv_spawnOne (s : GameState) (req : SpawnRequest) (h : Inv s) :
    Inv (s.spawnOne req) :=
  ⟨h.1, enemiesOk_spawn _ _ _ _ _ _ h.2.1, h.2.2.1, h.2.2.2.1, h.2.2.2.2⟩

/-- The spawn-queue drain loop preserves the invariant. -/
theorem inv_drain (fuel : Nat) : ∀ (s : GameState), Inv s → Inv (drainSpawnQueue fuel s) := by
  induction fuel with
  | zero => exact fun s h => h
  | succ n ih =>
    intro s h
    simp only [drainSpawnQueue]
    split
    · split
      · exact h
      · next req rest heq =>
        refine ih _ ?_
        exact inv_spawnOne { s with ws := { s.ws with waveSpawnQueue := rest } } req h
    · exact h

/-- `updatePreparation` only touches the wave state and random stream. -/
theorem inv_updatePreparation (s : GameState) (dt : ℚ) (h : Inv s) :
    Inv (s.updatePreparation dt) := by
  simp only [GameState.updatePreparation]
  split
  · exact h
  · exact h

/-- `updateWaveActive` preserves the invariant (spawns keep it, phase
changes do not touch tracked state). -/
theorem inv_updateWaveActive (s : GameState) (dt : ℚ) (n : Nat) (h : Inv s) :
    Inv (s.updateWaveActive dt n) := by
  simp only [GameState.updateWaveActive]
  repeat' split
  all_goals first | exact h | exact inv_drain _ _ h

/-- `updateWaveBreak` only touches the wave state and random stream. -/
theorem inv_updateWaveBreak (s : GameState) (dt : ℚ) (h : Inv s) :
    Inv (s.updateWaveBreak dt) := by
  simp only [GameState.updateWaveBreak]
  split
  · exact h
  · exact h

/-- `WaveManager.update` preserves the invariant. -/
theorem inv_waveUpdate (s : GameState) (dt : ℚ) (n : Nat) (h : Inv s) :
    Inv (s.waveUpdate dt n) := by
  simp only [GameState.waveUpdate]
  split
  · exact inv_updatePreparation s dt h
  · exact inv_updateWaveActive s dt n h
  · exact inv_updateWaveBreak s dt h
  · exact h

set_option maxHeartbeats 3200000 in
/-- `GameEngine.tick` preserves the invariant: wave spawns, movement,
the six combat phases and the kill-reward routing all keep every hp and
balance non-negative. -/
theorem inv_tick (sq : ℚ → ℚ) (s : GameState) (dt : ℚ) (h : Inv s) :
    Inv (s.tick sq dt) := by
  simp only [GameState.tick]
  split
  · exact h
  · have h1 : Inv (s.waveUpdate dt s.es.getCount) := inv_waveUpdate s dt _ h
    repeat' split
    all_goals
      refine ⟨econOk_processKills _ _ _ h1.1 ?_ ?_, ?_, ?_, ?_, ?_⟩
    all_goals
      first
      | exact (accOk_combatUpdate sq _ dt _ _ _ _ _ _
          (enemiesOk_update sq _ dt _ _ _ h1.2.1) h1.2.2.1 h1.2.2.2.1
          h1.2.2.2.2).2.2.2.2
      | exact (accOk_combatUpdate sq _ dt _ _ _ _ _ _
          (enemiesOk_update sq _ dt _ _ _ h1.2.1) h1.2.2.1 h1.2.2.2.1
          h1.2.2.2.2).2.1
      | exact (accOk_combatUpdate sq _ dt _ _ _ _ _ _
          (enemiesOk_update sq _ dt _ _ _ h1.2.1) h1.2.2.1 h1.2.2.2.1
          h1.2.2.2.2).1
      | exact (accOk_combatUpdate sq _ dt _ _ _ _ _ _
          (enemiesOk_update sq _ dt _ _ _ h1.2.1) h1.2.2.1 h1.2.2.2.1
          h1.2.2.2.2).2.2.1
      | exact (accOk_combatUpdate sq _ dt _ _ _ _ _ _
          (enemiesOk_update sq _ dt _ _ _ h1.2.1) h1.2.2.1 h1.2.2.2.1
          h1.2.2.2.2).2.2.2.1

/-- `handlePlaceBuilding` preserves the invariant. -/
theorem inv_handlePlace (s : GameState) (t : Option BuildingType) (x y : ℤ) (o : String)
    (h : Inv s) : Inv (s.handlePlaceBuilding t x y o).2 := by
  simp only [GameState.handlePlaceBuilding]
  repeat' split
  all_goals
    first
    | exact h
    | exact ⟨econOk_spendGold _ _ _ h.1, h.2.1, h.2.2.1,
        buildingsOk_place _ _ _ _ _ _ _ h.2.2.2.1, h.2.2.2.2⟩

/-- `handleSellBuilding` preserves the invariant (the refund is
non-negative). -/
theorem inv_handleSell (s : GameState) (bid : Nat) (seller : String) (h : Inv s) :
    Inv (s.handleSellBuilding bid seller).2 := by
  simp only [GameState.handleSellBuilding]
  repeat' split
  all_goals
    first
    | exact h
    | exact ⟨econOk_addGold _ _ _ h.1 (sell_refund_nonneg _ _ _ h.2.2.2.1), h.2.1,
        h.2.2.1, buildingsOk_sell _ _ _ h.2.2.2.1, h.2.2.2.2⟩

/-- `handleMoveBuilding` preserves the invariant. -/
theorem inv_handleMove (s : GameState) (bid : Nat) (nx ny : ℤ) (h : Inv s) :
    Inv (s.handleMoveBuilding bid nx ny).2 :=
  ⟨h.1, h.2.1, h.2.2.1, buildingsOk_move _ _ _ _ _ h.2.2.2.1, h.2.2.2.2⟩

/-- All castle upgrade costs are non-negative. -/
theorem upgradeCost_nonneg (t : CastleUpgradeType) : 0 ≤ (CASTLE_UPGRADES t).cost := by
  cases t <;> decide

/-- `handleUpgradeCastle` preserves the invariant (spend, refund and the
upgrade itself all keep it). -/
theorem inv_handleUpgrade (s : GameState) (t : Option CastleUpgradeType) (pid : String)
    (h : Inv s) : Inv (s.handleUpgradeCastle t pid).2 := by
  simp only [GameState.handleUpgradeCastle]
  repeat' split
  all_goals
    first
    | exact h
    | exact ⟨econOk_spendGold _ _ _ h.1, h.2.1, h.2.2.1, h.2.2.2.1, h.2.2.2.2⟩
    | exact ⟨econOk_addGold _ _ _ (econOk_spendGold _ _ _ h.1) (upgradeCost_nonneg _),
        h.2.1, castlesOk_upgrade _ _ _ h.2.2.1, h.2.2.2.1, h.2.2.2.2⟩
    | exact ⟨econOk_spendGold _ _ _ h.1, h.2.1, castlesOk_upgrade _ _ _ h.2.2.1,
        h.2.2.2.1, h.2.2.2.2⟩

/-- `handleRepairCastle` preserves the invariant. -/
theorem inv_handleRepair (s : GameState) (pid : String) (h : Inv s) :
    Inv (s.handleRepairCastle pid).2 :=
  inv_handleUpgrade s (some .repair) pid h

/-- `handleSpawnArmy` preserves the invariant. -/
theorem inv_handleSpawnArmy (s : GameState) (t : Option ArmyUnitType) (o tp : String)
    (h : Inv s) : Inv (s.handleSpawnArmy t o tp).2 := by
  simp only [GameState.handleSpawnArmy]
  repeat' split
  all_goals
    first
    | exact h
    | exact ⟨econOk_spendGold _ _ _ h.1, h.2.1, h.2.2.1, h.2.2.2.1, h.2.2.2.2⟩
    | exact ⟨econOk_addGold _ _ _ (econOk_spendGold _ _ _ h.1) ((armyStats_nonneg _).2),
        h.2.1, h.2.2.1, h.2.2.2.1, h.2.2.2.2⟩
    | exact ⟨econOk_spendGold _ _ _ h.1, h.2.1, h.2.2.1, h.2.2.2.1,
        fun x hx => valuesOk_adjust ArmyOk _ _
          (fun uu => { uu with targetPlayerId := tp })
          (armysOk_spawnUnit _ _ _ _ _ _ _ _ h.2.2.2.2) (fun w hw => hw) x hx⟩

/-- One engine action preserves the invariant. -/
theorem inv_step (sq : ℚ → ℚ) (s : GameState) (a : Action) (h : Inv s) :
    Inv (s.step sq a) := by
  cases a with
  | tick dt => exact inv_tick sq s dt h
  | place t x y o => exact inv_handlePlace s t x y o h
  | sell bid seller => exact inv_handleSell s bid seller h
  | move bid x y => exact inv_handleMove s bid x y h
  | upgrade t pid => exact inv_handleUpgrade s t pid h
  | repairC pid => exact inv_handleRepair s pid h
  | spawnArmy t o tp => exact inv_handleSpawnArmy s t o tp h

/-- The fresh ledger holds only the starting balance. -/
theorem econOk_init (pids : List String) : EconOk (EconState.init pids) := by
  intro g hg
  refine foldl_preserves (fun (m : List (String × ℚ)) => ∀ x ∈ jsValues m, 0 ≤ x)
    _ pids ?_ [] ?_ g hg
  · intro pid _ m hm x hx
    refine valuesOk_set (fun q => 0 ≤ q) m pid startingGoldPerPlayer hm ?_ x hx
    decide
  · intro x hx
    exact absurd hx (List.not_mem_nil x)

/-- The fresh castles all start at the base hp with no bonus. -/
theorem castlesOk_init (pids : List String) : CastlesOk (CastleState.initMultiple pids) := by
  intro c hc
  refine foldl_preserves
    (fun (m : List (String × PlayerCastle)) => ∀ x ∈ jsValues m, CastleOk x)
    _ (List.range pids.length) ?_ [] ?_ c hc
  · intro i _ m hm x hx
    cases hpid : pids.get? i with
    | none =>
      rw [hpid] at hx
      exact hm x hx
    | some pid =>
      rw [hpid] at hx
      refine valuesOk_set CastleOk m pid _ hm ?_ x hx
      have hbase : (0 : ℚ) ≤ CASTLE_BASE_HP := by decide
      exact ⟨hbase, hbase, le_rfl⟩
  · intro x hx
    exact absurd hx (List.not_mem_nil x)

/-- A fresh session satisfies the invariant. -/
theorem inv_init (pids : List String) (r : Rand) : Inv (initEngine pids r) :=
  ⟨econOk_init pids, fun e he => absurd he (List.not_mem_nil e), castlesOk_init pids,
   fun b hb => absurd hb (List.not_mem_nil b), fun u hu => absurd hu (List.not_mem_nil u)⟩

/-- Any action sequence from an invariant state keeps the invariant. -/
theorem inv_run (sq : ℚ → ℚ) (s : GameState) (acts : List Action) (h : Inv s) :
    Inv (s.run sq acts) :=
  foldl_preserves Inv _ acts (fun a _ st hst => inv_step sq st a hst) s h

/-- **C2.** After any sequence of command calls and ticks from a freshly
initialized session, every entity's hp (enemy, castle, building, army
unit) and every player's gold balance is non-negative (`Inv`); and in
particular `spendGold` rejects an insufficient spend without deducting
anything, and every `takeDamage` implementation clamps the stored hp at
0 (`max 0 (hp − amount)`; enemy and army entries are deleted instead
when the clamp reaches 0). -/
theorem C2_gold_and_hp_never_negative :
    (∀ (sq : ℚ → ℚ) (playerIds : List String) (r : Rand) (acts : List Action),
      Inv ((initEngine playerIds r).run sq acts)) ∧
    (∀ (ec : EconState) (p : String) (a : ℚ),
      ec.getGold p < a → ec.spendGold p a = (false, ec)) ∧
    (∀ (cs : CastleState) (pid : String) (amt : ℚ) (c : PlayerCastle),
      jsGet cs.castles pid = some c →
      jsGet (cs.takeDamage pid amt).castles pid =
        some { c with hp := max 0 (c.hp - amt) }) ∧
    (∀ (es : EnemyState) (id : Nat) (amt : ℚ) (e : Enemy),
      jsGet es.enemies id = some e → ¬ max 0 (e.hp - amt) ≤ 0 →
      jsGet (es.takeDamage id amt).2.enemies id =
        some { e with hp := max 0 (e.hp - amt) }) ∧
    (∀ (bs : BuildingState) (id : Nat) (amt : ℚ) (b : Building),
      jsGet bs.buildings id = some b →
      jsGet (bs.takeDamage id amt).2.buildings id =
        some { b with hp := max 0 (b.hp - amt) }) ∧
    (∀ (ar : ArmyState) (id : Nat) (amt : ℚ) (u : ArmyUnit),
      jsGet ar.units id = some u → ¬ max 0 (u.hp - amt) ≤ 0 →
      jsGet (ar.takeDamage id amt).2.units id =
        some { u with hp := max 0 (u.hp - amt) }) := by
  refine ⟨fun sq pids r acts => inv_run sq _ acts (inv_init pids r), ?_, ?_, ?_, ?_, ?_⟩
  · intro ec p a hlt
    simp only [EconState.spendGold, if_pos hlt]
  · intro cs pid amt c hc
    simp only [CastleState.takeDamage]
    rw [jsGet_jsAdjust_self, hc]
    rfl
  · intro es id amt e he hsurv
    simp only [EnemyState.takeDamage, he]
    rw [if_neg hsurv]
    simp only []
    rw [jsGet_jsAdjust_self, he]
    rfl
  · intro bs id amt b hb
    simp only [BuildingState.takeDamage, BuildingState.getBuilding, hb]
    rw [jsGet_jsAdjust_self, hb]
    rfl
  · intro ar id amt u hu hsurv
    simp only [ArmyState.takeDamage, hu]
    rw [if_neg hsurv]
    simp only []
    rw [jsGet_jsAdjust_self, hu]
    rfl

/-- Witness for C2 at concrete inputs: the invariant after a fresh
session plus one tick, a rejected overspend, and the four clamped
`takeDamage` updates. -/
theorem C2_gold_and_hp_never_negative_witness :
    Inv ((initEngine ["a"] rand0).run sqId [Action.tick 1]) ∧
    econ2.spendGold "a" 600 = (false, econ2) ∧
    jsGet (c2Castles.takeDamage "a" 40).castles "a" =
      some { c2CastleA with hp := max 0 (c2CastleA.hp - 40) } ∧
    jsGet ((witnessEnemyState.takeDamage 7 3).2.enemies) 7 =
      some { witnessEnemy with hp := max 0 (witnessEnemy.hp - 3) } ∧
    jsGet ((c2BS.takeDamage 1 10).2.buildings) 1 =
      some { c2Building with hp := max 0 (c2Building.hp - 10) } ∧
    jsGet ((c2AS.takeDamage 1 4).2.units) 1 =
      some { c2Unit with hp := max 0 (c2Unit.hp - 4) } :=
  ⟨C2_gold_and_hp_never_negative.1 sqId ["a"] rand0 [Action.tick 1],
   C2_gold_and_hp_never_negative.2.1 econ2 "a" 600 (by decide),
   C2_gold_and_hp_never_negative.2.2.1 c2Castles "a" 40 c2CastleA (by decide),
   C2_gold_and_hp_never_negative.2.2.2.1 witnessEnemyState 7 3 witnessEnemy
     (by decide) (by decide),
   C2_gold_and_hp_never_negative.2.2.2.2.1 c2BS 1 10 c2Building (by decide),
   C2_gold_and_hp_never_negative.2.2.2.2.2 c2AS 1 4 c2Unit (by decide) (by decide)⟩

-- ════════════════════════════════════════════════════════════════════
-- C5: A* on the empty grid — geometry of the Manhattan metric
-- ════════════════════════════════════════════════════════════════════

/-- `manP` of a point with itself. -/
theorem manP_self (a : ℤ × ℤ) : manP a a = 0 := by
  simp [manP, manhattan]

/-- `manP` separates points. -/
theorem manP_eq_zero {a b : ℤ × ℤ} (h : manP a b = 0) : a = b := by
  obtain ⟨a1, a2⟩ := a
  obtain ⟨b1, b2⟩ := b
  simp only [manP, manhattan] at h
  have h2 : a1 = b1 ∧ a2 = b2 := by omega
  simp [h2.1, h2.2]

/-- `manP` is symmetric. -/
theorem manP_comm (a b : ℤ × ℤ) : manP a b = manP b a := by
  simp only [manP, manhattan]
  omega

/-- Triangle inequality for `manP`. -/
theorem manP_triangle (a b c : ℤ × ℤ) : manP a c ≤ manP a b + manP b c := by
  simp only [manP, manhattan]
  omega

/-- `inB` unfolded to coordinate bounds. -/
theorem inB_iff (p : ℤ × ℤ) : inB p ↔ 0 ≤ p.1 ∧ p.1 < 40 ∧ 0 ≤ p.2 ∧ p.2 < 40 := by
  simp [inB, Grid.isInBounds, gridWidth, gridHeight]

/-- From any in-bounds cell at positive distance to an in-bounds goal
there is an in-bounds cardinal step that decreases the distance by 1. -/
theorem step_toward (c z : ℤ × ℤ) (hc : inB c) (hz : inB z) (h : 0 < manP c z) :
    ∃ nb : ℤ × ℤ, manP c nb = 1 ∧ inB nb ∧ manP nb z + 1 = manP c z := by
  obtain ⟨c1, c2⟩ := c
  obtain ⟨z1, z2⟩ := z
  rw [inB_iff] at hc hz
  simp only [manP, manhattan] at h
  rcases lt_trichotomy c1 z1 with h1 | h1 | h1
  · exact ⟨(c1 + 1, c2), by simp only [manP, manhattan]; omega,
      by simp only [inB_iff]; omega, by simp only [manP, manhattan]; omega⟩
  · rcases lt_trichotomy c2 z2 with h2 | h2 | h2
    · exact ⟨(c1, c2 + 1), by simp only [manP, manhattan]; omega,
        by simp only [inB_iff]; omega, by simp only [manP, manhattan]; omega⟩
    · exact absurd h (by omega)
    · exact ⟨(c1, c2 - 1), by simp only [manP, manhattan]; omega,
        by simp only [inB_iff]; omega, by simp only [manP, manhattan]; omega⟩
  · exact ⟨(c1 - 1, c2), by simp only [manP, manhattan]; omega,
      by simp only [inB_iff]; omega, by simp only [manP, manhattan]; omega⟩

/-- On the fresh grid walkability is exactly in-bounds. -/
theorem isWalkable_new (x y : ℤ) : Grid.new.isWalkable x y = Grid.isInBounds x y := by
  simp [Grid.isWalkable, Grid.new]

/-- Neighbours on the fresh grid are exactly the in-bounds cells at
Manhattan distance 1. -/
theorem mem_neighbors_new (x y : ℤ) (p : ℤ × ℤ) :
    p ∈ Grid.new.getNeighbors x y ↔ manP (x, y) p = 1 ∧ inB p := by
  obtain ⟨p1, p2⟩ := p
  simp only [Grid.getNeighbors, List.mem_filter, List.mem_cons, List.not_mem_nil,
    or_false, isWalkable_new, Prod.mk.injEq, manP, manhattan, inB, Grid.isInBounds,
    gridWidth, gridHeight, decide_eq_true_eq]
  omega

/-- Every in-bounds cell is listed in `allCells`. -/
theorem mem_allCells (p : ℤ × ℤ) (h : inB p) : p ∈ allCells := by
  obtain ⟨p1, p2⟩ := p
  rw [inB_iff] at h
  simp only [allCells, List.mem_flatMap, List.mem_map, List.mem_range]
  refine ⟨p1.toNat, by omega, p2.toNat, by omega, ?_⟩
  simp only [Prod.mk.injEq]
  omega

set_option maxRecDepth 10000 in
/-- The map has 1600 cells. -/
theorem allCells_length : allCells.length = 1600 := by decide

/-- A duplicate-free list of in-bounds cells has at most 1600 entries. -/
theorem closed_card (closed : List (ℤ × ℤ)) (hnod : closed.Nodup)
    (hsub : ∀ c ∈ closed, inB c) : closed.length ≤ 1600 := by
  have hsub2 : closed ⊆ allCells := fun c hc => mem_allCells c (hsub c hc)
  have h2 := List.Subperm.length_le (List.Nodup.subperm hnod hsub2)
  simpa [allCells_length] using h2

-- ── selectMin and the open-list operations ───────────────────────────

/-- `selectMin` is the fold of `selStep`. -/
theorem selectMin_eq_fold (l : List ANode) : selectMin l = l.foldl selStep none := rfl

/-- A node improving on a node improves on everything that node
improves on (lex transitivity). -/
theorem aBetter_trans (a b c : ANode) (h1 : aBetter a b = true)
    (h2 : aBetter b c = true) : aBetter a c = true := by
  simp only [aBetter, decide_eq_true_eq] at *
  omega

/-- Two non-improvements compose. -/
theorem aBetter_neg_trans (a b c : ANode) (h1 : ¬ aBetter a b = true)
    (h2 : ¬ aBetter b c = true) : ¬ aBetter a c = true := by
  simp only [aBetter, decide_eq_true_eq] at *
  omega

/-- A node never improves on itself. -/
theorem aBetter_irrefl (a : ANode) : ¬ aBetter a a = true := by
  simp [aBetter]

/-- The running-minimum fold of `selectMin`, specified. -/
theorem selMin_fold_spec (l : List ANode) :
    ∀ (c : ANode), ∃ r, l.foldl selStep (some c) = some r ∧
      (r = c ∨ r ∈ l) ∧ (∀ n ∈ l, ¬ aBetter n r = true) ∧ ¬ aBetter c r = true := by
  induction l with
  | nil =>
    intro c
    exact ⟨c, rfl, Or.inl rfl, by simp, aBetter_irrefl c⟩
  | cons hd tl ih =>
    intro c
    by_cases hb : aBetter hd c = true
    · obtain ⟨r, hr, hmem, hall, hc⟩ := ih hd
      refine ⟨r, ?_, ?_, ?_, ?_⟩
      · simpa [selStep, hb] using hr
      · rcases hmem with h | h
        · exact Or.inr (h ▸ List.mem_cons_self hd tl)
        · exact Or.inr (List.mem_cons_of_mem hd h)
      · intro n hn
        rcases List.mem_cons.mp hn with rfl | h
        · exact hc
        · exact hall n h
      · intro hcr
        exact hc (aBetter_trans hd c r hb hcr)
    · obtain ⟨r, hr, hmem, hall, hc⟩ := ih c
      refine ⟨r, ?_, ?_, ?_, hc⟩
      · simpa [selStep, hb] using hr
      · rcases hmem with h | h
        · exact Or.inl h
        · exact Or.inr (List.mem_cons_of_mem hd h)
      · intro n hn
        rcases List.mem_cons.mp hn with rfl | h
        · exact aBetter_neg_trans n c r hb hc
        · exact hall n h

/-- `selectMin` of a cons, specified. -/
theorem selectMin_cons_spec (l : List ANode) (c : ANode) :
    ∃ r, selectMin (c :: l) = some r ∧ (r = c ∨ r ∈ l) ∧
      (∀ n ∈ l, ¬ aBetter n r = true) ∧ ¬ aBetter c r = true := by
  obtain ⟨r, hr, hmem, hall, hc⟩ := selMin_fold_spec l c
  exact ⟨r, by rw [selectMin_eq_fold, List.foldl_cons]; exact hr, hmem, hall, hc⟩

/-- `selectMin` returns a member that no open node improves on. -/
theorem selectMin_spec (open_ : List ANode) (cur : ANode)
    (h : selectMin open_ = some cur) :
    cur ∈ open_ ∧ ∀ n ∈ open_, ¬ aBetter n cur = true := by
  cases open_ with
  | nil => simp [selectMin] at h
  | cons hd tl =>
    obtain ⟨r, hr, hmem, hall, hc⟩ := selectMin_cons_spec tl hd
    rw [hr] at h
    obtain rfl := Option.some.inj h
    refine ⟨?_, ?_⟩
    · rcases hmem with rfl | h2
      · exact List.mem_cons_self _ _
      · exact List.mem_cons_of_mem hd h2
    · intro n hn
      rcases List.mem_cons.mp hn with rfl | h2
      · exact hc
      · exact hall n h2

/-- `selectMin` only fails on the empty open list. -/
theorem selectMin_eq_none (l : List ANode) (h : selectMin l = none) : l = [] := by
  cases l with
  | nil => rfl
  | cons hd tl =>
    obtain ⟨r, hr, _, _, _⟩ := selectMin_cons_spec tl hd
    rw [hr] at h
    cases h

/-- `openFind` fails exactly off the key set. -/
theorem openFind_none_iff (l : List ANode) (k : ℤ × ℤ) :
    openFind l k = none ↔ k ∉ l.map ANode.key := by
  induction l with
  | nil => simp [openFind]
  | cons hd tl ih =>
    by_cases h : hd.key = k
    · simp [openFind, h]
    · simp [openFind, h, ih, Ne.symm h]

/-- A successful `openFind` returns a member with the key. -/
theorem openFind_some (l : List ANode) (k : ℤ × ℤ) (n : ANode)
    (h : openFind l k = some n) : n ∈ l ∧ n.key = k := by
  induction l with
  | nil => simp [openFind] at h
  | cons hd tl ih =>
    rw [openFind] at h
    split at h
    · next heq =>
      obtain rfl := Option.some.inj h
      exact ⟨List.mem_cons_self _ _, heq⟩
    · obtain ⟨h1, h2⟩ := ih h
      exact ⟨List.mem_cons_of_mem hd h1, h2⟩

/-- Deleting another key keeps a node. -/
theorem mem_openDelete_of_ne (l : List ANode) (k : ℤ × ℤ) (n : ANode) (hm : n ∈ l)
    (hk : n.key ≠ k) : n ∈ openDelete l k := by
  induction l with
  | nil => simp at hm
  | cons hd tl ih =>
    rw [openDelete]
    split
    · next heq =>
      rcases List.mem_cons.mp hm with rfl | h2
      · exact absurd heq hk
      · exact h2
    · rcases List.mem_cons.mp hm with rfl | h2
      · exact List.mem_cons_self _ _
      · exact List.mem_cons_of_mem hd (ih h2)

/-- `openDelete` is a sublist. -/
theorem openDelete_sublist (l : List ANode) (k : ℤ × ℤ) :
    List.Sublist (openDelete l k) l := by
  induction l with
  | nil => simp [openDelete]
  | cons hd tl ih =>
    rw [openDelete]
    split
    · exact List.sublist_cons_self hd tl
    · exact ih.cons₂ hd

/-- Members of `openDelete` come from the list. -/
theorem mem_of_mem_openDelete (l : List ANode) (k : ℤ × ℤ) (n : ANode)
    (h : n ∈ openDelete l k) : n ∈ l :=
  (openDelete_sublist l k).subset h

/-- With distinct keys, every node surviving a delete has another key. -/
theorem key_ne_of_mem_openDelete (l : List ANode) (k : ℤ × ℤ)
    (hnod : (l.map ANode.key).Nodup) (n : ANode) (h : n ∈ openDelete l k) :
    n.key ≠ k := by
  induction l with
  | nil => simp [openDelete] at h
  | cons hd tl ih =>
    simp only [List.map_cons, List.nodup_cons] at hnod
    rw [openDelete] at h
    split at h
    · next heq =>
      intro hk
      exact hnod.1 (by rw [heq, ← hk]; exact List.mem_map_of_mem ANode.key h)
    · next hne =>
      rcases List.mem_cons.mp h with rfl | h2
      · exact hne
      · exact ih hnod.2 h2

/-- `openUpdate` keeps the key list unchanged. -/
theorem openUpdate_keys (l : List ANode) (k : ℤ × ℤ) (g : Nat) (p : List (ℤ × ℤ)) :
    (openUpdate l k g p).map ANode.key = l.map ANode.key := by
  induction l with
  | nil => rfl
  | cons hd tl ih =>
    rw [openUpdate]
    split
    · rfl
    · simp only [List.map_cons, ih]

/-- Members of an `openUpdate` are old nodes or the rewritten node. -/
theorem mem_openUpdate (l : List ANode) (k : ℤ × ℤ) (g : Nat) (p : List (ℤ × ℤ))
    (n : ANode) (h : n ∈ openUpdate l k g p) :
    n ∈ l ∨ ∃ m ∈ l, m.key = k ∧ n = { m with g := g, pathRev := p } := by
  induction l with
  | nil => simp [openUpdate] at h
  | cons hd tl ih =>
    rw [openUpdate] at h
    split at h
    · next heq =>
      rcases List.mem_cons.mp h with rfl | h2
      · exact Or.inr ⟨hd, List.mem_cons_self _ _, heq, rfl⟩
      · exact Or.inl (List.mem_cons_of_mem hd h2)
    · rcases List.mem_cons.mp h with rfl | h2
      · exact Or.inl (List.mem_cons_self _ _)
      · rcases ih h2 with h3 | ⟨m, hm, hk, hn⟩
        · exact Or.inl (List.mem_cons_of_mem hd h3)
        · exact Or.inr ⟨m, List.mem_cons_of_mem hd hm, hk, hn⟩

/-- A node with a different key survives an `openUpdate` untouched. -/
theorem mem_openUpdate_of_ne (l : List ANode) (k : ℤ × ℤ) (g : Nat)
    (p : List (ℤ × ℤ)) (m : ANode) (hm : m ∈ l) (hk : m.key ≠ k) :
    m ∈ openUpdate l k g p := by
  induction l with
  | nil => simp at hm
  | cons hd tl ih =>
    rw [openUpdate]
    split
    · next heq =>
      rcases List.mem_cons.mp hm with rfl | h2
      · exact absurd heq hk
      · exact List.mem_cons_of_mem _ h2
    · rcases List.mem_cons.mp hm with rfl | h2
      · exact List.mem_cons_self _ _
      · exact List.mem_cons_of_mem hd (ih h2)

/-- With distinct keys, the keyed node is rewritten by `openUpdate`. -/
theorem openUpdate_hit (l : List ANode) (k : ℤ × ℤ) (g : Nat) (p : List (ℤ × ℤ))
    (m : ANode) (hm : m ∈ l) (hk : m.key = k) (hnod : (l.map ANode.key).Nodup) :
    { m with g := g, pathRev := p } ∈ openUpdate l k g p := by
  induction l with
  | nil => simp at hm
  | cons hd tl ih =>
    simp only [List.map_cons, List.nodup_cons] at hnod
    rw [openUpdate]
    split
    · next heq =>
      rcases List.mem_cons.mp hm with rfl | h2
      · exact List.mem_cons_self _ _
      · exact absurd (by rw [heq, ← hk]; exact List.mem_map_of_mem ANode.key h2)
          hnod.1
    · next hne =>
      rcases List.mem_cons.mp hm with rfl | h2
      · exact absurd hk hne
      · exact List.mem_cons_of_mem hd (ih h2 hnod.2)

-- ── the neighbour relaxation step ────────────────────────────────────

/-- Appending one fresh element keeps a list duplicate-free. -/
theorem nodup_append_one {α : Type} (l : List α) (a : α) (hl : l.Nodup) (ha : a ∉ l) :
    (l ++ [a]).Nodup := by
  simp [List.nodup_append, hl, ha]

/-- One `relaxNeighbor` call preserves node validity, key distinctness
and disjointness from the closed set; every old node keeps a
representative with the same key and no larger `g`; and afterwards the
relaxed neighbour (if not closed) is on the open list with
`g ≤ cur.g + 1`. -/
theorem relax_step_spec (s t : ℤ × ℤ) (cur : ANode) (closed2 : List (ℤ × ℤ))
    (hcur : NodeOk s t cur) (nb : ℤ × ℤ) (hadj : manP cur.key nb = 1) (hnb : inB nb)
    (o : List ANode) (hN : ∀ n ∈ o, NodeOk s t n) (hnod : (o.map ANode.key).Nodup)
    (hdis : ∀ n ∈ o, n.key ∉ closed2) :
    (∀ n ∈ relaxNeighbor t.1 t.2 cur closed2 o nb, NodeOk s t n) ∧
    ((relaxNeighbor t.1 t.2 cur closed2 o nb).map ANode.key).Nodup ∧
    (∀ n ∈ relaxNeighbor t.1 t.2 cur closed2 o nb, n.key ∉ closed2) ∧
    (∀ m ∈ o, ∃ n ∈ relaxNeighbor t.1 t.2 cur closed2 o nb,
      n.key = m.key ∧ n.g ≤ m.g) ∧
    (nb ∉ closed2 → ∃ n ∈ relaxNeighbor t.1 t.2 cur closed2 o nb,
      n.key = nb ∧ n.g ≤ cur.g + 1) := by
  simp only [relaxNeighbor]
  split
  · next hmemc =>
    exact ⟨hN, hnod, hdis, fun m hm => ⟨m, hm, rfl, le_rfl⟩, fun hq => absurd hmemc hq⟩
  · next hnc =>
    split
    · next existing hfind =>
      obtain ⟨hexm, hexk⟩ := openFind_some o nb existing hfind
      split
      · next hlt =>
        refine ⟨?_, ?_, ?_, ?_, ?_⟩
        · intro n hn
          rcases mem_openUpdate o nb _ _ n hn with h1 | ⟨m, hm, hk, rfl⟩
          · exact hN n h1
          · obtain ⟨hb1, hb2, hb3, hb4⟩ := hN m hm
            refine ⟨hb1, hb2, ?_, ?_⟩
            · show manP s m.key ≤ cur.g + 1
              rw [hk]
              have h3 := manP_triangle s cur.key nb
              have h4 := hcur.2.2.1
              omega
            · show (nb :: cur.pathRev).length = cur.g + 1 + 1
              simp [hcur.2.2.2]
        · rw [openUpdate_keys]
          exact hnod
        · intro n hn
          rcases mem_openUpdate o nb _ _ n hn with h1 | ⟨m, hm, hk, rfl⟩
          · exact hdis n h1
          · show m.key ∉ closed2
            rw [hk]
            exact hnc
        · intro m hm
          by_cases hmk : m.key = nb
          · have hme : m = existing :=
              List.inj_on_of_nodup_map hnod hm hexm (by rw [hmk, hexk])
            refine ⟨{ m with g := cur.g + 1, pathRev := nb :: cur.pathRev },
              openUpdate_hit o nb _ _ m hm hmk hnod, rfl, ?_⟩
            show cur.g + 1 ≤ m.g
            rw [hme]
            omega
          · exact ⟨m, mem_openUpdate_of_ne o nb _ _ m hm hmk, rfl, le_rfl⟩
        · intro _
          exact ⟨{ existing with g := cur.g + 1, pathRev := nb :: cur.pathRev },
            openUpdate_hit o nb _ _ existing hexm hexk hnod, hexk, le_rfl⟩
      · next hge =>
        refine ⟨hN, hnod, hdis, fun m hm => ⟨m, hm, rfl, le_rfl⟩, fun _ =>
          ⟨existing, hexm, hexk, ?_⟩⟩
        omega
    · next hfind =>
      have hknew : nb ∉ o.map ANode.key := (openFind_none_iff o nb).mp hfind
      refine ⟨?_, ?_, ?_, ?_, ?_⟩
      · intro n hn
        rcases List.mem_append.mp hn with h1 | h1
        · exact hN n h1
        · simp only [List.mem_singleton] at h1
          subst h1
          refine ⟨hnb, rfl, ?_, ?_⟩
          · show manP s nb ≤ cur.g + 1
            have h3 := manP_triangle s cur.key nb
            have h4 := hcur.2.2.1
            omega
          · show (nb :: cur.pathRev).length = cur.g + 1 + 1
            simp [hcur.2.2.2]
      · simp only [List.map_append, List.map_cons, List.map_nil]
        exact nodup_append_one _ _ hnod hknew
      · intro n hn
        rcases List.mem_append.mp hn with h1 | h1
        · exact hdis n h1
        · simp only [List.mem_singleton] at h1
          subst h1
          exact hnc
      · exact fun m hm => ⟨m, List.mem_append_left _ hm, rfl, le_rfl⟩
      · intro _
        exact ⟨_, List.mem_append_right _ (List.mem_singleton_self _), rfl, le_rfl⟩

/-- The whole neighbour-relaxation fold of one A* iteration, specified
(same guarantees as the single step, over all processed neighbours). -/
theorem relax_fold_spec (s t : ℤ × ℤ) (cur : ANode) (closed2 : List (ℤ × ℤ))
    (hcur : NodeOk s t cur) :
    ∀ (nbs : List (ℤ × ℤ)) (o : List ANode),
      (∀ nb ∈ nbs, manP cur.key nb = 1 ∧ inB nb) →
      (∀ n ∈ o, NodeOk s t n) → ((o.map ANode.key).Nodup) →
      (∀ n ∈ o, n.key ∉ closed2) →
      (∀ n ∈ nbs.foldl (relaxNeighbor t.1 t.2 cur closed2) o, NodeOk s t n) ∧
      ((nbs.foldl (relaxNeighbor t.1 t.2 cur closed2) o).map ANode.key).Nodup ∧
      (∀ n ∈ nbs.foldl (relaxNeighbor t.1 t.2 cur closed2) o, n.key ∉ closed2) ∧
      (∀ m ∈ o, ∃ n ∈ nbs.foldl (relaxNeighbor t.1 t.2 cur closed2) o,
        n.key = m.key ∧ n.g ≤ m.g) ∧
      (∀ nb ∈ nbs, nb ∉ closed2 →
        ∃ n ∈ nbs.foldl (relaxNeighbor t.1 t.2 cur closed2) o,
          n.key = nb ∧ n.g ≤ cur.g + 1) := by
  intro nbs
  induction nbs with
  | nil =>
    intro o hnbs hN hnod hdis
    exact ⟨hN, hnod, hdis, fun m hm => ⟨m, hm, rfl, le_rfl⟩, by simp⟩
  | cons hd tlnb ih =>
    intro o hnbs hN hnod hdis
    obtain ⟨hN1, hnod1, hdis1, hper1, hcov1⟩ :=
      relax_step_spec s t cur closed2 hcur hd (hnbs hd (by simp)).1
        (hnbs hd (by simp)).2 o hN hnod hdis
    obtain ⟨hN2, hnod2, hdis2, hper2, hcov2⟩ :=
      ih (relaxNeighbor t.1 t.2 cur closed2 o hd)
        (fun nb hnb2 => hnbs nb (List.mem_cons_of_mem hd hnb2)) hN1 hnod1 hdis1
    rw [List.foldl_cons]
    refine ⟨hN2, hnod2, hdis2, ?_, ?_⟩
    · intro m hm
      obtain ⟨n1, hn1, hk1, hg1⟩ := hper1 m hm
      obtain ⟨n2, hn2, hk2, hg2⟩ := hper2 n1 hn1
      exact ⟨n2, hn2, by rw [hk2, hk1], le_trans hg2 hg1⟩
    · intro nb hnbmem hnc
      rcases List.mem_cons.mp hnbmem with rfl | h2
      · obtain ⟨n1, hn1, hk1, hg1⟩ := hcov1 hnc
        obtain ⟨n2, hn2, hk2, hg2⟩ := hper2 n1 hn1
        exact ⟨n2, hn2, by rw [hk2, hk1], le_trans hg2 hg1⟩
      · exact hcov2 nb h2 hnc

-- ── the wavefront, selection optimality and the main loop ────────────

/-- Wavefront lemma: under the invariant, every unsettled in-bounds cell
is covered by an open node with optimal `g` on a shortest path from the
start to it. -/
theorem frontier_lemma (s t : ℤ × ℤ) (open_ : List ANode) (closed : List (ℤ × ℤ))
    (hI : AInv s t open_ closed) :
    ∀ (k : Nat) (z : ℤ × ℤ), manP s z = k → inB z → z ∉ closed →
      ∃ m ∈ open_, m.g = manP s m.key ∧ manP s m.key + manP m.key z = manP s z := by
  intro k
  induction k using Nat.strong_induction_on with
  | _ k ih =>
    intro z hk hz hznc
    by_cases hzs : z = s
    · subst hzs
      rcases hI.2.2.2.2.2.1 with hclosed | ⟨n, hn, hkey, hg⟩
      · exact absurd hclosed hznc
      · exact ⟨n, hn, by rw [hg, hkey, manP_self],
          by simp [hkey, manP_self]⟩
    · have hs2 : inB s := by
        rcases hI.2.2.2.2.2.1 with hclosed | ⟨n, hn, hkey, _⟩
        · exact hI.2.2.2.1 s hclosed
        · exact hkey ▸ (hI.1 n hn).1
      have hpos : 0 < manP z s := by
        rcases Nat.eq_zero_or_pos (manP z s) with h0 | h
        · exact absurd (manP_eq_zero h0) hzs
        · exact h
      obtain ⟨w, hadj, hwin, hwdist⟩ := step_toward z s hz hs2 hpos
      have he : manP s w + 1 = manP s z := by
        rw [manP_comm s w, manP_comm s z]
        exact hwdist
      by_cases hwc : w ∈ closed
      · rcases hI.2.2.2.2.2.2.1 w hwc z (by rw [manP_comm]; exact hadj) hz with
          hzc | ⟨n, hn, hkey, hg⟩
        · exact absurd hzc hznc
        · have hlow := (hI.1 n hn).2.2.1
          rw [hkey] at hlow
          refine ⟨n, hn, ?_, ?_⟩
          · rw [hkey]
            omega
          · rw [hkey, manP_self]
            omega
      · obtain ⟨m, hm, hopt, hsum⟩ := ih (manP s w) (by omega) w rfl hwin hwc
        refine ⟨m, hm, hopt, ?_⟩
        have htr1 := manP_triangle m.key w z
        have htr2 := manP_triangle s m.key z
        have hwz : manP w z = 1 := by
          rw [manP_comm]
          exact hadj
        omega

/-- The node `selectMin` picks carries an optimal `g`. -/
theorem selected_g_opt (s t : ℤ × ℤ) (open_ : List ANode) (closed : List (ℤ × ℤ))
    (cur : ANode) (hI : AInv s t open_ closed) (hsel : selectMin open_ = some cur) :
    cur.g = manP s cur.key := by
  obtain ⟨hmem, hmin⟩ := selectMin_spec open_ cur hsel
  have hcurOk := hI.1 cur hmem
  obtain ⟨m, hm, hopt, hsum⟩ := frontier_lemma s t open_ closed hI (manP s cur.key)
    cur.key rfl hcurOk.1 (hI.2.2.1 cur hmem)
  have hmOk := hI.1 m hm
  have hmin2 := hmin m hm
  simp only [aBetter, decide_eq_true_eq, not_or, not_and, not_lt] at hmin2
  have hle : cur.f ≤ m.f := hmin2.1
  simp only [ANode.f] at hle
  have h1 := hmOk.2.1
  have h2 := hcurOk.2.1
  have h3 := hcurOk.2.2.1
  have htr := manP_triangle m.key cur.key t
  omega

set_option maxHeartbeats 1600000 in
/-- The A* main loop on the empty grid returns a path of exactly
`manP s t + 1` points whenever the invariant holds and the fuel covers
the unsettled cells. -/
theorem astarLoop_len (s t : ℤ × ℤ) (ht : inB t) :
    ∀ (fuel : Nat) (open_ : List ANode) (closed : List (ℤ × ℤ)),
      AInv s t open_ closed → 1601 ≤ closed.length + fuel →
      (astarLoop Grid.new t.1 t.2 fuel open_ closed).length = manP s t + 1 := by
  intro fuel
  induction fuel with
  | zero =>
    intro open_ closed hI hft
    have hcard := closed_card closed hI.2.2.2.2.1 hI.2.2.2.1
    omega
  | succ n ih =>
    intro open_ closed hI hft
    obtain ⟨m0, hm0, _, _⟩ := frontier_lemma s t open_ closed hI (manP s t) t rfl ht
      hI.2.2.2.2.2.2.2
    cases hsel : selectMin open_ with
    | none =>
      exact absurd ((selectMin_eq_none open_ hsel) ▸ hm0) (List.not_mem_nil m0)
    | some cur =>
      simp only [astarLoop, hsel]
      have hopt := selected_g_opt s t open_ closed cur hI hsel
      obtain ⟨hcmem, hmin⟩ := selectMin_spec open_ cur hsel
      have hcurOk := hI.1 cur hcmem
      split
      · next hit =>
        have hkey : cur.key = t := by
          obtain ⟨t1, t2⟩ := t
          simp only [ANode.key, Prod.mk.injEq]
          exact ⟨hit.1, hit.2⟩
        rw [List.length_reverse, hcurOk.2.2.2, hopt, hkey]
      · next hmiss =>
        have hN1 : ∀ n ∈ openDelete open_ cur.key, NodeOk s t n :=
          fun n hn => hI.1 n (mem_of_mem_openDelete _ _ _ hn)
        have hnod1 : ((openDelete open_ cur.key).map ANode.key).Nodup :=
          List.Nodup.sublist (List.Sublist.map _ (openDelete_sublist _ _)) hI.2.1
        have hdis1 : ∀ n ∈ openDelete open_ cur.key, n.key ∉ closed ++ [cur.key] := by
          intro n hn
          have h1 := hI.2.2.1 n (mem_of_mem_openDelete _ _ _ hn)
          have h2 := key_ne_of_mem_openDelete open_ cur.key hI.2.1 n hn
          simp only [List.mem_append, List.mem_singleton]
          rintro (h3 | h3)
          · exact h1 h3
          · exact h2 h3
        have hnbs : ∀ nb ∈ Grid.new.getNeighbors cur.x cur.y,
            manP cur.key nb = 1 ∧ inB nb := by
          intro nb hnb
          exact (mem_neighbors_new cur.x cur.y nb).mp hnb
        obtain ⟨hN2, hnod2, hdis2, hper2, hcov2⟩ :=
          relax_fold_spec s t cur (closed ++ [cur.key]) hcurOk
            (Grid.new.getNeighbors cur.x cur.y) (openDelete open_ cur.key)
            hnbs hN1 hnod1 hdis1
        have hI2 : AInv s t
            ((Grid.new.getNeighbors cur.x cur.y).foldl
              (relaxNeighbor t.1 t.2 cur (closed ++ [cur.key]))
              (openDelete open_ cur.key))
            (closed ++ [cur.key]) := by
          refine ⟨hN2, hnod2, hdis2, ?_, ?_, ?_, ?_, ?_⟩
          · intro c hc
            rcases List.mem_append.mp hc with h1 | h1
            · exact hI.2.2.2.1 c h1
            · simp only [List.mem_singleton] at h1
              exact h1 ▸ hcurOk.1
          · exact nodup_append_one _ _ hI.2.2.2.2.1 (hI.2.2.1 cur hcmem)
          · rcases hI.2.2.2.2.2.1 with h1 | ⟨n, hn, hkey, hg⟩
            · exact Or.inl (List.mem_append_left _ h1)
            · by_cases hcs : cur.key = s
              · exact Or.inl (List.mem_append_right _ (by simp [hcs]))
              · have hn1 : n ∈ openDelete open_ cur.key :=
                  mem_openDelete_of_ne open_ cur.key n hn
                    (by rw [hkey]; exact fun h => hcs h.symm)
                obtain ⟨n2, hn2, hk2, hg2⟩ := hper2 n hn1
                exact Or.inr ⟨n2, hn2, by rw [hk2, hkey], by omega⟩
          · intro c hc nb hadj hnbB
            rcases List.mem_append.mp hc with h1 | h1
            · rcases hI.2.2.2.2.2.2.1 c h1 nb hadj hnbB with h2 | ⟨n, hn, hkey, hg⟩
              · exact Or.inl (List.mem_append_left _ h2)
              · by_cases hnbc : nb = cur.key
                · exact Or.inl (List.mem_append_right _ (by simp [hnbc]))
                · have hn1 : n ∈ openDelete open_ cur.key :=
                    mem_openDelete_of_ne open_ cur.key n hn (by rw [hkey]; exact hnbc)
                  obtain ⟨n2, hn2, hk2, hg2⟩ := hper2 n hn1
                  exact Or.inr ⟨n2, hn2, by rw [hk2, hkey], by omega⟩
            · simp only [List.mem_singleton] at h1
              subst h1
              by_cases hnbc2 : nb ∈ closed ++ [cur.key]
              · exact Or.inl hnbc2
              · have hnbmem : nb ∈ Grid.new.getNeighbors cur.x cur.y :=
                  (mem_neighbors_new cur.x cur.y nb).mpr ⟨hadj, hnbB⟩
                obtain ⟨n2, hn2, hk2, hg2⟩ := hcov2 nb hnbmem hnbc2
                exact Or.inr ⟨n2, hn2, hk2, by omega⟩
          · simp only [List.mem_append, List.mem_singleton]
            rintro (h1 | h1)
            · exact hI.2.2.2.2.2.2.2 h1
            · exact hmiss ⟨by rw [h1]; rfl, by rw [h1]; rfl⟩
        have hlen2 : 1601 ≤ (closed ++ [cur.key]).length + n := by
          simp only [List.length_append, List.length_cons, List.length_nil]
          omega
        exact ih _ (closed ++ [cur.key]) hI2 hlen2

/-- **C5.** For every pair of in-bounds cells on the all-walkable
(empty) grid, `findPath` returns a path whose number of points equals
the Manhattan distance between start and end plus 1. -/
theorem C5_empty_grid_manhattan_path (sx sy ex ey : ℤ)
    (hs : Grid.isInBounds sx sy = true) (ht : Grid.isInBounds ex ey = true) :
    (findPath Grid.new sx sy ex ey).length = manhattan sx sy ex ey + 1 := by
  have hI0 : AInv (sx, sy) (ex, ey)
      [{ x := sx, y := sy, g := 0, h := manhattan sx sy ex ey,
         pathRev := [(sx, sy)] }] [] := by
    refine ⟨?_, by simp, by simp, by simp, List.nodup_nil,
      Or.inr ⟨_, List.mem_singleton_self _, rfl, rfl⟩, by simp, by simp⟩
    intro n hn
    simp only [List.mem_singleton] at hn
    subst hn
    exact ⟨hs, rfl, le_of_eq (manP_self _), rfl⟩
  have hlen := astarLoop_len (sx, sy) (ex, ey) ht 1601
    [{ x := sx, y := sy, g := 0, h := manhattan sx sy ex ey, pathRev := [(sx, sy)] }]
    [] hI0 (by simp)
  by_cases heq : sx = ex ∧ sy = ey
  · obtain ⟨rfl, rfl⟩ := heq
    simp [findPath, hs, ht, isWalkable_new, manhattan]
  · simp only [findPath, hs, ht, isWalkable_new, and_self, not_true, if_false,
      Bool.not_true, heq, if_neg, if_true, not_false_iff]
    exact hlen

/-- Witness for C5 at a concrete in-bounds pair `(3,4) → (10, 2)`. -/
theorem C5_empty_grid_manhattan_path_witness :
    Grid.isInBounds 3 4 = true ∧ Grid.isInBounds 10 2 = true ∧
    (findPath Grid.new 3 4 10 2).length = manhattan 3 4 10 2 + 1 :=
  ⟨by decide, by decide, C5_empty_grid_manhattan_path 3 4 10 2 (by decide) (by decide)⟩

end ZombieZone
